import Mathlib

/-!
A shallow embedding of `inspectDockerNetworkingPlugin.go`.

The program `inspectDockerNetworkingPlugin.go` inspects a Docker networking plugin:
it validates the plugin reference, logs in, fetches digest / manifest / configuration
blob from the registry, installs the plugin, creates and deletes a test network,
removes the plugin and prints a summary.

Go strings are embedded as lists of characters (`Str`).  Every character the program
searches for (`/`, `:`, `;`, `|`, `&`, line feed, white space) is a single code point, so
positions and slices over code points cut the text at the same places as Go's byte
offsets do.
-/

namespace InspectPlugin

/-- A Go string. -/
abbrev Str := List Char

/-! ## Go library functions used by the program -/

/-- Go `unicode.IsSpace`: the Latin-1 white space characters and the other code points
with the Unicode White_Space property. -/
def isSpace (c : Char) : Bool :=
  c = '\t' || c = '\n' || c.toNat = 0x0B || c.toNat = 0x0C || c = '\r' || c = ' ' ||
  c.toNat = 0x85 || c.toNat = 0xA0 || c.toNat = 0x1680 ||
  (0x2000 ≤ c.toNat && c.toNat ≤ 0x200A) ||
  c.toNat = 0x2028 || c.toNat = 0x2029 || c.toNat = 0x202F || c.toNat = 0x205F ||
  c.toNat = 0x3000

/-- Go `strings.TrimSpace`: leading and trailing white space removed. -/
def TrimSpace (s : Str) : Str :=
  ((s.dropWhile isSpace).reverse.dropWhile isSpace).reverse

/-- Go `strings.Trim(s, cutset)`: leading and trailing characters of `cutset` removed. -/
def Trim (s cutset : Str) : Str :=
  ((s.dropWhile (fun c => decide (c ∈ cutset))).reverse.dropWhile
    (fun c => decide (c ∈ cutset))).reverse

/-- Scan for the first occurrence of `substr`, `i` being the offset already passed. -/
def indexFrom (substr : Str) : Str → Nat → Option Nat
  | [], i => if substr = [] then some i else none
  | c :: cs, i => if substr.isPrefixOf (c :: cs) then some i else indexFrom substr cs (i + 1)

/-- Go `strings.Index(s, substr)`; `none` stands for Go's `-1`. -/
def Index (s substr : Str) : Option Nat := indexFrom substr s 0

/-- Scan for the last occurrence of `substr`: `i` is the offset already passed and
`found` the last occurrence seen so far. -/
def lastIndexFrom (substr : Str) : Str → Nat → Option Nat → Option Nat
  | [], i, found => if substr = [] then some i else found
  | c :: cs, i, found =>
    lastIndexFrom substr cs (i + 1) (if substr.isPrefixOf (c :: cs) then some i else found)

/-- Go `strings.LastIndex(s, substr)`; `none` stands for Go's `-1`. -/
def LastIndex (s substr : Str) : Option Nat := lastIndexFrom substr s 0 none

/-- Go `strings.HasPrefix(s, p)`. -/
def HasPrefix (s p : Str) : Bool := p.isPrefixOf s

/-- Go `strings.Join(elems, sep)`. -/
def Join (elems : List Str) (sep : Str) : Str := sep.intercalate elems

/-- Go `strings.Replace(s, old, new, -1)` for a one-character `old`. -/
def ReplaceAll (s : Str) (old : Char) (new : Str) : Str :=
  (s.map (fun c => if c = old then new else [c])).flatten

/-- Go `strconv.FormatBool`. -/
def FormatBool (b : Bool) : Str := if b then "true".toList else "false".toList

/-- Go `fmt.Sprintf("%-10s", s)`: `s` padded with spaces on the right to width 10. -/
def padRight10 (s : Str) : Str := s ++ List.replicate (10 - s.length) ' '

/-! ## Sanitising the plugin reference (`main`, lines 796-804) -/

/-- The character class `[;|&]` of the sanitising regular expression. -/
def isShellSeparator (c : Char) : Bool := c = ';' || c = '|' || c = '&'

/-- The tail `.*$` of the regular expression: `.` matches every character but the line
feed, and `$` (no `m` flag) matches at the end of the text only. -/
def matchesDotStarEnd (rest : Str) : Bool := rest.all (fun c => c != '\n')

/-- The body `(.*?)[;|&].*$` of the regular expression from the current position, with
`captured` the characters the lazy group `(.*?)` holds already.  Leftmost-first
matching: the lazy group first tries to stop (the next character is in `[;|&]` and `.*$`
matches what follows); if that fails it takes one more character, which `.` accepts
only when it is no line feed. -/
def matchLazyGroup (captured : Str) : Str → Option Str
  | [] => none
  | c :: cs =>
    if isShellSeparator c && matchesDotStarEnd cs then some captured
    else if c != '\n' then matchLazyGroup (captured ++ [c]) cs
    else none

/-- The value `match[1]` of
`regexp.MustCompile("^(.*?)[;|&].*$").FindStringSubmatch(s)`, `none` when the expression
does not match (the anchor `^` fixes the start of the match at offset 0). -/
def findSubmatch1 (s : Str) : Option Str := matchLazyGroup [] s

/-- The effective plugin reference: lines 796-804 of `main`. -/
def sanitize (arg0 : Str) : Str :=
  match findSubmatch1 arg0 with
  | some m1 => m1
  | none => arg0

/-! ## Data of the run -/

/-- Outcome of one external process: the raw combined output and the error of
`exec.Command(...).CombinedOutput()` (`none` for a nil error, else its text). -/
structure CmdResult where
  output : Str
  err : Option Str
  deriving DecidableEq, Repr

/-- Modelled from the spec: the type `dockerAPI.DockerImageManifest` is declared in the
imported package `dockerAPI`; of a manifest the program reads the ordered layer digests
(`Layers[i].Digest`) only. -/
structure DockerImageManifest where
  Layers : List Str
  deriving DecidableEq, Repr

/-- Modelled from the spec: the type `dockerAPI.DockerPluginConfigurationBlob` is
declared in the imported package `dockerAPI`; these are the fields `main` reads.  `User`
is a Go map, held here as its keys in the order the `range` loop visits them. -/
structure DockerPluginConfigurationBlob where
  DockerVersion : Str
  Description : Str
  Documentation : Str
  InterfaceSocket : Str
  InterfaceTypes : List Str
  IpcHost : Bool
  PidHost : Bool
  WorkDir : Str
  Entrypoint : List Str
  User : List Str
  deriving DecidableEq, Repr

/-- The Go struct `jsonResultsStruct`. -/
structure jsonResultsStruct where
  Status : Str
  Message : Str
  deriving DecidableEq, Repr

/-- The Go struct `jsonOutputStruct`. -/
structure jsonOutputStruct where
  Date : Str
  SystemOperatingSystem : Str
  SystemArchitecture : Str
  SystemDockerVersion : Str
  DockerNetworkingPlugin : Str
  Description : Str
  Documentation : Str
  DockerNetworkingPluginDigest : Str
  DockerNetworkingPluginBaseLayerImageDigest : Str
  DockerNetworkingPluginDockerVersion : Str
  EntryPoint : Str
  InterfaceSocket : Str
  InterfaceSocketTypes : Str
  WorkDir : Str
  User : Str
  IpcHost : Bool
  PidHost : Bool
  Errors : Nat
  Warnings : Nat
  HTMLReportFile : Str
  VulnerabilitiesScanURL : Str
  Results : List jsonResultsStruct
  deriving DecidableEq, Repr

/-- The Go struct `inspectionStruct`.  `Errors` and `Warnings` are Go `int`s; each
increment comes with one more entry of `Messages`, so they stay far below the range of
`int` and are held as natural numbers. -/
structure inspectionStruct where
  InspectionDate : Str
  SystemDockerVersion : Str
  SystemOperatingSystem : Str
  SystemArchitecture : Str
  Errors : Nat
  Warnings : Nat
  verboseOutput : Bool
  Messages : List Str
  DockerNetworkingPlugin : Str
  DockerNetworkingPluginRepo : Str
  DockerNetworkingPluginTag : Str
  Description : Str
  InterfaceSocket : Str
  InterfaceSocketTypes : Str
  Documentation : Str
  DockerNetworkingPluginDockerVersion : Str
  DockerNetworkingPluginDigest : Str
  DockerNetworkingPluginBaseLayerImageDigest : Str
  EntryPoint : Str
  WorkDir : Str
  User : Str
  IpcHost : Str
  PidHost : Str
  HTMLMessages : List Str
  TestResults : List Str
  HTMLReportFile : Str
  VulnerabilitiesScanURL : Str
  deriving DecidableEq, Repr

/-- What the run does to the outside, in the order it happens. -/
inductive Event
  /-- an external process started by `runCommand`, with its outcome -/
  | exec (cmd : Str) (args : List Str) (res : CmdResult)
  /-- a call of `dockerAPI.GetDockerImageDigest` -/
  | getDigest (user password image kind : Str)
  /-- a call of `dockerAPI.GetDockerImageManifest` -/
  | getManifest (user password image kind : Str)
  /-- a call of `dockerAPI.GetDockerPluginConfigBlob` -/
  | getConfigBlob (user password image : Str)
  /-- `time.Sleep(1 * time.Second)` -/
  | sleep
  /-- the prompt `Enter your Docker User ID: ` -/
  | promptUser
  /-- the prompt `Enter your Docker Password: ` -/
  | promptPassword
  /-- a JSON document encoded to standard output -/
  | json (doc : jsonOutputStruct)
  /-- the report file created by `os.Create` -/
  | createFile (path : Str)
  deriving DecidableEq, Repr

/-- The package-level variables of the program, the two endpoint variables of the
package `dockerAPI` that `main` assigns, and the record of events. -/
structure Globals where
  stepNumber : Nat
  jsonOutput : Bool
  htmlOutput : Bool
  exitCode : Nat
  dockerPluginManifest : DockerImageManifest
  dockerPluginConfigurationBlob : DockerPluginConfigurationBlob
  inspectionData : inspectionStruct
  DockerRegistryAuthEndpoint : Str
  DockerRegistryAPIEndpoint : Str
  trace : List Event
  deriving DecidableEq, Repr

/-- The parsed command line: the values of the flags after `flag.Parse()` and the
positional arguments.  An endpoint flag is `none` when it is not given, in which case
the flag holds its default value. -/
structure Flags where
  dockerUser : Str
  dockerPassword : Str
  dockerRegistryAuthEndpoint : Option Str
  dockerRegistryAPIEndpoint : Option Str
  json : Bool
  html : Bool
  help : Bool
  verbose : Bool
  args : List Str

/-- Everything outside the program that its behaviour depends on.  Each answer that may
change over time takes the number of events recorded so far as its first argument. -/
structure World where
  /-- `runtime.GOOS` -/
  GOOS : Str
  /-- `runtime.GOARCH` -/
  GOARCH : Str
  /-- `os.Getenv`: the empty string for a variable that is not set -/
  getenv : Str → Str
  /-- `todaysDateTime.Format("Mon Jan 02 15:04:05 2006")` -/
  inspectionDate : Str
  /-- `todaysDateTime.Format("2006-01-02_03-04-05")` -/
  reportStamp : Str
  /-- outcome of the external process started with this program and these arguments -/
  run : Nat → Str → List Str → CmdResult
  /-- value of `dockerUser` after each `fmt.Scanf`, one entry per prompt; after the last
  entry the standard input is at its end -/
  scanUser : List Str
  /-- result of each `gopass.GetPasswdMasked()`, one entry per prompt -/
  readPassword : List (Str × Option Str)
  /-- `dockerAPI.GetDockerImageDigest`, given the two endpoints and the arguments -/
  GetDockerImageDigest : Str → Str → Str → Str → Str → Str → Str × Option Str
  /-- `dockerAPI.GetDockerImageManifest` -/
  GetDockerImageManifest : Str → Str → Str → Str → Str → Str → DockerImageManifest × Option Str
  /-- `dockerAPI.GetDockerPluginConfigBlob` -/
  GetDockerPluginConfigBlob :
    Str → Str → Str → Str → Str → DockerPluginConfigurationBlob × Option Str
  /-- `os.Stat("html")` reports that the directory does not exist -/
  htmlDirMissing : Bool
  /-- `os.MkdirAll("html", 0755)` fails -/
  mkdirFails : Bool
  /-- `os.Create` of the report file fails -/
  createFails : Bool
  /-- parsing or executing the HTML template fails -/
  templateFails : Bool
  /-- `jsonEncoder.Encode` fails -/
  encodeFails : Nat → Bool

/-! ## The run monad -/

/-- How a piece of the program ends: it returns, the process exits (`os.Exit`,
`log.Fatal`), the Go runtime panics, or a prompt loop never gets an answer. -/
inductive Res (α : Type)
  | ok (a : α) (g : Globals)
  | exit (code : Nat) (g : Globals)
  | panic (g : Globals)
  | hang (g : Globals)
  deriving DecidableEq, Repr

/-- The globals at the end of a piece of the program. -/
def Res.globals {α : Type} : Res α → Globals
  | .ok _ g => g
  | .exit _ g => g
  | .panic g => g
  | .hang g => g

/-- The exit status of the process: a Go panic ends the process with status 2. -/
def Res.exitStatus {α : Type} : Res α → Option Nat
  | .ok _ _ => none
  | .exit code _ => some code
  | .panic _ => some 2
  | .hang _ => none

/-- A piece of the program: a function of the globals. -/
def Run (α : Type) : Type := Globals → Res α

/-- Sequencing: what follows runs only when the first piece returns. -/
def Run.bind {α β : Type} (m : Run α) (f : α → Run β) : Run β := fun g =>
  match m g with
  | .ok a g1 => f a g1
  | .exit code g1 => .exit code g1
  | .panic g1 => .panic g1
  | .hang g1 => .hang g1

instance : Monad Run where
  pure a := fun g => .ok a g
  bind := Run.bind

/-- Read the globals. -/
def getGlobals : Run Globals := fun g => .ok g g

/-- Assign to globals. -/
def modifyGlobals (f : Globals → Globals) : Run Unit := fun g => .ok () (f g)

/-- Assign to fields of `inspectionData`. -/
def modifyData (f : inspectionStruct → inspectionStruct) : Run Unit :=
  modifyGlobals (fun g => { g with inspectionData := f g.inspectionData })

/-- Record an event. -/
def emit (e : Event) : Run Unit := modifyGlobals (fun g => { g with trace := g.trace ++ [e] })

/-- Go `os.Exit(code)`; `log.Fatal` is `os.Exit(1)` after printing. -/
def osExit {α : Type} (code : Nat) : Run α := fun g => .exit code g

/-- A Go runtime panic. -/
def goPanic {α : Type} : Run α := fun g => .panic g

/-- Go `time.Sleep(1 * time.Second)`. -/
def sleepOneSecond : Run Unit := emit .sleep

/-! ## Recording findings

Text written to the terminal (`printMessage`, `usage`, `log.Println`) is read by no later
step of the program and is not part of the model; the calls that only print are left
out. -/

/-- Go `formatHTMLError`. -/
def formatHTMLError (message : Str) : Str :=
  "<tr><td class='error_message'>Error</td><td>".toList ++ message ++ "</td></tr>".toList

/-- Go `formatHTMLWarning`. -/
def formatHTMLWarning (message : Str) : Str :=
  "<tr><td class='warning_message'>Warning</td><td>".toList ++ message ++ "</td></tr>".toList

/-- Go `formatHTMLSuccess`. -/
def formatHTMLSuccess (message : Str) : Str :=
  "<tr><td class='success_message'>Passed</td><td>".toList ++ message ++ "</td></tr>".toList

/-- The test `runtime.GOOS != "windows" && jsonOutput == false` of the three colour
functions. -/
def useColour (w : World) (g : Globals) : Bool :=
  w.GOOS != "windows".toList && g.jsonOutput == false

/-- Go `boldRed`. -/
def boldRed (w : World) (g : Globals) (str : Str) : Str :=
  if useColour w g then "\x1b[1;31m".toList ++ str ++ "\x1b[0m".toList else str

/-- Go `boldGreen`. -/
def boldGreen (w : World) (g : Globals) (str : Str) : Str :=
  if useColour w g then "\x1b[1;32m".toList ++ str ++ "\x1b[0m".toList else str

/-- Go `boldYellow`. -/
def boldYellow (w : World) (g : Globals) (str : Str) : Str :=
  if useColour w g then "\x1b[1;33m".toList ++ str ++ "\x1b[0m".toList else str

/-- Go `printSuccess`. -/
def printSuccess (w : World) (message : Str) : Run Unit := fun g =>
  let d := g.inspectionData
  let d := { d with HTMLMessages := d.HTMLMessages ++ [formatHTMLSuccess message] }
  let message := padRight10 "Passed:".toList ++ message
  let d := { d with Messages := d.Messages ++ [boldGreen w g (Trim message "\n".toList)] }
  .ok () { g with inspectionData := d }

/-- Go `printWarning`. -/
def printWarning (w : World) (message : Str) : Run Unit := fun g =>
  let d := g.inspectionData
  let d := { d with HTMLMessages := d.HTMLMessages ++ [formatHTMLWarning message] }
  let message := padRight10 "Warning:".toList ++ message
  let d := { d with Messages := d.Messages ++ [boldYellow w g (Trim message "\n".toList)] }
  let d := { d with Warnings := d.Warnings + 1 }
  .ok () { g with inspectionData := d }

/-- Go `printError`. -/
def printError (w : World) (message : Str) : Run Unit := fun g =>
  let d := g.inspectionData
  let d := { d with HTMLMessages := d.HTMLMessages ++ [formatHTMLError message] }
  let message := padRight10 "Error:".toList ++ message
  let d := { d with Messages := d.Messages ++ [boldRed w g (Trim message "\n".toList)] }
  let d := { d with Errors := d.Errors + 1 }
  .ok () { g with inspectionData := d, exitCode := 1 }

/-- Go `printStep`: the step counter goes up, the header is printed. -/
def printStep : Run Unit := modifyGlobals (fun g => { g with stepNumber := g.stepNumber + 1 })

/-- Go `parseMessage`: split at the first colon. -/
def parseMessage (message : Str) : Str × Str :=
  match Index message ":".toList with
  | some index => (message.take index, TrimSpace (message.drop (index + 1)))
  | none => ([], message)

/-- The JSON document `generateJSONOutput` fills in before encoding it.  The `Results`
loop appends one entry per recorded message. -/
def jsonOutputData (g : Globals) : jsonOutputStruct :=
  let d := g.inspectionData
  { Date := d.InspectionDate
    SystemOperatingSystem := d.SystemOperatingSystem
    SystemArchitecture := d.SystemArchitecture
    SystemDockerVersion := d.SystemDockerVersion
    DockerNetworkingPlugin := d.DockerNetworkingPlugin
    Description := d.Description
    Documentation := d.Documentation
    DockerNetworkingPluginDigest := d.DockerNetworkingPluginDigest
    DockerNetworkingPluginBaseLayerImageDigest := d.DockerNetworkingPluginBaseLayerImageDigest
    DockerNetworkingPluginDockerVersion := d.DockerNetworkingPluginDockerVersion
    InterfaceSocket := d.InterfaceSocket
    InterfaceSocketTypes := d.InterfaceSocketTypes
    IpcHost := g.dockerPluginConfigurationBlob.IpcHost
    PidHost := g.dockerPluginConfigurationBlob.PidHost
    EntryPoint := d.EntryPoint
    WorkDir := d.WorkDir
    User := d.User
    Errors := d.Errors
    Warnings := d.Warnings
    VulnerabilitiesScanURL := d.VulnerabilitiesScanURL
    HTMLReportFile := if g.htmlOutput then d.HTMLReportFile else []
    Results := d.Messages.foldl
      (fun results statusMessage =>
        let (status, message) := parseMessage statusMessage
        results ++ [{ Status := status, Message := message }])
      [] }

/-- Go `generateJSONOutput`: the document is encoded to standard output; a failing
encoder ends the process through `log.Fatal`. -/
def generateJSONOutput (w : World) : Run Unit := fun g =>
  if w.encodeFails g.trace.length then .exit 1 g
  else .ok () { g with trace := g.trace ++ [.json (jsonOutputData g)] }

/-- Go `logFatalError`. -/
def logFatalError (w : World) (err : Str) : Run Unit := fun g =>
  if g.jsonOutput = true then
    (do printError w err
        generateJSONOutput w : Run Unit) g
  else .ok () g

/-! ## Running commands -/

/-- Go `runCommand`: the trimmed command line is handed to the shell of the platform;
the result is the trimmed combined output and the error. -/
def runCommand (w : World) (command : Str) : Run (Str × Option Str) := fun g =>
  let command := TrimSpace command
  if command = [] then .ok ([], some "you must specify a command!".toList) g
  else
    let cmd : Str := if w.GOOS = "windows".toList then "Powershell.exe".toList
      else "/bin/bash".toList
    let args : List Str :=
      if w.GOOS = "windows".toList then
        ["-ExecutionPolicy".toList, "Unrestricted".toList, "-NoLogo".toList,
          "-NoProfile".toList, "-NonInteractive".toList, "-Command".toList] ++ [command]
      else ["-c".toList, command]
    let res := w.run g.trace.length cmd args
    .ok (TrimSpace res.output, res.err) { g with trace := g.trace ++ [.exec cmd args res] }

/-- Go `getOperatingSystemInfo`. -/
def getOperatingSystemInfo (w : World) : Run (Str × Option Str) :=
  if w.GOOS = "darwin".toList then do
    let (output, err) ← runCommand w "defaults read loginwindow SystemVersionStampAsString".toList
    match err with
    | some e => pure ([], some e)
    | none =>
      pure ("Operating System: MacOS ".toList ++ w.GOOS ++ " Version: ".toList ++ output, none)
  else if w.GOOS = "windows".toList then do
    let (output, err) ← runCommand w "(Get-CimInstance win32_operatingsystem).caption".toList
    match err with
    | some e => pure ([], some e)
    | none => pure ("Operating System: ".toList ++ output, none)
  else if w.GOOS = "linux".toList then do
    let (output, err) ← runCommand w
      "cat /etc/os-release | grep 'PRETTY_NAME' | awk -F '\"' '\x7b print $2 \x7d'".toList
    match err with
    | some e => pure ([], some e)
    | none => pure ("Operating System: ".toList ++ output, none)
  else pure ("Operating System is unknown!".toList, none)

/-- Go `generateHTMLReport`.  The deferred function closes the file and tests an error
variable that is nil whenever the function returns, so it does nothing else. -/
def generateHTMLReport (w : World) : Run Unit := do
  (if w.htmlDirMissing && w.mkdirFails then osExit 1 else pure ())
  modifyData (fun d => { d with HTMLReportFile :=
    "html/".toList ++ ReplaceAll d.DockerNetworkingPluginRepo '/' "-".toList ++ "-".toList ++
      d.DockerNetworkingPluginTag ++ "_inspection_report_".toList ++ w.reportStamp ++
      ".html".toList })
  (if w.createFails then osExit 1 else pure ())
  let g ← getGlobals
  emit (.createFile g.inspectionData.HTMLReportFile)
  (if w.templateFails then osExit 1 else pure ())
  if w.GOOS = "darwin".toList then
    let _ ← runCommand w ("nohup open ".toList ++ g.inspectionData.HTMLReportFile ++ " &".toList)
    pure ()
  else pure ()

/-! ## Plugin life cycle and network test -/

/-- The constant `testNetworkName`. -/
def testNetworkName : Str := "test_network".toList

/-- The message of a failed command: `errMessage + ", " + output` when there is output,
`errMessage + ", " + err.Error()` otherwise. -/
def withFailureText (errMessage output err : Str) : Str :=
  if output ≠ [] then errMessage ++ ", ".toList ++ output
  else errMessage ++ ", ".toList ++ err

/-- Go `dockerNetworkingPluginInstalled`. -/
def dockerNetworkingPluginInstalled (w : World) (dockerNetworkPlugin : Str) : Run Bool := do
  let (_, err) ← runCommand w
    ("docker plugin inspect --format '\x7b\x7b .Name \x7d\x7d' ".toList ++ dockerNetworkPlugin)
  match err with
  | some _ => pure false
  | none => pure true

/-- Go `removeDockerNetworkingPlugin`. -/
def removeDockerNetworkingPlugin (w : World) (pluginName : Str) : Run Bool := do
  let (output, err) ← runCommand w
    ("docker plugin remove ".toList ++ pluginName ++ " --force".toList)
  match err with
  | some e =>
    printError w (withFailureText
      ("Unable to remove the Docker networking plugin ".toList ++ pluginName ++ "!".toList)
      output e)
    pure false
  | none =>
    printSuccess w ("Docker network plugin ".toList ++ pluginName ++ " was removed.".toList)
    pure true

/-- Go `installDockerNetworkingPlugin`. -/
def installDockerNetworkingPlugin (w : World) (dockerNetworkingPlugin : Str) : Run Bool := do
  let _ ← runCommand w "docker swarm init".toList
  printStep
  let installed ← dockerNetworkingPluginInstalled w dockerNetworkingPlugin
  (if installed = true then do
    let g ← getGlobals
    printWarning w ("The Docker networking plugin ".toList ++
      g.inspectionData.DockerNetworkingPlugin ++
      " is already installed and will be removed.".toList)
    let _ ← removeDockerNetworkingPlugin w dockerNetworkingPlugin
    pure ()
  else pure ())
  let (output, err) ← runCommand w
    ("docker plugin install --grant-all-permissions ".toList ++ dockerNetworkingPlugin)
  match err with
  | some e =>
    printError w
      (withFailureText "Unable to install the Docker Networking Plugin!".toList output e)
    pure false
  | none =>
    let g ← getGlobals
    printSuccess w ("Docker networking plugin ".toList ++
      g.inspectionData.DockerNetworkingPlugin ++ " has been installed successfully.".toList)
    pure true

/-- Go `createDockerNetwork`. -/
def createDockerNetwork (w : World) (pluginName : Str) : Run Bool := do
  let _ ← runCommand w "docker network rm test_network".toList
  sleepOneSecond
  let (output, err) ← runCommand w
    ("docker network create --driver=".toList ++ pluginName ++ " ".toList ++ testNetworkName)
  match err with
  | some e =>
    printError w (withFailureText
      ("Unable to create a Docker network using plugin ".toList ++ pluginName ++ "!".toList)
      output e)
    pure false
  | none =>
    sleepOneSecond
    printSuccess w ("Docker network was created using plugin ".toList ++ pluginName)
    pure true

/-- Go `removeDockerNetwork`. -/
def removeDockerNetwork (w : World) (pluginName : Str) : Run Bool := do
  sleepOneSecond
  let (output, err) ← runCommand w ("docker network rm ".toList ++ testNetworkName)
  match err with
  | some e =>
    printError w (withFailureText
      ("Unable to remove the Docker test network using plugin ".toList ++ pluginName ++
        "!".toList)
      output e)
    pure false
  | none =>
    printSuccess w ("Docker network was removed using plugin ".toList ++ pluginName)
    pure true

/-- Go `runNetworkingPluginTest`. -/
def runNetworkingPluginTest (w : World) (pluginName : Str) : Run Unit := do
  printStep
  let ok ← createDockerNetwork w pluginName
  (if ok = false then
    printError w ("Docker Network Plugin Test has failed! Unable to create a Docker network using the plugin: ".toList ++ pluginName)
  else pure ())
  printStep
  let ok ← removeDockerNetwork w pluginName
  if ok = false then
    printError w ("Docker Network Plugin Test has failed! Unable to delete a Docker network using the plugin: ".toList ++ pluginName)
  else pure ()

/-! ## The main function, in the order of the source -/

/-- The zero value `dockerAPI.DockerPluginConfigurationBlob{}`. -/
def emptyConfigurationBlob : DockerPluginConfigurationBlob :=
  { DockerVersion := [], Description := [], Documentation := [], InterfaceSocket := [],
    InterfaceTypes := [], IpcHost := false, PidHost := false, WorkDir := [],
    Entrypoint := [], User := [] }

/-- The zero value `inspectionStruct{}`. -/
def emptyInspectionData : inspectionStruct :=
  { InspectionDate := [], SystemDockerVersion := [], SystemOperatingSystem := [],
    SystemArchitecture := [], Errors := 0, Warnings := 0, verboseOutput := false,
    Messages := [], DockerNetworkingPlugin := [], DockerNetworkingPluginRepo := [],
    DockerNetworkingPluginTag := [], Description := [], InterfaceSocket := [],
    InterfaceSocketTypes := [], Documentation := [],
    DockerNetworkingPluginDockerVersion := [], DockerNetworkingPluginDigest := [],
    DockerNetworkingPluginBaseLayerImageDigest := [], EntryPoint := [], WorkDir := [],
    User := [], IpcHost := [], PidHost := [], HTMLMessages := [], TestResults := [],
    HTMLReportFile := [], VulnerabilitiesScanURL := [] }

/-- The package-level variables when `main` starts. -/
def initialGlobals : Globals :=
  { stepNumber := 0, jsonOutput := false, htmlOutput := false, exitCode := 0,
    dockerPluginManifest := { Layers := [] },
    dockerPluginConfigurationBlob := emptyConfigurationBlob,
    inspectionData := emptyInspectionData,
    DockerRegistryAuthEndpoint := [], DockerRegistryAPIEndpoint := [], trace := [] }

/-- Lines 725-791 of `main`: report data, endpoints from the environment, flags, help,
the test for a positional argument.  Returns the local variable
`dockerRegistryAPIEndpoint` (environment value or default). -/
def startRun (w : World) (f : Flags) : Run Str := do
  modifyData (fun d =>
    { d with InspectionDate := w.inspectionDate, SystemArchitecture := w.GOARCH })
  let (os, err) ← getOperatingSystemInfo w
  modifyData (fun d => { d with SystemOperatingSystem := os })
  (match err with
  | some e => do
    logFatalError w e
    osExit 1
  | none => pure ())
  let dockerRegistryAuthEndpoint :=
    if w.getenv "DOCKER_REGISTRY_AUTH_ENDPOINT".toList = [] then "https://auth.docker.io".toList
    else w.getenv "DOCKER_REGISTRY_AUTH_ENDPOINT".toList
  let dockerRegistryAPIEndpoint :=
    if w.getenv "DOCKER_REGISTRY_API_ENDPOINT".toList = [] then
      "https://registry-1.docker.io".toList
    else w.getenv "DOCKER_REGISTRY_API_ENDPOINT".toList
  modifyGlobals (fun g =>
    { g with
      DockerRegistryAuthEndpoint := f.dockerRegistryAuthEndpoint.getD dockerRegistryAuthEndpoint
      DockerRegistryAPIEndpoint := f.dockerRegistryAPIEndpoint.getD dockerRegistryAPIEndpoint
      jsonOutput := f.json
      htmlOutput := f.html
      inspectionData := { g.inspectionData with verboseOutput := f.verbose } })
  (if f.help = true then osExit 0 else pure ())
  (if f.args.length = 0 then osExit 1 else pure ())
  pure dockerRegistryAPIEndpoint

/-- Lines 796-822 of `main`: the effective reference, its validation and its split at the
last colon into repository and tag. -/
def readReference (w : World) (f : Flags) : Run Unit := do
  modifyData (fun d => { d with DockerNetworkingPlugin := f.args.headD [] })
  modifyData (fun d => { d with DockerNetworkingPlugin := sanitize d.DockerNetworkingPlugin })
  let g ← getGlobals
  let plugin := g.inspectionData.DockerNetworkingPlugin
  (if Index plugin "/".toList = none then do
    logFatalError w "you did not prefix the Docker Networking Plugin with a user name (username/, library/ or dockerstorestaging/)!".toList
    osExit 1
  else pure ())
  match LastIndex plugin ":".toList with
  | none =>
    logFatalError w "the Docker Networking Plugin does not contain a tag!".toList
    osExit 1
  | some tagIndex =>
    modifyData (fun d =>
      { d with DockerNetworkingPluginRepo := plugin.take tagIndex
               DockerNetworkingPluginTag := plugin.drop (tagIndex + 1) })
    if plugin.drop (tagIndex + 1) = [] then do
      logFatalError w "the Docker Networking Plugin does not contain a tag!".toList
      osExit 1
    else pure ()

/-- The loop `for dockerUser == ""` of lines 832-835, entered with an empty
`dockerUser`: one prompt per answer; it never ends when no answer is non-empty. -/
def promptUserLoop : List Str → Run Str
  | [] => fun g => .hang g
  | answer :: later => do
    emit .promptUser
    if answer = [] then promptUserLoop later else pure answer

/-- The loop `for dockerPassword == ""` of lines 845-853, entered with an empty
`dockerPassword`.  A failed read is logged by `logFatalError` and the loop goes on. -/
def promptPasswordLoop (w : World) : List (Str × Option Str) → Run Str
  | [] => fun g => .hang g
  | (pass, err) :: later => do
    emit .promptPassword
    (match err with
    | some e => logFatalError w e
    | none => pure ())
    if pass = [] then promptPasswordLoop w later else pure pass

/-- Lines 827-853 of `main`: user and password from the flag, else the environment, else
the prompt. -/
def readCredentials (w : World) (f : Flags) : Run (Str × Str) := do
  let dockerUser := f.dockerUser
  let dockerUser := if dockerUser = [] then w.getenv "DOCKER_USER".toList else dockerUser
  let dockerUser ← (if dockerUser = [] then promptUserLoop w.scanUser else pure dockerUser)
  let dockerPassword := f.dockerPassword
  let dockerPassword :=
    if dockerPassword = [] then w.getenv "DOCKER_PASSWORD".toList else dockerPassword
  let dockerPassword ←
    (if dockerPassword = [] then promptPasswordLoop w w.readPassword else pure dockerPassword)
  pure (dockerUser, dockerPassword)

/-- Lines 858-881 of `main`: `docker login`, `docker --version`, report header, first
step header. -/
def loginAndVersion (w : World) (dockerUser dockerPassword dockerRegistryAPIEndpoint : Str) :
    Run Unit := do
  let (output, err) ← runCommand w
    ("docker login --username ".toList ++ dockerUser ++ " --password ".toList ++
      dockerPassword ++ " ".toList ++ dockerRegistryAPIEndpoint)
  (match err with
  | some e => do
    logFatalError w (e ++ "\n".toList ++ output)
    osExit 1
  | none => pure ())
  let (version, err) ← runCommand w "docker --version".toList
  modifyData (fun d => { d with SystemDockerVersion := version })
  (match err with
  | some e => do
    logFatalError w (e ++ "\n".toList ++ version)
    osExit 1
  | none => pure ())
  printStep

/-- Lines 887-937 of `main`: digest, manifest, base layer digest, configuration blob,
the finding that the plugin was inspected, and the report fields copied from the blob. -/
def fetchMetadata (w : World) (dockerUser dockerPassword : Str) : Run Unit := do
  let g ← getGlobals
  let plugin := g.inspectionData.DockerNetworkingPlugin
  emit (.getDigest dockerUser dockerPassword plugin "plugin".toList)
  let digest := w.GetDockerImageDigest g.DockerRegistryAuthEndpoint
    g.DockerRegistryAPIEndpoint dockerUser dockerPassword plugin "plugin".toList
  modifyData (fun d => { d with DockerNetworkingPluginDigest := digest.1 })
  (match digest.2 with
  | some e => do
    logFatalError w e
    osExit 1
  | none => pure ())
  modifyGlobals (fun g => { g with dockerPluginManifest := { Layers := [] } })
  emit (.getManifest dockerUser dockerPassword plugin "plugin".toList)
  let manifest := w.GetDockerImageManifest g.DockerRegistryAuthEndpoint
    g.DockerRegistryAPIEndpoint dockerUser dockerPassword plugin "plugin".toList
  modifyGlobals (fun g => { g with dockerPluginManifest := manifest.1 })
  (match manifest.2 with
  | some e => do
    logFatalError w e
    osExit 1
  | none => pure ())
  (match manifest.1.Layers with
  | [] => goPanic
  | layer0 :: _ =>
    modifyData (fun d => { d with DockerNetworkingPluginBaseLayerImageDigest := layer0 }))
  modifyGlobals (fun g => { g with dockerPluginConfigurationBlob := emptyConfigurationBlob })
  emit (.getConfigBlob dockerUser dockerPassword plugin)
  let blob := w.GetDockerPluginConfigBlob g.DockerRegistryAuthEndpoint
    g.DockerRegistryAPIEndpoint dockerUser dockerPassword plugin
  modifyGlobals (fun g => { g with dockerPluginConfigurationBlob := blob.1 })
  (match blob.2 with
  | some e => do
    logFatalError w e
    osExit 1
  | none => pure ())
  printSuccess w
    ("Docker Networking Plugin image ".toList ++ plugin ++ " has been inspected.".toList)
  modifyData (fun d =>
    { d with
      DockerNetworkingPluginDockerVersion := blob.1.DockerVersion
      Description := blob.1.Description
      Documentation := blob.1.Documentation
      InterfaceSocket := blob.1.InterfaceSocket
      InterfaceSocketTypes := Join blob.1.InterfaceTypes []
      IpcHost := FormatBool blob.1.IpcHost
      PidHost := FormatBool blob.1.PidHost
      WorkDir := blob.1.WorkDir
      EntryPoint := Join blob.1.Entrypoint " ".toList
      User := blob.1.User.foldl (fun acc user => acc ++ user ++ " ".toList) d.User })
  printStep

/-- Lines 964-975 of `main`: install the plugin; only when that succeeded run the network
test and remove the plugin. -/
def installTestRemove (w : World) : Run Unit := do
  let g ← getGlobals
  let plugin := g.inspectionData.DockerNetworkingPlugin
  let installed ← installDockerNetworkingPlugin w plugin
  if installed = true then do
    runNetworkingPluginTest w plugin
    printStep
    let _ ← removeDockerNetworkingPlugin w plugin
    pure ()
  else pure ()

/-- Lines 725-975 of `main`: everything before the summary. -/
def beforeSummary (w : World) (f : Flags) : Run Unit := do
  let dockerRegistryAPIEndpoint ← startRun w f
  readReference w f
  let (dockerUser, dockerPassword) ← readCredentials w f
  loginAndVersion w dockerUser dockerPassword dockerRegistryAPIEndpoint
  fetchMetadata w dockerUser dockerPassword
  installTestRemove w

/-- Lines 980-1018 of `main`: the summary (printed only), the vulnerabilities scan URL,
the HTML report and the JSON output. -/
def summaryAndReports (w : World) : Run Unit := do
  modifyData (fun d =>
    if HasPrefix d.DockerNetworkingPluginRepo "dockerstorestaging/".toList then
      { d with VulnerabilitiesScanURL :=
          "https://cloud.docker.com/app/dockerstorestaging/repository/docker/".toList ++
            d.DockerNetworkingPluginRepo ++ "/tags/".toList ++ d.DockerNetworkingPluginTag }
    else d)
  let g ← getGlobals
  (if g.htmlOutput = true then generateHTMLReport w else pure ())
  if g.jsonOutput = true then generateJSONOutput w else pure ()

/-- The body of `main` up to, not including, the final `os.Exit(exitCode)`. -/
def mainBody (w : World) (f : Flags) : Run Unit := do
  beforeSummary w f
  summaryAndReports w

/-- Go `main`, run from the initial values of the package-level variables. -/
def main (w : World) (f : Flags) : Res Unit :=
  (do mainBody w f
      let g ← getGlobals
      osExit g.exitCode : Run Unit) initialGlobals

/-! ## A sample world for concrete runs -/

/-- A Linux host on which every external process succeeds with empty output, and a
registry that serves a one-layer manifest and an empty configuration blob. -/
def sampleWorld : World :=
  { GOOS := "linux".toList
    GOARCH := "amd64".toList
    getenv := fun _ => []
    inspectionDate := "Mon Jan 02 15:04:05 2006".toList
    reportStamp := "2006-01-02_03-04-05".toList
    run := fun _ _ _ => { output := [], err := none }
    scanUser := []
    readPassword := []
    GetDockerImageDigest := fun _ _ _ _ _ _ => ("sha256:d".toList, none)
    GetDockerImageManifest := fun _ _ _ _ _ _ => ({ Layers := ["sha256:l0".toList] }, none)
    GetDockerPluginConfigBlob := fun _ _ _ _ _ => (emptyConfigurationBlob, none)
    htmlDirMissing := false
    mkdirFails := false
    createFails := false
    templateFails := false
    encodeFails := fun _ => false }

/-- A command line with user and password given by flags and one positional argument. -/
def sampleFlags (reference : Str) : Flags :=
  { dockerUser := "u".toList, dockerPassword := "p".toList,
    dockerRegistryAuthEndpoint := none, dockerRegistryAPIEndpoint := none,
    json := false, html := false, help := false, verbose := false, args := [reference] }

/-! ## Vocabulary of the properties -/

/-- The piece of the program returned to its caller. -/
def Res.returned {α : Type} : Res α → Bool
  | .ok _ _ => true
  | _ => false

/-- No exit with a status other than 1. -/
def Res.stopsWithOne {α : Type} : Res α → Prop
  | .exit code _ => code = 1
  | _ => True

/-- Every outcome of `m` is related to its start by `T`, and `m` exits with status 1
only. -/
structure Run.steps {α : Type} (m : Run α) (T : Globals → Globals → Prop) : Prop where
  run : ∀ g, T g (m g).globals ∧ (m g).stopsWithOne

/-- The piece `m` always returns, in globals related to its start by `T`. -/
structure Run.returns {α : Type} (m : Run α) (T : Globals → Globals → Prop) : Prop where
  run : ∀ g, ∃ a g1, m g = .ok a g1 ∧ T g g1

/-- The command line handed to the shell by an external process event, empty for the
other events. -/
def Event.commandLine : Event → Str
  | .exec _ args _ => args.getLastD []
  | _ => []

/-- The event is the plugin install command. -/
def Event.isInstall (e : Event) : Bool := HasPrefix e.commandLine "docker plugin install".toList

/-- The event is a network command (`docker network create`, `docker network rm`). -/
def Event.isNetwork (e : Event) : Bool := HasPrefix e.commandLine "docker network".toList

/-- The event is the `docker login` command. -/
def Event.isLogin (e : Event) : Bool := HasPrefix e.commandLine "docker login".toList

/-- The event is a registry fetch (digest, manifest, configuration blob). -/
def Event.isFetch : Event → Bool
  | .getDigest _ _ _ _ => true
  | .getManifest _ _ _ _ => true
  | .getConfigBlob _ _ _ => true
  | _ => false

/-- The event is an external process that ended with an error. -/
def Event.failed : Event → Bool
  | .exec _ _ res => res.err.isSome
  | _ => false

/-- Neither the install command nor a network command. -/
def Event.quiet (e : Event) : Prop := e.isInstall = false ∧ e.isNetwork = false

/-- How the globals may change once the reference is read: flags, reference and scan
URL stay, events (all in `A`) and messages are appended, and either the exit code and the
error count stay or the exit code is 1 and the error count went up. -/
structure Evolves (A : Event → Prop) (g g1 : Globals) : Prop where
  jsonOutput : g1.jsonOutput = g.jsonOutput
  htmlOutput : g1.htmlOutput = g.htmlOutput
  plugin : g1.inspectionData.DockerNetworkingPlugin = g.inspectionData.DockerNetworkingPlugin
  repo : g1.inspectionData.DockerNetworkingPluginRepo = g.inspectionData.DockerNetworkingPluginRepo
  tag : g1.inspectionData.DockerNetworkingPluginTag = g.inspectionData.DockerNetworkingPluginTag
  url : g1.inspectionData.VulnerabilitiesScanURL = g.inspectionData.VulnerabilitiesScanURL
  trace : ∃ evs, g1.trace = g.trace ++ evs ∧ ∀ e ∈ evs, A e
  messages : ∃ ms, g1.inspectionData.Messages = g.inspectionData.Messages ++ ms
  errors : (g1.exitCode = g.exitCode ∧ g1.inspectionData.Errors = g.inspectionData.Errors) ∨
    (g1.exitCode = 1 ∧ g.inspectionData.Errors < g1.inspectionData.Errors)

/-- The event is one of the three commands `getOperatingSystemInfo` may run. -/
def Event.isSystemInfo (e : Event) : Prop :=
  e.commandLine = "defaults read loginwindow SystemVersionStampAsString".toList ∨
  e.commandLine = "(Get-CimInstance win32_operatingsystem).caption".toList ∨
  e.commandLine
    = "cat /etc/os-release | grep 'PRETTY_NAME' | awk -F '\"' '\x7b print $2 \x7d'".toList

/-- The event is a JSON document written to standard output. -/
def Event.isJson : Event → Prop
  | .json _ => True
  | _ => False

/-- The globals right after `startRun`: nothing recorded yet, and only the command of
`getOperatingSystemInfo` was run. -/
structure Started (g : Globals) : Prop where
  exitCode : g.exitCode = 0
  errors : g.inspectionData.Errors = 0
  messages : g.inspectionData.Messages = []
  url : g.inspectionData.VulnerabilitiesScanURL = []
  trace : ∀ e ∈ g.trace, e.isSystemInfo

/-- The globals with which the pattern `logFatalError(err); os.Exit(1)` ends. -/
def fatalGlobals (w : World) (err : Str) (g : Globals) : Globals :=
  ((logFatalError w err >>= fun _ => (osExit 1 : Run Unit)) g).globals

/-- The globals after `readReference` returned, from globals `g`. -/
structure ReferenceRead (f : Flags) (g g1 : Globals) : Prop where
  exitCode : g1.exitCode = g.exitCode
  jsonOutput : g1.jsonOutput = g.jsonOutput
  htmlOutput : g1.htmlOutput = g.htmlOutput
  trace : g1.trace = g.trace
  errors : g1.inspectionData.Errors = g.inspectionData.Errors
  messages : g1.inspectionData.Messages = g.inspectionData.Messages
  url : g1.inspectionData.VulnerabilitiesScanURL = g.inspectionData.VulnerabilitiesScanURL
  plugin : g1.inspectionData.DockerNetworkingPlugin = sanitize (f.args.headD [])
  slash : '/' ∈ g1.inspectionData.DockerNetworkingPlugin
  split : ∃ tagIndex, LastIndex g1.inspectionData.DockerNetworkingPlugin ":".toList
      = some tagIndex ∧
    g1.inspectionData.DockerNetworkingPluginRepo
      = g1.inspectionData.DockerNetworkingPlugin.take tagIndex ∧
    g1.inspectionData.DockerNetworkingPluginTag
      = g1.inspectionData.DockerNetworkingPlugin.drop (tagIndex + 1)
  tag : g1.inspectionData.DockerNetworkingPluginTag ≠ []

/-- The `Results` entry for one stored message: its two parts as `parseMessage` gives
them. -/
def resultOfMessage (m : Str) : jsonResultsStruct :=
  { Status := (parseMessage m).1, Message := (parseMessage m).2 }

/-- The initial globals with JSON output requested. -/
def jsonGlobals : Globals := { initialGlobals with jsonOutput := true }

/-- The fields of `inspectionData` that only the recording of findings, the reading of
the reference and the summary change. -/
structure SameFindings (d d1 : inspectionStruct) : Prop where
  errors : d1.Errors = d.Errors
  warnings : d1.Warnings = d.Warnings
  messages : d1.Messages = d.Messages
  plugin : d1.DockerNetworkingPlugin = d.DockerNetworkingPlugin
  repo : d1.DockerNetworkingPluginRepo = d.DockerNetworkingPluginRepo
  tag : d1.DockerNetworkingPluginTag = d.DockerNetworkingPluginTag
  url : d1.VulnerabilitiesScanURL = d.VulnerabilitiesScanURL

/-- A change of globals other than flags, exit code, `inspectionData` and events. -/
structure SameRun (g g1 : Globals) : Prop where
  jsonOutput : g1.jsonOutput = g.jsonOutput
  htmlOutput : g1.htmlOutput = g.htmlOutput
  exitCode : g1.exitCode = g.exitCode
  inspectionData : g1.inspectionData = g.inspectionData
  trace : g1.trace = g.trace

/-- The event belongs to the reports at the end of the run: a JSON document, the report
file, or the `nohup open` command that shows the report file. -/
def Event.isReport : Event → Prop
  | .json _ => True
  | .createFile _ => True
  | .exec _ args _ => HasPrefix (args.getLastD []) "nohup open".toList = true
  | _ => False

/-- How the globals may change while the reports are written: nothing of the findings,
the flags, the reference or the scan URL changes; the events are report events. -/
structure Reports (g g1 : Globals) : Prop where
  exitCode : g1.exitCode = g.exitCode
  jsonOutput : g1.jsonOutput = g.jsonOutput
  htmlOutput : g1.htmlOutput = g.htmlOutput
  errors : g1.inspectionData.Errors = g.inspectionData.Errors
  warnings : g1.inspectionData.Warnings = g.inspectionData.Warnings
  messages : g1.inspectionData.Messages = g.inspectionData.Messages
  plugin : g1.inspectionData.DockerNetworkingPlugin = g.inspectionData.DockerNetworkingPlugin
  repo : g1.inspectionData.DockerNetworkingPluginRepo = g.inspectionData.DockerNetworkingPluginRepo
  tag : g1.inspectionData.DockerNetworkingPluginTag = g.inspectionData.DockerNetworkingPluginTag
  url : g1.inspectionData.VulnerabilitiesScanURL = g.inspectionData.VulnerabilitiesScanURL
  trace : ∃ evs, g1.trace = g.trace ++ evs ∧ ∀ e ∈ evs, e.isReport

/-- The assignment of the scan URL at lines 999-1002 of `main`. -/
def withScanURL (g : Globals) : Globals :=
  { g with inspectionData :=
      if HasPrefix g.inspectionData.DockerNetworkingPluginRepo "dockerstorestaging/".toList then
        { g.inspectionData with VulnerabilitiesScanURL :=
            "https://cloud.docker.com/app/dockerstorestaging/repository/docker/".toList ++
              g.inspectionData.DockerNetworkingPluginRepo ++ "/tags/".toList ++
              g.inspectionData.DockerNetworkingPluginTag }
      else g.inspectionData }

/-- The text under which an Error finding is stored in `Messages`. -/
def storedError (w : World) (g : Globals) (message : Str) : Str :=
  boldRed w g (Trim (padRight10 "Error:".toList ++ message) "\n".toList)

/-- What `installDockerNetworkingPlugin`, started in globals `g`, ends with: it returns;
it ran no network command; when it returns true no install command failed, and when it
returns false the last finding recorded is the install error. -/
def InstallOutcome (w : World) (g : Globals) (r : Res Bool) : Prop :=
  ∃ b g1 evs, r = .ok b g1 ∧
    g1.trace = g.trace ++ evs ∧ g1.jsonOutput = g.jsonOutput ∧
    (∀ e ∈ evs, e.isNetwork = false) ∧
    (b = true → ∀ e ∈ evs, ¬(e.isInstall = true ∧ e.failed = true)) ∧
    (b = false → ∃ output err, g1.inspectionData.Messages.getLast? = some (storedError w g1
      (withFailureText "Unable to install the Docker Networking Plugin!".toList output err)))

/-- The record of the run (exit code, flags, findings, scan URL, events) is the same in
both globals. -/
structure SameRecord (g g1 : Globals) : Prop where
  exitCode : g1.exitCode = g.exitCode
  jsonOutput : g1.jsonOutput = g.jsonOutput
  htmlOutput : g1.htmlOutput = g.htmlOutput
  trace : g1.trace = g.trace
  errors : g1.inspectionData.Errors = g.inspectionData.Errors
  messages : g1.inspectionData.Messages = g.inspectionData.Messages
  url : g1.inspectionData.VulnerabilitiesScanURL = g.inspectionData.VulnerabilitiesScanURL

/-- The exit code is 0 while no Error finding is recorded and 1 once there is one. -/
def ExitCodeTracksErrors (g : Globals) : Prop :=
  (g.exitCode = 0 ∧ g.inspectionData.Errors = 0) ∨
    (g.exitCode = 1 ∧ 0 < g.inspectionData.Errors)

/-- The state of the findings before the summary: the exit code tracks the error count
and no scan URL is assigned. -/
def BeforeSummaryState (g : Globals) : Prop :=
  ExitCodeTracksErrors g ∧ g.inspectionData.VulnerabilitiesScanURL = []

/-- An exit inside the run has status 1, or status 0 with no Error finding recorded. -/
def Res.exitOK {α : Type} : Res α → Prop
  | .exit code g => code = 1 ∨ (code = 0 ∧ g.inspectionData.Errors = 0)
  | _ => True

/-- The scan URL is the fixed address with repository and tag when the repository starts
with `dockerstorestaging/`, and empty otherwise. -/
def ScanURLRule (g : Globals) : Prop :=
  g.inspectionData.VulnerabilitiesScanURL =
    if HasPrefix g.inspectionData.DockerNetworkingPluginRepo "dockerstorestaging/".toList then
      "https://cloud.docker.com/app/dockerstorestaging/repository/docker/".toList ++
        g.inspectionData.DockerNetworkingPluginRepo ++ "/tags/".toList ++
        g.inspectionData.DockerNetworkingPluginTag
    else []

/-- A sample world in which every command whose line starts with `failing` ends with an
error. -/
def sampleWorldFailing (failing : Str) : World :=
  { sampleWorld with
    run := fun _ _ args =>
      if HasPrefix (args.getLastD []) failing then
        { output := "boom\n".toList, err := some "exit status 1".toList }
      else { output := [], err := none } }

/-- No install command in the record of events has failed. -/
def NoFailedInstall (g : Globals) : Prop :=
  ∀ e ∈ g.trace, ¬(e.isInstall = true ∧ e.failed = true)

/-- No network command was run, and the last finding recorded is the install error. -/
def InstallFailedState (w : World) (g : Globals) : Prop :=
  (∀ e ∈ g.trace, e.isNetwork = false) ∧
    ∃ output err, g.inspectionData.Messages.getLast? = some (storedError w g
      (withFailureText "Unable to install the Docker Networking Plugin!".toList output err))

/-- Either no install command has failed, or the run is in the state a failed install
leaves. -/
def InstallGate (w : World) (g : Globals) : Prop :=
  NoFailedInstall g ∨ InstallFailedState w g

/-- Every event recorded so far is neither the install command nor a network command. -/
def QuietTrace (g : Globals) : Prop := ∀ e ∈ g.trace, e.quiet

/-- The text under which a Success finding is stored in `Messages`. -/
def storedSuccess (w : World) (g : Globals) (message : Str) : Str :=
  boldGreen w g (Trim (padRight10 "Passed:".toList ++ message) "\n".toList)

/-- The text under which a Warning finding is stored in `Messages`. -/
def storedWarning (w : World) (g : Globals) (message : Str) : Str :=
  boldYellow w g (Trim (padRight10 "Warning:".toList ++ message) "\n".toList)

/-- The event is the probe `docker plugin inspect`. -/
def Event.isInspect (e : Event) : Bool := HasPrefix e.commandLine "docker plugin inspect".toList

/-- The event is the command `docker plugin remove`. -/
def Event.isPluginRemove (e : Event) : Bool :=
  HasPrefix e.commandLine "docker plugin remove".toList

/-- The event is the command `docker network create`. -/
def Event.isNetworkCreate (e : Event) : Bool :=
  HasPrefix e.commandLine "docker network create".toList

/-- The event is the command `docker network rm`. -/
def Event.isNetworkRemove (e : Event) : Bool :=
  HasPrefix e.commandLine "docker network rm".toList

/-- The text a failed command adds to its error message: the trimmed output when there
is one, the text of the error otherwise. -/
def Event.failureText : Event → Str
  | .exec _ _ res => if TrimSpace res.output ≠ [] then TrimSpace res.output else res.err.getD []
  | _ => []

/-- The finding stored for a command: the error message with the failure text when the
command failed, the success message otherwise. -/
def commandFinding (w : World) (g : Globals) (errMessage successMessage : Str) (e : Event) :
    Str :=
  if e.failed = true then storedError w g (errMessage ++ ", ".toList ++ e.failureText)
  else storedSuccess w g successMessage

/-- An exact account of a change of globals: flags and reference stay; the events `evs`
and the findings `ms` are appended, as many entries are added to `HTMLMessages`, the
counters go up by `errs` and `warns`, and the exit code is 1 once an error is
counted. -/
structure Records (evs : List Event) (ms : List Str) (errs warns : Nat)
    (g g1 : Globals) : Prop where
  jsonOutput : g1.jsonOutput = g.jsonOutput
  htmlOutput : g1.htmlOutput = g.htmlOutput
  plugin : g1.inspectionData.DockerNetworkingPlugin = g.inspectionData.DockerNetworkingPlugin
  repo : g1.inspectionData.DockerNetworkingPluginRepo = g.inspectionData.DockerNetworkingPluginRepo
  tag : g1.inspectionData.DockerNetworkingPluginTag = g.inspectionData.DockerNetworkingPluginTag
  url : g1.inspectionData.VulnerabilitiesScanURL = g.inspectionData.VulnerabilitiesScanURL
  trace : g1.trace = g.trace ++ evs
  messages : g1.inspectionData.Messages = g.inspectionData.Messages ++ ms
  html : g1.inspectionData.HTMLMessages.length = g.inspectionData.HTMLMessages.length + ms.length
  errors : g1.inspectionData.Errors = g.inspectionData.Errors + errs
  warnings : g1.inspectionData.Warnings = g.inspectionData.Warnings + warns
  exitCode : g1.exitCode = if errs = 0 then g.exitCode else 1

/-- The finding of `removeDockerNetworkingPlugin` for the outcome `e` of its command. -/
def removeFinding (w : World) (g : Globals) (pluginName : Str) (e : Event) : Str :=
  commandFinding w g
    ("Unable to remove the Docker networking plugin ".toList ++ pluginName ++ "!".toList)
    ("Docker network plugin ".toList ++ pluginName ++ " was removed.".toList) e

/-- One error counted for a failed command, none otherwise. -/
def Event.errorCount (e : Event) : Nat := if e.failed = true then 1 else 0

/-- The findings recorded before the install command when the plugin is found installed
and removed with outcome `rm`: the warning and the finding of the removal. -/
def cleanFindings (w : World) (g : Globals) (p : Str) : Option Event → List Str
  | none => []
  | some rm =>
    [storedWarning w g ("The Docker networking plugin ".toList ++
        g.inspectionData.DockerNetworkingPlugin ++
        " is already installed and will be removed.".toList),
      removeFinding w g p rm]

/-- The errors counted before the install command. -/
def cleanErrors : Option Event → Nat
  | none => 0
  | some rm => rm.errorCount

/-- The finding of the install command with outcome `e`. -/
def installFinding (w : World) (g : Globals) (e : Event) : Str :=
  commandFinding w g "Unable to install the Docker Networking Plugin!".toList
    ("Docker networking plugin ".toList ++ g.inspectionData.DockerNetworkingPlugin ++
      " has been installed successfully.".toList) e

/-- The findings of the create step of the network test for the outcome `e` of the create
command: the finding of `createDockerNetwork`, and after a failure the error of
`runNetworkingPluginTest`. -/
def createFindings (w : World) (g : Globals) (pluginName : Str) (e : Event) : List Str :=
  commandFinding w g
      ("Unable to create a Docker network using plugin ".toList ++ pluginName ++ "!".toList)
      ("Docker network was created using plugin ".toList ++ pluginName) e ::
    (if e.failed = true then
      [storedError w g ("Docker Network Plugin Test has failed! Unable to create a Docker network using the plugin: ".toList ++ pluginName)]
    else [])

/-- The findings of the delete step of the network test for the outcome `e` of the delete
command. -/
def deleteFindings (w : World) (g : Globals) (pluginName : Str) (e : Event) : List Str :=
  commandFinding w g
      ("Unable to remove the Docker test network using plugin ".toList ++ pluginName ++
        "!".toList)
      ("Docker network was removed using plugin ".toList ++ pluginName) e ::
    (if e.failed = true then
      [storedError w g ("Docker Network Plugin Test has failed! Unable to delete a Docker network using the plugin: ".toList ++ pluginName)]
    else [])

/-- The pause after a network create command that succeeded. -/
def settleAfter (create : Event) : List Event := if create.failed = true then [] else [.sleep]

/-- An event of the run before the registry is asked: neither the install command, nor a
network command, nor a registry fetch. -/
def Event.calm (e : Event) : Prop := e.quiet ∧ e.isFetch = false

/-- Whenever the piece `m` returns, its globals are related to its start by `T`. -/
structure Run.onOk {α : Type} (m : Run α) (T : Globals → Globals → Prop) : Prop where
  run : ∀ g a g1, m g = .ok a g1 → T g g1

/-- A password is given by the flag or by the variable `DOCKER_PASSWORD`, so the run
does not prompt for one. -/
def passwordGiven (w : World) (f : Flags) : Prop :=
  f.dockerPassword ≠ [] ∨ w.getenv "DOCKER_PASSWORD".toList ≠ []

/-- A change of globals that keeps the registry endpoints and the warning count, and,
when `c` holds, exit code, error count and findings as well. -/
structure Quietly (c : Prop) (g g1 : Globals) : Prop where
  authEndpoint : g1.DockerRegistryAuthEndpoint = g.DockerRegistryAuthEndpoint
  apiEndpoint : g1.DockerRegistryAPIEndpoint = g.DockerRegistryAPIEndpoint
  warnings : g1.inspectionData.Warnings = g.inspectionData.Warnings
  findings : c → g1.exitCode = g.exitCode ∧
    g1.inspectionData.Errors = g.inspectionData.Errors ∧
    g1.inspectionData.Messages = g.inspectionData.Messages

/-- The value of `dockerAPI.DockerRegistryAuthEndpoint` after the flags are parsed: the
flag, else the variable `DOCKER_REGISTRY_AUTH_ENDPOINT`, else the default. -/
def effectiveAuthEndpoint (w : World) (f : Flags) : Str :=
  f.dockerRegistryAuthEndpoint.getD
    (if w.getenv "DOCKER_REGISTRY_AUTH_ENDPOINT".toList = [] then "https://auth.docker.io".toList
      else w.getenv "DOCKER_REGISTRY_AUTH_ENDPOINT".toList)

/-- The value of `dockerAPI.DockerRegistryAPIEndpoint` after the flags are parsed. -/
def effectiveAPIEndpoint (w : World) (f : Flags) : Str :=
  f.dockerRegistryAPIEndpoint.getD
    (if w.getenv "DOCKER_REGISTRY_API_ENDPOINT".toList = [] then
      "https://registry-1.docker.io".toList
    else w.getenv "DOCKER_REGISTRY_API_ENDPOINT".toList)

/-- The globals with which the registry fetches start: only calm events so far, the
reference read, the endpoints set, no warning, and no finding when no password prompt
was needed. -/
structure LoggedIn (w : World) (f : Flags) (g : Globals) : Prop where
  calm : ∀ e ∈ g.trace, e.calm
  tracks : ExitCodeTracksErrors g
  url : g.inspectionData.VulnerabilitiesScanURL = []
  jsonOutput : g.jsonOutput = f.json
  plugin : g.inspectionData.DockerNetworkingPlugin = sanitize (f.args.headD [])
  authEndpoint : g.DockerRegistryAuthEndpoint = effectiveAuthEndpoint w f
  apiEndpoint : g.DockerRegistryAPIEndpoint = effectiveAPIEndpoint w f
  warnings : g.inspectionData.Warnings = 0
  findings : passwordGiven w f → g.exitCode = 0 ∧ g.inspectionData.Errors = 0 ∧
    g.inspectionData.Messages = []

/-- The outcome `r` of the part of `main` before the summary either is a stop with calm
events only, or is the outcome of the fetches and the life cycle started after login. -/
def ReachesFetch (w : World) (f : Flags) (r : Res Unit) : Prop :=
  (r.returned = false ∧ ∀ e ∈ r.globals.trace, e.calm) ∨
  ∃ u p g, LoggedIn w f g ∧ r = (fetchMetadata w u p >>= fun _ => installTestRemove w) g

/-- The error, if any, of the registry call that the event records, made with the
endpoints `auth` and `api`. -/
def Event.fetchError (w : World) (auth api : Str) : Event → Option Str
  | .getDigest u p image kind => (w.GetDockerImageDigest auth api u p image kind).2
  | .getManifest u p image kind => (w.GetDockerImageManifest auth api u p image kind).2
  | .getConfigBlob u p image => (w.GetDockerPluginConfigBlob auth api u p image).2
  | _ => none

/-- The outcome `r` of the three registry fetches started in globals `g`: an exit with
status 1 right after the first fetch that failed (only JSON documents follow it), a
panic after two successful fetches when the manifest has no layer, or a return after
three successful fetches with the finding that the plugin was inspected. -/
def FetchOutcome (w : World) (u p : Str) (g : Globals) (r : Res Unit) : Prop :=
  let err := Event.fetchError w g.DockerRegistryAuthEndpoint g.DockerRegistryAPIEndpoint
  let d := Event.getDigest u p g.inspectionData.DockerNetworkingPlugin "plugin".toList
  let m := Event.getManifest u p g.inspectionData.DockerNetworkingPlugin "plugin".toList
  let b := Event.getConfigBlob u p g.inspectionData.DockerNetworkingPlugin
  (∃ fs js g1, r = .exit 1 g1 ∧ g1.trace = g.trace ++ fs ++ js ∧ (∀ e ∈ js, e.isJson) ∧
    ((fs = [d] ∧ err d ≠ none) ∨ (fs = [d, m] ∧ err d = none ∧ err m ≠ none) ∨
      (fs = [d, m, b] ∧ err d = none ∧ err m = none ∧ err b ≠ none))) ∨
  (∃ g1, r = .panic g1 ∧ g1.trace = g.trace ++ [d, m] ∧ err d = none ∧ err m = none) ∨
  (∃ g1, r = .ok () g1 ∧ err d = none ∧ err m = none ∧ err b = none ∧
    Records [d, m, b]
      [storedSuccess w g ("Docker Networking Plugin image ".toList ++
        g.inspectionData.DockerNetworkingPlugin ++ " has been inspected.".toList)] 0 0 g g1)

/-- The piece `m` returns or ends the process with exit status 1: it neither panics nor
waits for ever. -/
structure Run.finishes {α : Type} (m : Run α) : Prop where
  run : ∀ g, (m g).returned = true ∨ (m g).exitStatus = some 1

/-- What `installDockerNetworkingPlugin` did between the globals `g` and `g1`: the
commands `swarm`, `probe`, the removal `rm` of a plugin found installed, and `inst`, with
the findings they left. -/
structure InstallPhase (w : World) (g g1 : Globals) (swarm probe : Event) (rm : Option Event)
    (inst : Event) : Prop where
  swarmLine : swarm.commandLine = TrimSpace "docker swarm init".toList
  probeLine : probe.commandLine
    = TrimSpace ("docker plugin inspect --format '\x7b\x7b .Name \x7d\x7d' ".toList ++
      g.inspectionData.DockerNetworkingPlugin)
  instLine : inst.commandLine = TrimSpace ("docker plugin install --grant-all-permissions ".toList ++
    g.inspectionData.DockerNetworkingPlugin)
  notInstalled : probe.failed = true → rm = none
  installed : probe.failed = false → ∃ e, rm = some e ∧
    e.commandLine = TrimSpace ("docker plugin remove ".toList ++
      g.inspectionData.DockerNetworkingPlugin ++ " --force".toList)
  records : Records ([swarm, probe] ++ rm.toList ++ [inst])
    (cleanFindings w g g.inspectionData.DockerNetworkingPlugin rm ++ [installFinding w g inst])
    (cleanErrors rm + inst.errorCount) rm.toList.length g g1

/-- What the network test and the removal of the plugin did between the globals `g1` and
`g2`, in a run whose life cycle started in `g`: the commands `cleanup`, `create`,
`delete` and `remove`, with the findings they left. -/
structure TestPhase (w : World) (g g1 g2 : Globals) (cleanup create delete remove : Event) :
    Prop where
  cleanupLine : cleanup.commandLine = TrimSpace "docker network rm test_network".toList
  createLine : create.commandLine = TrimSpace ("docker network create --driver=".toList ++
    g.inspectionData.DockerNetworkingPlugin ++ " ".toList ++ testNetworkName)
  deleteLine : delete.commandLine = TrimSpace ("docker network rm ".toList ++ testNetworkName)
  removeLine : remove.commandLine = TrimSpace ("docker plugin remove ".toList ++
    g.inspectionData.DockerNetworkingPlugin ++ " --force".toList)
  records : Records ([cleanup, .sleep, create] ++ settleAfter create ++ [.sleep, delete, remove])
    (createFindings w g g.inspectionData.DockerNetworkingPlugin create ++
      deleteFindings w g g.inspectionData.DockerNetworkingPlugin delete ++
      [removeFinding w g g.inspectionData.DockerNetworkingPlugin remove])
    (2 * create.errorCount + 2 * delete.errorCount + remove.errorCount) 0 g1 g2

/-- The end of a run whose part before the summary returned in globals `g`: the summary
adds the report events `post` and changes no finding, counter or exit code; the process
ends with status 1 (a report could not be written) or, at the final `os.Exit`, with the
exit code of `g`. -/
structure AtEnd (w : World) (f : Flags) (g : Globals) (post : List Event) : Prop where
  reached : (beforeSummary w f initialGlobals).returned = true
  trace : (main w f).globals.trace = g.trace ++ post
  reports : ∀ e ∈ post, e.isReport
  messages : (main w f).globals.inspectionData.Messages = g.inspectionData.Messages
  errors : (main w f).globals.inspectionData.Errors = g.inspectionData.Errors
  warnings : (main w f).globals.inspectionData.Warnings = g.inspectionData.Warnings
  exitCode : (main w f).globals.exitCode = g.exitCode
  jsonOutput : (main w f).globals.jsonOutput = g.jsonOutput
  status : (main w f).exitStatus = some 1 ∨
    ((mainBody w f initialGlobals).returned = true ∧ (main w f).exitStatus = some g.exitCode)

/-- The globals with which the life cycle starts: no install or network command so far,
no warning, and, when no password prompt was needed, the finding that the plugin was
inspected as the only finding. -/
structure Inspected (w : World) (f : Flags) (g : Globals) : Prop where
  quiet : ∀ e ∈ g.trace, e.quiet
  jsonOutput : g.jsonOutput = f.json
  plugin : g.inspectionData.DockerNetworkingPlugin = sanitize (f.args.headD [])
  warnings : g.inspectionData.Warnings = 0
  findings : passwordGiven w f → g.exitCode = 0 ∧ g.inspectionData.Errors = 0 ∧
    g.inspectionData.Messages = [storedSuccess w g ("Docker Networking Plugin image ".toList ++
      g.inspectionData.DockerNetworkingPlugin ++ " has been inspected.".toList)]

/-- The registry call that the event records returned an error, with the endpoints the
run uses. -/
def Event.fetchFailed (w : World) (f : Flags) (e : Event) : Bool :=
  (e.fetchError w (effectiveAuthEndpoint w f) (effectiveAPIEndpoint w f)).isSome

/-- A registry on which the manifest cannot be fetched; everything else is as in the
sample world. -/
def sampleWorldManifestError : World :=
  { sampleWorld with
    GetDockerImageManifest := fun _ _ _ _ _ _ =>
      ({ Layers := [] }, some "manifest unknown".toList) }

/-- One call of a function that records a finding, with its message. -/
inductive Recording
  | success (message : Str)
  | warning (message : Str)
  | error (message : Str)
  deriving DecidableEq, Repr

/-- The call the recording stands for. -/
def Recording.call (w : World) : Recording → Run Unit
  | .success m => printSuccess w m
  | .warning m => printWarning w m
  | .error m => printError w m

/-- The recording is a call of `printError`. -/
def Recording.isError : Recording → Bool
  | .error _ => true
  | _ => false

/-- The recording is a call of `printWarning`. -/
def Recording.isWarning : Recording → Bool
  | .warning _ => true
  | _ => false

/-- A sequence of calls of `printSuccess`, `printWarning` and `printError`, one after the
other. -/
def recordAll (w : World) : List Recording → Run Unit
  | [] => pure ()
  | c :: cs => do
    c.call w
    recordAll w cs

/-- The value of `dockerUser` before the prompt loop (lines 827-830): the flag, or the
variable `DOCKER_USER` when the flag is empty. -/
def userBeforePrompt (w : World) (f : Flags) : Str :=
  if f.dockerUser = [] then w.getenv "DOCKER_USER".toList else f.dockerUser

/-- The value of `dockerPassword` before the prompt loop (lines 840-843). -/
def passwordBeforePrompt (w : World) (f : Flags) : Str :=
  if f.dockerPassword = [] then w.getenv "DOCKER_PASSWORD".toList else f.dockerPassword

/-- The sample world with the variable `DOCKER_PASSWORD` set to `from-env`. -/
def sampleWorldEnvPassword : World :=
  { sampleWorld with
    getenv := fun v => if v = "DOCKER_PASSWORD".toList then "from-env".toList else [] }

/-- The sample world with a registry that answers the digest call with the API endpoint
it was asked at, so that the endpoint used by the fetch shows in the report. -/
def sampleWorldEchoEndpoint : World :=
  { sampleWorld with GetDockerImageDigest := fun _ api _ _ _ _ => (api, none) }

/-- The sample flags with the flag `--docker-registry-api-endpoint` given. -/
def sampleFlagsWithEndpoint (reference api : Str) : Flags :=
  { sampleFlags reference with dockerRegistryAPIEndpoint := some api }

/-- The sample flags with the flag `--html` given. -/
def sampleFlagsHtml (reference : Str) : Flags :=
  { sampleFlags reference with html := true }

/-- The sample world with a registry whose manifest has the layers `layers`. -/
def sampleWorldLayers (layers : List Str) : World :=
  { sampleWorld with
    GetDockerImageManifest := fun _ _ _ _ _ _ => ({ Layers := layers }, none) }

/-- A host without the plugin on which every other command succeeds, and on which the
file of the HTML report cannot be created. -/
def sampleWorldReportFails : World :=
  { sampleWorldFailing "docker plugin inspect".toList with createFails := true }

/-- A host without the plugin on which every other command succeeds; the first read of
the password at the masked prompt fails, the second gives `p`. -/
def sampleWorldPasswordReadFails : World :=
  { sampleWorldFailing "docker plugin inspect".toList with
    readPassword := [([], some "EOF".toList), ("p".toList, none)] }

/-- The sample flags with `--json` and without `--docker-password`. -/
def sampleFlagsJsonNoPassword (reference : Str) : Flags :=
  { sampleFlags reference with dockerPassword := [], json := true }

/-- The initial globals with the reference `acme/netplug:1.0` read. -/
def sampleGlobals : Globals :=
  { initialGlobals with
    inspectionData :=
      { emptyInspectionData with DockerNetworkingPlugin := "acme/netplug:1.0".toList } }

/-! ## Facts about the string functions -/

theorem rdropWhile_append_keep {p : Char → Bool} (a b : Str) (ha : a ≠ [])
    (hlast : p (a.getLast ha) = false) :
    List.rdropWhile p (a ++ b) = a ++ List.rdropWhile p b := by
  induction b using List.reverseRecOn with
  | nil =>
    simp only [List.append_nil, List.rdropWhile_nil]
    exact List.rdropWhile_eq_self_iff.mpr (fun _ => by simp [hlast])
  | append_singleton b x ih =>
    rw [← List.append_assoc]
    by_cases hx : p x = true
    · rw [List.rdropWhile_concat_pos _ _ _ hx, List.rdropWhile_concat_pos _ _ _ hx, ih]
    · rw [List.rdropWhile_concat_neg _ _ _ hx, List.rdropWhile_concat_neg _ _ _ hx,
        List.append_assoc]

theorem rdropWhile_append_drop {p : Char → Bool} (a b : Str) (hb : ∀ c ∈ b, p c = true) :
    List.rdropWhile p (a ++ b) = List.rdropWhile p a := by
  induction b using List.reverseRecOn with
  | nil => simp
  | append_singleton b x ih =>
    rw [← List.append_assoc, List.rdropWhile_concat_pos _ _ _ (hb x (by simp))]
    exact ih (fun c hc => hb c (by simp [hc]))

theorem TrimSpace_eq (s : Str) : TrimSpace s = List.rdropWhile isSpace (s.dropWhile isSpace) :=
  rfl

theorem Trim_eq (s cutset : Str) :
    Trim s cutset = List.rdropWhile (fun c => decide (c ∈ cutset))
      (s.dropWhile (fun c => decide (c ∈ cutset))) :=
  rfl

/-- White space in front of a text does not change its trimmed form. -/
theorem TrimSpace_cons_space (c : Char) (s : Str) (hc : isSpace c = true) :
    TrimSpace (c :: s) = TrimSpace s := by
  simp [TrimSpace, List.dropWhile, hc]

/-- Trimming a text that begins and ends with characters that are no white space. -/
theorem TrimSpace_append_keep (a b : Str) (ha : a ≠ []) (hhead : isSpace (a.head ha) = false)
    (hlast : isSpace (a.getLast ha) = false) :
    TrimSpace (a ++ b) = a ++ List.rdropWhile isSpace b := by
  rw [TrimSpace_eq]
  have : (a ++ b).dropWhile isSpace = a ++ b := by
    cases a with
    | nil => exact absurd rfl ha
    | cons x xs =>
      simp only [List.head_cons] at hhead
      simp [List.dropWhile, hhead]
  rw [this, rdropWhile_append_keep a b ha hlast]

/-- White space after a text does not change its trimmed form. -/
theorem TrimSpace_append_spaces (a b : Str) (hb : ∀ c ∈ b, isSpace c = true) :
    TrimSpace (a ++ b) = TrimSpace a := by
  induction a with
  | nil =>
    have h1 : List.dropWhile isSpace b = [] := by
      rw [List.dropWhile_eq_nil_iff]; exact hb
    simp [TrimSpace, h1]
  | cons x xs ih =>
    by_cases hx : isSpace x = true
    · rw [List.cons_append, TrimSpace_cons_space _ _ hx, TrimSpace_cons_space _ _ hx, ih]
    · simp only [TrimSpace_eq, List.cons_append, List.dropWhile, hx]
      exact rdropWhile_append_drop (x :: xs) b hb

/-- Cutting trailing line feeds first does not change the trimmed form. -/
theorem TrimSpace_rdropWhile_newline (m : Str) :
    TrimSpace (List.rdropWhile (fun c => decide (c ∈ "\n".toList)) m) = TrimSpace m := by
  induction m using List.reverseRecOn with
  | nil => simp
  | append_singleton m x ih =>
    by_cases hx : x = '\n'
    · rw [List.rdropWhile_concat_pos _ _ _ (by simp [hx]), ih]
      symm
      apply TrimSpace_append_spaces
      intro c hc
      simp only [List.mem_singleton] at hc
      subst hc; subst hx; rfl
    · rw [List.rdropWhile_concat_neg _ _ _ (by simp [hx])]

/-- The text a finding is stored as: `Trim` after the ten-column status column cuts
only trailing line feeds of the finding text. -/
theorem Trim_status_message (status m : Str) (hs : status ≠ [])
    (hhead : status.head hs ≠ '\n') (hlast : status.getLast hs ≠ '\n') :
    Trim (status ++ m) "\n".toList
      = status ++ List.rdropWhile (fun c => decide (c ∈ "\n".toList)) m := by
  rw [Trim_eq]
  have : (status ++ m).dropWhile (fun c => decide (c ∈ "\n".toList)) = status ++ m := by
    cases status with
    | nil => exact absurd rfl hs
    | cons x xs =>
      simp only [List.head_cons] at hhead
      simp [List.dropWhile, hhead]
  rw [this]
  exact rdropWhile_append_keep _ _ hs (by simpa using hlast)

theorem indexFrom_singleton (c : Char) (s : Str) (i : Nat) :
    indexFrom [c] s i = if c ∈ s then some (i + (s.takeWhile (fun x => x != c)).length)
      else none := by
  induction s generalizing i with
  | nil => simp [indexFrom]
  | cons x xs ih =>
    by_cases hx : c = x
    · subst hx; simp [indexFrom, List.isPrefixOf, List.takeWhile]
    · have hx2 : x ≠ c := fun h => hx h.symm
      have hne : (c == x) = false := by simpa using hx
      simp only [indexFrom, List.isPrefixOf, hne, Bool.false_and, Bool.false_eq_true, if_false, ih]
      have hb : (x != c) = true := by simpa using hx2
      have hmem : (c ∈ x :: xs) ↔ c ∈ xs := by simp [hx]
      simp only [List.takeWhile, hb, List.length_cons, hmem]
      by_cases hc : c ∈ xs
      · simp only [hc, if_true, Option.some.injEq]; omega
      · simp only [hc, if_false]

/-- `strings.Index` for a one-character pattern. -/
theorem Index_singleton (c : Char) (s : Str) :
    Index s [c] = if c ∈ s then some (s.takeWhile (fun x => x != c)).length else none := by
  simp [Index, indexFrom_singleton]

theorem Index_singleton_eq_none (c : Char) (s : Str) : Index s [c] = none ↔ c ∉ s := by
  rw [Index_singleton]; split <;> simp [*]

/-! ## Reasoning about runs -/

@[simp] theorem run_bind {α β : Type} (m : Run α) (f : α → Run β) (g : Globals) :
    (m >>= f) g = match m g with
      | .ok a g1 => f a g1
      | .exit code g1 => .exit code g1
      | .panic g1 => .panic g1
      | .hang g1 => .hang g1 := rfl

@[simp] theorem run_pure {α : Type} (a : α) (g : Globals) : (pure a : Run α) g = .ok a g := rfl

theorem Run.returns.steps {α : Type} {m : Run α} {T : Globals → Globals → Prop}
    (h : m.returns T) : m.steps T := by
  constructor
  intro g
  obtain ⟨a, g1, h1, h2⟩ := h.run g
  rw [h1]
  exact ⟨h2, trivial⟩

theorem steps_bind {α β : Type} {T : Globals → Globals → Prop}
    (ht : ∀ a b c, T a b → T b c → T a c) {m : Run α} {f : α → Run β}
    (hm : m.steps T) (hf : ∀ a, (f a).steps T) : (m >>= f).steps T := by
  constructor
  intro g
  have h := hm.run g
  rw [run_bind]
  cases hmg : m g with
  | ok a g1 =>
    rw [hmg] at h
    exact ⟨ht _ _ _ h.1 ((hf a).run g1).1, ((hf a).run g1).2⟩
  | exit c g1 => rw [hmg] at h; exact h
  | panic g1 => rw [hmg] at h; exact h
  | hang g1 => rw [hmg] at h; exact h

theorem returns_bind {α β : Type} {T : Globals → Globals → Prop}
    (ht : ∀ a b c, T a b → T b c → T a c) {m : Run α} {f : α → Run β}
    (hm : m.returns T) (hf : ∀ a, (f a).returns T) : (m >>= f).returns T := by
  constructor
  intro g
  obtain ⟨a, g1, h1, t1⟩ := hm.run g
  obtain ⟨b, g2, h2, t2⟩ := (hf a).run g1
  exact ⟨b, g2, by rw [run_bind, h1]; exact h2, ht _ _ _ t1 t2⟩

theorem Evolves.evolves_refl (A : Event → Prop) (g : Globals) : Evolves A g g :=
  ⟨rfl, rfl, rfl, rfl, rfl, rfl, ⟨[], by simp⟩, ⟨[], by simp⟩, Or.inl ⟨rfl, rfl⟩⟩

theorem Evolves.evolves_trans {A : Event → Prop} {a b c : Globals} (h1 : Evolves A a b)
    (h2 : Evolves A b c) : Evolves A a c := by
  obtain ⟨e1, he1, ha1⟩ := h1.trace
  obtain ⟨e2, he2, ha2⟩ := h2.trace
  obtain ⟨m1, hm1⟩ := h1.messages
  obtain ⟨m2, hm2⟩ := h2.messages
  refine ⟨h2.jsonOutput.trans h1.jsonOutput, h2.htmlOutput.trans h1.htmlOutput,
    h2.plugin.trans h1.plugin, h2.repo.trans h1.repo, h2.tag.trans h1.tag,
    h2.url.trans h1.url, ⟨e1 ++ e2, by rw [he2, he1, List.append_assoc], ?_⟩,
    ⟨m1 ++ m2, by rw [hm2, hm1, List.append_assoc]⟩, ?_⟩
  · intro e he
    rcases List.mem_append.mp he with h | h
    · exact ha1 e h
    · exact ha2 e h
  · rcases h1.errors with ⟨x1, y1⟩ | ⟨x1, y1⟩ <;> rcases h2.errors with ⟨x2, y2⟩ | ⟨x2, y2⟩
    · exact Or.inl ⟨x2.trans x1, y2.trans y1⟩
    · exact Or.inr ⟨x2, by omega⟩
    · exact Or.inr ⟨x2.trans x1, by omega⟩
    · exact Or.inr ⟨x2, by omega⟩

theorem Evolves.mono {A B : Event → Prop} (h : ∀ e, A e → B e) {g g1 : Globals}
    (h1 : Evolves A g g1) : Evolves B g g1 := by
  obtain ⟨e1, he1, ha1⟩ := h1.trace
  exact ⟨h1.jsonOutput, h1.htmlOutput, h1.plugin, h1.repo, h1.tag, h1.url,
    ⟨e1, he1, fun e he => h e (ha1 e he)⟩, h1.messages, h1.errors⟩

/-- A change of `inspectionData` that leaves reference, scan URL, messages and error
count alone. -/
theorem Evolves.frame (A : Event → Prop) (g : Globals) (d : inspectionStruct)
    (h1 : d.DockerNetworkingPlugin = g.inspectionData.DockerNetworkingPlugin)
    (h2 : d.DockerNetworkingPluginRepo = g.inspectionData.DockerNetworkingPluginRepo)
    (h3 : d.DockerNetworkingPluginTag = g.inspectionData.DockerNetworkingPluginTag)
    (h4 : d.VulnerabilitiesScanURL = g.inspectionData.VulnerabilitiesScanURL)
    (h5 : d.Messages = g.inspectionData.Messages)
    (h6 : d.Errors = g.inspectionData.Errors) :
    Evolves A g { g with inspectionData := d } :=
  ⟨rfl, rfl, h1, h2, h3, h4, ⟨[], by simp⟩, ⟨[], by simp [h5]⟩, Or.inl ⟨rfl, h6⟩⟩

/-- A change of globals other than flags, exit code, `inspectionData` and events. -/
theorem Evolves.same (A : Event → Prop) (g g1 : Globals) (h1 : g1.jsonOutput = g.jsonOutput)
    (h2 : g1.htmlOutput = g.htmlOutput) (h3 : g1.exitCode = g.exitCode)
    (h4 : g1.inspectionData = g.inspectionData) (h5 : g1.trace = g.trace) : Evolves A g g1 :=
  ⟨h1, h2, by rw [h4], by rw [h4], by rw [h4], by rw [h4], ⟨[], by simp [h5]⟩,
    ⟨[], by simp [h4]⟩, Or.inl ⟨h3, by rw [h4]⟩⟩

theorem evolves_bind {α β : Type} {A : Event → Prop} {m : Run α} {f : α → Run β}
    (hm : m.steps (Evolves A)) (hf : ∀ a, (f a).steps (Evolves A)) :
    (m >>= f).steps (Evolves A) :=
  steps_bind (T := Evolves A) (fun _ _ _ h1 h2 => h1.evolves_trans h2) hm hf

theorem evolves_pure {α : Type} (A : Event → Prop) (a : α) :
    (pure a : Run α).steps (Evolves A) := ⟨fun g => ⟨Evolves.evolves_refl A g, trivial⟩⟩

theorem evolves_bind_returns {α β : Type} {A : Event → Prop} {m : Run α} {f : α → Run β}
    (hm : m.returns (Evolves A)) (hf : ∀ a, (f a).returns (Evolves A)) :
    (m >>= f).returns (Evolves A) :=
  returns_bind (T := Evolves A) (fun _ _ _ h1 h2 => h1.evolves_trans h2) hm hf

theorem evolves_pure_returns {α : Type} (A : Event → Prop) (a : α) :
    (pure a : Run α).returns (Evolves A) := ⟨fun g => ⟨a, g, rfl, Evolves.evolves_refl A g⟩⟩

theorem printError_returns (A : Event → Prop) (w : World) (m : Str) :
    (printError w m).returns (Evolves A) := by
  constructor
  intro g
  refine ⟨(), _, rfl, ⟨rfl, rfl, rfl, rfl, rfl, rfl, ⟨[], by simp⟩, ⟨_, rfl⟩, Or.inr ⟨rfl, ?_⟩⟩⟩
  simp

theorem printSuccess_returns (A : Event → Prop) (w : World) (m : Str) :
    (printSuccess w m).returns (Evolves A) := ⟨fun g =>
  ⟨(), _, rfl, ⟨rfl, rfl, rfl, rfl, rfl, rfl, ⟨[], by simp⟩, ⟨_, rfl⟩, Or.inl ⟨rfl, rfl⟩⟩⟩⟩

theorem printWarning_returns (A : Event → Prop) (w : World) (m : Str) :
    (printWarning w m).returns (Evolves A) := ⟨fun g =>
  ⟨(), _, rfl, ⟨rfl, rfl, rfl, rfl, rfl, rfl, ⟨[], by simp⟩, ⟨_, rfl⟩, Or.inl ⟨rfl, rfl⟩⟩⟩⟩

theorem printStep_returns (A : Event → Prop) : printStep.returns (Evolves A) := ⟨fun g =>
  ⟨(), _, rfl, ⟨rfl, rfl, rfl, rfl, rfl, rfl, ⟨[], by simp⟩, ⟨[], by simp⟩,
    Or.inl ⟨rfl, rfl⟩⟩⟩⟩

theorem getGlobals_returns (A : Event → Prop) : getGlobals.returns (Evolves A) := ⟨fun g =>
  ⟨g, g, rfl, Evolves.evolves_refl A g⟩⟩

theorem modifyGlobals_returns (A : Event → Prop) (f : Globals → Globals)
    (h : ∀ g, SameRun g (f g)) : (modifyGlobals f).returns (Evolves A) :=
  ⟨fun g => ⟨(), f g, rfl, Evolves.same A g _ (h g).jsonOutput (h g).htmlOutput (h g).exitCode
    (h g).inspectionData (h g).trace⟩⟩

theorem modifyData_returns (A : Event → Prop) (f : inspectionStruct → inspectionStruct)
    (h : ∀ d, SameFindings d (f d)) : (modifyData f).returns (Evolves A) :=
  ⟨fun g => ⟨(), _, rfl, Evolves.frame A g _ (h _).plugin (h _).repo (h _).tag (h _).url
    (h _).messages (h _).errors⟩⟩

theorem modifyGlobals_steps (A : Event → Prop) (f : Globals → Globals)
    (h : ∀ g, SameRun g (f g)) : (modifyGlobals f).steps (Evolves A) :=
  (modifyGlobals_returns A f h).steps

theorem modifyData_steps (A : Event → Prop) (f : inspectionStruct → inspectionStruct)
    (h : ∀ d, SameFindings d (f d)) : (modifyData f).steps (Evolves A) :=
  (modifyData_returns A f h).steps

theorem emit_returns (A : Event → Prop) (e : Event) (h : A e) :
    (emit e).returns (Evolves A) := ⟨fun g =>
  ⟨(), _, rfl, ⟨rfl, rfl, rfl, rfl, rfl, rfl, ⟨[e], rfl, by simpa using h⟩, ⟨[], by simp⟩,
    Or.inl ⟨rfl, rfl⟩⟩⟩⟩

theorem sleepOneSecond_returns (A : Event → Prop) (h : A .sleep) :
    sleepOneSecond.returns (Evolves A) := emit_returns A _ h

theorem runCommand_returns (A : Event → Prop) (w : World) (command : Str)
    (h : ∀ e, e.commandLine = TrimSpace command → A e) :
    (runCommand w command).returns (Evolves A) := by
  constructor
  intro g
  unfold runCommand
  by_cases hc : TrimSpace command = []
  · simp only [hc, if_true]
    exact ⟨_, _, rfl, Evolves.evolves_refl A g⟩
  · simp only [hc, if_false]
    refine ⟨_, _, rfl, ⟨rfl, rfl, rfl, rfl, rfl, rfl, ⟨[_], rfl, ?_⟩, ⟨[], by simp⟩,
      Or.inl ⟨rfl, rfl⟩⟩⟩
    intro e he
    simp only [List.mem_singleton] at he
    subst he
    apply h
    simp only [Event.commandLine]
    split <;> rfl

theorem osExit_one_steps (A : Event → Prop) {α : Type} : (osExit 1 : Run α).steps (Evolves A) :=
  ⟨fun g => ⟨Evolves.evolves_refl A g, rfl⟩⟩

theorem goPanic_steps (A : Event → Prop) {α : Type} : (goPanic : Run α).steps (Evolves A) :=
  ⟨fun g => ⟨Evolves.evolves_refl A g, trivial⟩⟩

theorem generateJSONOutput_steps (A : Event → Prop) (w : World) (h : ∀ d, A (.json d)) :
    (generateJSONOutput w).steps (Evolves A) := by
  constructor
  intro g
  unfold generateJSONOutput
  split
  · exact ⟨Evolves.evolves_refl A g, rfl⟩
  · refine ⟨⟨rfl, rfl, rfl, rfl, rfl, rfl, ⟨[_], rfl, ?_⟩, ⟨[], by simp [Res.globals]⟩,
      Or.inl ⟨rfl, rfl⟩⟩, trivial⟩
    intro e he
    simp only [List.mem_singleton] at he
    subst he
    exact h _

theorem logFatalError_steps (A : Event → Prop) (w : World) (err : Str) (h : ∀ d, A (.json d)) :
    (logFatalError w err).steps (Evolves A) := by
  constructor
  intro g
  unfold logFatalError
  split
  · exact (evolves_bind (printError_returns A w err).steps
      (fun _ => generateJSONOutput_steps A w h)).run g
  · exact ⟨Evolves.evolves_refl A g, trivial⟩

/-! ### Classes of events -/

theorem quiet_sleep : Event.sleep.quiet := ⟨rfl, rfl⟩
theorem quiet_promptUser : Event.promptUser.quiet := ⟨rfl, rfl⟩
theorem quiet_promptPassword : Event.promptPassword.quiet := ⟨rfl, rfl⟩
theorem quiet_json (d : jsonOutputStruct) : (Event.json d).quiet := ⟨rfl, rfl⟩
theorem quiet_createFile (p : Str) : (Event.createFile p).quiet := ⟨rfl, rfl⟩
theorem quiet_getDigest (a b c d : Str) : (Event.getDigest a b c d).quiet := ⟨rfl, rfl⟩
theorem quiet_getManifest (a b c d : Str) : (Event.getManifest a b c d).quiet := ⟨rfl, rfl⟩
theorem quiet_getConfigBlob (a b c : Str) : (Event.getConfigBlob a b c).quiet := ⟨rfl, rfl⟩

/-- The trimmed form of a command line that starts with a fixed text `a` starts with `a`. -/
theorem hasPrefix_trimmed_false (a b q : Str) (ha : a ≠ []) (hhead : isSpace (a.head ha) = false)
    (hlast : isSpace (a.getLast ha) = false) (h : ∀ rest, HasPrefix (a ++ rest) q = false) :
    HasPrefix (TrimSpace (a ++ b)) q = false := by
  rw [TrimSpace_append_keep a b ha hhead hlast]
  exact h _

theorem quiet_of_commandLine (e : Event) (a b : Str) (ha : a ≠ [])
    (hhead : isSpace (a.head ha) = false) (hlast : isSpace (a.getLast ha) = false)
    (h1 : ∀ rest, HasPrefix (a ++ rest) "docker plugin install".toList = false)
    (h2 : ∀ rest, HasPrefix (a ++ rest) "docker network".toList = false)
    (he : e.commandLine = TrimSpace (a ++ b)) : e.quiet := by
  unfold Event.quiet Event.isInstall Event.isNetwork
  rw [he]
  exact ⟨hasPrefix_trimmed_false a b _ ha hhead hlast h1,
    hasPrefix_trimmed_false a b _ ha hhead hlast h2⟩

/-! ### The pieces of the program -/

theorem removeDockerNetworkingPlugin_returns (A : Event → Prop) (hA : ∀ e, e.quiet → A e)
    (w : World) (p : Str) :
    (removeDockerNetworkingPlugin w p).returns (Evolves A) := by
  have hcmd : ∀ e : Event, e.commandLine
      = TrimSpace ("docker plugin remove ".toList ++ p ++ " --force".toList) → A e := by
    intro e he
    apply hA
    refine quiet_of_commandLine e "docker plugin remove".toList
      (" ".toList ++ p ++ " --force".toList)
      (by decide) (by decide) (by decide) (fun _ => rfl) (fun _ => rfl) ?_
    rw [he]; rfl
  unfold removeDockerNetworkingPlugin
  repeat' first
    | with_reducible exact evolves_pure_returns A _
    | with_reducible exact printError_returns A w _
    | with_reducible exact printSuccess_returns A w _
    | with_reducible exact runCommand_returns A w _ hcmd
    | with_reducible apply evolves_bind_returns
    | rintro ⟨_, _⟩
    | intro _
    | split

theorem dockerNetworkingPluginInstalled_returns (A : Event → Prop) (hA : ∀ e, e.quiet → A e)
    (w : World) (p : Str) :
    (dockerNetworkingPluginInstalled w p).returns (Evolves A) := by
  have hcmd : ∀ e : Event, e.commandLine = TrimSpace
      ("docker plugin inspect --format '\x7b\x7b .Name \x7d\x7d' ".toList ++ p) → A e := by
    intro e he
    apply hA
    refine quiet_of_commandLine e "docker plugin inspect".toList
      (" --format '\x7b\x7b .Name \x7d\x7d' ".toList ++ p)
      (by decide) (by decide) (by decide) (fun _ => rfl) (fun _ => rfl) ?_
    rw [he]; rfl
  unfold dockerNetworkingPluginInstalled
  repeat' first
    | with_reducible exact evolves_pure_returns A _
    | with_reducible exact runCommand_returns A w _ hcmd
    | with_reducible apply evolves_bind_returns
    | rintro ⟨_, _⟩
    | intro _
    | split

theorem promptUserLoop_steps (A : Event → Prop) (hA : ∀ e, e.quiet → A e)
    (answers : List Str) : (promptUserLoop answers).steps (Evolves A) := by
  induction answers with
  | nil => exact ⟨fun g => ⟨Evolves.evolves_refl A g, trivial⟩⟩
  | cons a rest ih =>
    unfold promptUserLoop
    repeat' first
      | exact ih
      | with_reducible exact evolves_pure A _
      | with_reducible exact (emit_returns A _ (hA _ quiet_promptUser)).steps
      | with_reducible apply evolves_bind
      | intro _
      | split

theorem promptPasswordLoop_steps (A : Event → Prop) (hA : ∀ e, e.quiet → A e) (w : World)
    (answers : List (Str × Option Str)) :
    (promptPasswordLoop w answers).steps (Evolves A) := by
  induction answers with
  | nil => exact ⟨fun g => ⟨Evolves.evolves_refl A g, trivial⟩⟩
  | cons a rest ih =>
    obtain ⟨pass, err⟩ := a
    unfold promptPasswordLoop
    repeat' first
      | exact ih
      | with_reducible exact evolves_pure A _
      | with_reducible exact (emit_returns A _ (hA _ quiet_promptPassword)).steps
      | with_reducible exact logFatalError_steps A w _ (fun d => hA _ (quiet_json d))
      | with_reducible apply evolves_bind
      | intro _
      | split

theorem readCredentials_steps (A : Event → Prop) (hA : ∀ e, e.quiet → A e) (w : World)
    (f : Flags) : (readCredentials w f).steps (Evolves A) := by
  unfold readCredentials
  repeat' first
    | with_reducible exact evolves_pure A _
    | with_reducible exact promptUserLoop_steps A hA _
    | with_reducible exact promptPasswordLoop_steps A hA w _
    | with_reducible apply evolves_bind
    | intro _
    | split

theorem loginAndVersion_steps (A : Event → Prop) (hA : ∀ e, e.quiet → A e) (w : World)
    (u p api : Str) : (loginAndVersion w u p api).steps (Evolves A) := by
  have hlogin : ∀ e : Event, e.commandLine = TrimSpace ("docker login --username ".toList ++ u
      ++ " --password ".toList ++ p ++ " ".toList ++ api) → A e := by
    intro e he
    apply hA
    refine quiet_of_commandLine e "docker login --username".toList
      (" ".toList ++ u ++ " --password ".toList ++ p ++ " ".toList ++ api)
      (by decide) (by decide) (by decide) (fun _ => rfl) (fun _ => rfl) ?_
    rw [he]; simp
  have hversion : ∀ e : Event, e.commandLine = TrimSpace "docker --version".toList → A e := by
    intro e he
    apply hA
    refine quiet_of_commandLine e "docker --version".toList []
      (by decide) (by decide) (by decide) (fun _ => rfl) (fun _ => rfl) ?_
    rw [he]; rfl
  unfold loginAndVersion
  refine evolves_bind (runCommand_returns A w _ hlogin).steps ?_
  repeat' first
    | with_reducible exact evolves_pure A _
    | with_reducible exact osExit_one_steps A
    | with_reducible exact (printStep_returns A).steps
    | with_reducible exact (runCommand_returns A w _ hversion).steps
    | with_reducible exact logFatalError_steps A w _ (fun d => hA _ (quiet_json d))
    | with_reducible exact modifyData_steps A _ (fun _ => ⟨rfl, rfl, rfl, rfl, rfl, rfl, rfl⟩)
    | with_reducible apply evolves_bind
    | rintro ⟨_, _⟩
    | intro _
    | split

theorem fetchMetadata_steps (A : Event → Prop) (hA : ∀ e, e.quiet → A e) (w : World)
    (u p : Str) : (fetchMetadata w u p).steps (Evolves A) := by
  unfold fetchMetadata
  repeat' first
    | with_reducible exact evolves_pure A _
    | with_reducible exact osExit_one_steps A
    | with_reducible exact goPanic_steps A
    | with_reducible exact (getGlobals_returns A).steps
    | with_reducible exact (printStep_returns A).steps
    | with_reducible exact (printSuccess_returns A w _).steps
    | with_reducible exact (emit_returns A _ (hA _ (quiet_getDigest _ _ _ _))).steps
    | with_reducible exact (emit_returns A _ (hA _ (quiet_getManifest _ _ _ _))).steps
    | with_reducible exact (emit_returns A _ (hA _ (quiet_getConfigBlob _ _ _))).steps
    | with_reducible exact logFatalError_steps A w _ (fun d => hA _ (quiet_json d))
    | with_reducible exact modifyData_steps A _ (fun _ => ⟨rfl, rfl, rfl, rfl, rfl, rfl, rfl⟩)
    | with_reducible exact modifyGlobals_steps A _ (fun _ => ⟨rfl, rfl, rfl, rfl, rfl⟩)
    | with_reducible apply evolves_bind
    | intro _
    | split

theorem lastIndexFrom_singleton_none (c : Char) (s : Str) (i : Nat) (found : Option Nat) :
    lastIndexFrom [c] s i found = none ↔ found = none ∧ c ∉ s := by
  induction s generalizing i found with
  | nil => simp [lastIndexFrom]
  | cons x xs ih =>
    simp only [lastIndexFrom, List.isPrefixOf, Bool.and_true, ih, List.mem_cons, not_or]
    by_cases hx : c = x
    · subst hx; simp
    · have : (c == x) = false := by simpa using hx
      simp [this, hx]

theorem lastIndexFrom_singleton_some (c : Char) (s : Str) (i : Nat) (found : Option Nat)
    (k : Nat) (h : lastIndexFrom [c] s i found = some k) :
    (found = some k ∧ c ∉ s) ∨
      (i ≤ k ∧ s[k - i]? = some c ∧ c ∉ s.drop (k - i + 1)) := by
  induction s generalizing i found with
  | nil =>
    simp only [lastIndexFrom, List.cons_ne_self, if_false, reduceCtorEq] at h
    exact Or.inl ⟨h, by simp⟩
  | cons x xs ih =>
    simp only [lastIndexFrom, List.isPrefixOf, Bool.and_true] at h
    rcases ih _ _ h with ⟨h1, h2⟩ | ⟨h1, h2, h3⟩
    · by_cases hx : c = x
      · subst hx
        simp only [beq_self_eq_true, if_true, Option.some.injEq] at h1
        subst h1
        exact Or.inr ⟨le_refl _, by simp, by simpa using h2⟩
      · have : (c == x) = false := by simpa using hx
        simp only [this, Bool.false_eq_true, if_false] at h1
        exact Or.inl ⟨h1, by simp [hx, h2]⟩
    · refine Or.inr ⟨by omega, ?_, ?_⟩
      · have : k - i = (k - (i + 1)) + 1 := by omega
        rw [this, List.getElem?_cons_succ]
        exact h2
      · have : k - i + 1 = (k - (i + 1) + 1) + 1 := by omega
        rw [this, List.drop_succ_cons]
        exact h3

/-- `strings.LastIndex` for a one-character pattern finds nothing exactly when the
character does not occur. -/
theorem LastIndex_singleton_eq_none (c : Char) (s : Str) :
    LastIndex s [c] = none ↔ c ∉ s := by
  simp [LastIndex, lastIndexFrom_singleton_none]

/-- `strings.LastIndex` for a one-character pattern: the character stands at the offset
found and does not occur behind it. -/
theorem LastIndex_singleton_eq_some (c : Char) (s : Str) (k : Nat)
    (h : LastIndex s [c] = some k) : s[k]? = some c ∧ c ∉ s.drop (k + 1) := by
  rcases lastIndexFrom_singleton_some c s 0 none k h with ⟨h1, _⟩ | ⟨_, h2, h3⟩
  · exact absurd h1 (by simp)
  · exact ⟨by simpa using h2, by simpa using h3⟩

theorem runCommand_eq (w : World) (command : Str) (g : Globals) (h : TrimSpace command ≠ []) :
    ∃ cmd args res, args.getLastD [] = TrimSpace command ∧
      runCommand w command g = .ok (TrimSpace res.output, res.err)
        { g with trace := g.trace ++ [.exec cmd args res] } := by
  unfold runCommand
  simp only [h, if_false]
  refine ⟨_, _, _, ?_, rfl⟩
  split <;> rfl

theorem getOperatingSystemInfo_eq (w : World) (g : Globals) :
    ∃ v evs, getOperatingSystemInfo w g = .ok v { g with trace := g.trace ++ evs } ∧
      ∀ e ∈ evs, e.isSystemInfo := by
  unfold getOperatingSystemInfo
  split
  · obtain ⟨cmd, args, res, h1, h2⟩ := runCommand_eq w
      "defaults read loginwindow SystemVersionStampAsString".toList g (by decide)
    rw [run_bind, h2]
    have hev : ∀ e ∈ [Event.exec cmd args res], e.isSystemInfo := by
      intro e he
      simp only [List.mem_singleton] at he
      subst he
      exact Or.inl (h1.trans (by decide))
    cases res.err with
    | none => exact ⟨_, _, rfl, hev⟩
    | some x => exact ⟨_, _, rfl, hev⟩
  · split
    · obtain ⟨cmd, args, res, h1, h2⟩ := runCommand_eq w
        "(Get-CimInstance win32_operatingsystem).caption".toList g (by decide)
      rw [run_bind, h2]
      have hev : ∀ e ∈ [Event.exec cmd args res], e.isSystemInfo := by
        intro e he
        simp only [List.mem_singleton] at he
        subst he
        exact Or.inr (Or.inl (h1.trans (by decide)))
      cases res.err with
      | none => exact ⟨_, _, rfl, hev⟩
      | some x => exact ⟨_, _, rfl, hev⟩
    · split
      · obtain ⟨cmd, args, res, h1, h2⟩ := runCommand_eq w
          "cat /etc/os-release | grep 'PRETTY_NAME' | awk -F '\"' '\x7b print $2 \x7d'".toList
          g (by decide)
        rw [run_bind, h2]
        have hev : ∀ e ∈ [Event.exec cmd args res], e.isSystemInfo := by
          intro e he
          simp only [List.mem_singleton] at he
          subst he
          exact Or.inr (Or.inr (h1.trans (by decide)))
        cases res.err with
        | none => exact ⟨_, _, rfl, hev⟩
        | some x => exact ⟨_, _, rfl, hev⟩
      · exact ⟨("Operating System is unknown!".toList, none), [], by simp, by simp⟩

/-! ## The start of `main` and the reference -/

/-- The first part of `main`, run from the initial globals: it returns only when help
is not asked for and there is a positional argument; it exits with status 0 only for
help; in each case nothing is recorded yet. -/
theorem startRun_spec (w : World) (f : Flags) :
    match startRun w f initialGlobals with
    | .ok _ g1 => Started g1 ∧ f.help = false ∧ f.args ≠ [] ∧ g1.jsonOutput = f.json ∧
        g1.htmlOutput = f.html
    | .exit code g1 => Started g1 ∧ (code = 1 ∨ (code = 0 ∧ f.help = true))
    | .panic _ => False
    | .hang _ => False := by
  obtain ⟨v, evs, h1, h2⟩ := getOperatingSystemInfo_eq w
    { initialGlobals with inspectionData :=
      { initialGlobals.inspectionData with
        InspectionDate := w.inspectionDate, SystemArchitecture := w.GOARCH } }
  unfold startRun
  simp only [run_bind, modifyData, modifyGlobals, h1]
  obtain ⟨os, err⟩ := v
  have htr : ∀ e ∈ initialGlobals.trace ++ evs, e.isSystemInfo := by
    intro e he
    exact h2 e (by simpa [initialGlobals] using he)
  cases err with
  | some e =>
    simp only [logFatalError, osExit]
    exact ⟨⟨rfl, rfl, rfl, rfl, htr⟩, Or.inl rfl⟩
  | none =>
    simp only [run_pure, osExit]
    by_cases hh : f.help = true
    · simp only [hh, if_true]
      exact ⟨⟨rfl, rfl, rfl, rfl, htr⟩, Or.inr ⟨rfl, trivial⟩⟩
    · simp only [hh, if_false, run_pure]
      by_cases ha : f.args.length = 0
      · simp only [ha, if_true]
        exact ⟨⟨rfl, rfl, rfl, rfl, htr⟩, Or.inl rfl⟩
      · simp only [ha, if_false, run_pure]
        refine ⟨⟨rfl, rfl, rfl, rfl, htr⟩, by simp [hh], ?_, rfl, rfl⟩
        intro h0
        exact ha (by simp [h0])

theorem logFatalError_cases (w : World) (err : Str) (g : Globals) :
    ∃ g1, Evolves Event.isJson g g1 ∧
      (logFatalError w err g = .ok () g1 ∨ logFatalError w err g = .exit 1 g1) := by
  have h := (logFatalError_steps Event.isJson w err (fun _ => trivial)).run g
  unfold logFatalError at h ⊢
  by_cases hj : g.jsonOutput = true
  · simp only [hj, if_true, run_bind, printError, generateJSONOutput] at h ⊢
    split
    · rename_i hf
      simp only [hf, if_true] at h
      exact ⟨_, h.1, Or.inr rfl⟩
    · rename_i hf
      simp only [hf, if_false] at h
      exact ⟨_, h.1, Or.inl rfl⟩
  · simp only [hj, if_false]
    exact ⟨g, Evolves.evolves_refl _ g, Or.inl rfl⟩

/-- The pattern `logFatalError(err); os.Exit(1)` ends the process with status 1. -/
theorem fatal_exit (w : World) (err : Str) (g : Globals) :
    (logFatalError w err >>= fun _ => (osExit 1 : Run Unit)) g
      = .exit 1 (fatalGlobals w err g) := by
  unfold fatalGlobals
  obtain ⟨g1, _, h2 | h2⟩ := logFatalError_cases w err g
  · rw [run_bind, h2]; rfl
  · rw [run_bind, h2]; rfl

/-- The pattern `logFatalError(err); os.Exit(1)` at most records the error and writes one
JSON document. -/
theorem fatalGlobals_evolves (w : World) (err : Str) (g : Globals) :
    Evolves Event.isJson g (fatalGlobals w err g) := by
  unfold fatalGlobals
  obtain ⟨g1, h1, h2 | h2⟩ := logFatalError_cases w err g
  · rw [run_bind, h2]; exact h1
  · rw [run_bind, h2]; exact h1

theorem readReference_spec (w : World) (f : Flags) (g : Globals) :
    match readReference w f g with
    | .ok _ g1 => ReferenceRead f g g1
    | .exit code g1 => code = 1 ∧ ∃ g0, SameRecord g g0 ∧ Evolves Event.isJson g0 g1
    | .panic _ => False
    | .hang _ => False := by
  unfold readReference
  simp only [run_bind, modifyData, modifyGlobals, getGlobals]
  by_cases hs : Index (sanitize (f.args.headD [])) "/".toList = none
  · simp only [hs, if_true, fatal_exit]
    refine ⟨trivial, _, ?_, fatalGlobals_evolves _ _ _⟩
    exact ⟨rfl, rfl, rfl, rfl, rfl, rfl, rfl⟩
  · simp only [hs, if_false, run_pure]
    cases hl : LastIndex (sanitize (f.args.headD [])) ":".toList with
    | none =>
      simp only [fatal_exit]
      refine ⟨trivial, _, ?_, fatalGlobals_evolves _ _ _⟩
      exact ⟨rfl, rfl, rfl, rfl, rfl, rfl, rfl⟩
    | some tagIndex =>
      simp only [run_bind, modifyData, modifyGlobals]
      by_cases ht : List.drop (tagIndex + 1) (sanitize (f.args.headD [])) = []
      · simp only [ht, if_true, fatal_exit]
        refine ⟨trivial, _, ?_, fatalGlobals_evolves _ _ _⟩
        exact ⟨rfl, rfl, rfl, rfl, rfl, rfl, rfl⟩
      · simp only [ht, if_false, run_pure]
        refine ⟨rfl, rfl, rfl, rfl, rfl, rfl, rfl, rfl, ?_, ⟨tagIndex, hl, rfl, rfl⟩, ht⟩
        have := (Index_singleton_eq_none '/' (sanitize (f.args.headD []))).not.mp hs
        simpa using this

theorem Event.isSystemInfo.systemInfo_not_login_fetch {e : Event} (h : e.isSystemInfo) :
    e.isLogin = false ∧ e.isFetch = false := by
  cases e with
  | exec cmd args res =>
    refine ⟨?_, rfl⟩
    unfold Event.isLogin
    rcases h with h | h | h <;> rw [h] <;> decide
  | _ =>
    exfalso
    rcases h with h | h | h <;> exact absurd h (by simp [Event.commandLine])

theorem Event.isJson.json_not_login_fetch {e : Event} (h : e.isJson) :
    e.isLogin = false ∧ e.isFetch = false := by
  cases e with
  | json d => exact ⟨rfl, rfl⟩
  | _ => exact absurd h (by simp [Event.isJson])

/-- A reference that ends with a colon has nothing behind its last colon. -/
theorem drop_LastIndex_of_getLast (s : Str) (k : Nat) (hk : LastIndex s ":".toList = some k)
    (hlast : s.getLast? = some ':') : s.drop (k + 1) = [] := by
  obtain ⟨_, h2⟩ := LastIndex_singleton_eq_some ':' s k hk
  by_contra hne
  apply h2
  have h3 : (s.drop (k + 1)).getLast? = some ':' := by
    rw [List.getLast?_drop, if_neg]
    · exact hlast
    · intro hle
      exact hne (List.drop_eq_nil_of_le hle)
  exact List.mem_of_getLast?_eq_some h3

/-- C1. A reference that, after sanitising, has no `/`, has no `:`, or ends with its last
`:` makes the run (one that does not ask for help and has the reference as its first
argument) end with exit status 1, and up to that end neither the `docker login` command
nor a registry fetch has happened. -/
theorem invalid_reference_aborts_before_login (w : World) (f : Flags) (reference : Str)
    (others : List Str) (hhelp : f.help = false) (hargs : f.args = reference :: others)
    (hbad : '/' ∉ sanitize reference ∨ ':' ∉ sanitize reference ∨
      (sanitize reference).getLast? = some ':') :
    (main w f).exitStatus = some 1 ∧
      ∀ e ∈ (main w f).globals.trace, e.isLogin = false ∧ e.isFetch = false := by
  have h1 := startRun_spec w f
  unfold main mainBody beforeSummary
  simp only [run_bind]
  cases hs : startRun w f initialGlobals with
  | ok api g1 =>
    rw [hs] at h1
    obtain ⟨hst, -, -, -, -⟩ := h1
    have h2 := readReference_spec w f g1
    simp only
    cases hr : readReference w f g1 with
    | ok u g2 =>
      rw [hr] at h2
      exfalso
      have hp := h2.plugin
      rw [hargs] at hp
      simp only [List.headD_cons] at hp
      obtain ⟨k, hk, -, htag⟩ := h2.split
      rw [hp] at hk htag
      rcases hbad with hb | hb | hb
      · exact hb (hp ▸ h2.slash)
      · have hk2 : LastIndex (sanitize reference) [':'] = some k := hk
        rw [(LastIndex_singleton_eq_none ':' _).mpr hb] at hk2
        exact absurd hk2 (by simp)
      · exact h2.tag (htag.trans (drop_LastIndex_of_getLast _ k hk hb))
    | exit c g2 =>
      rw [hr] at h2
      obtain ⟨hc, g0, h0, hev⟩ := h2
      obtain ⟨evs, he1, he2⟩ := hev.trace
      rw [h0.trace] at he1
      subst hc
      refine ⟨rfl, ?_⟩
      intro e he
      simp only [Res.globals, he1, List.mem_append] at he
      rcases he with he | he
      · exact (hst.trace e he).systemInfo_not_login_fetch
      · exact (he2 e he).json_not_login_fetch
    | panic g2 => rw [hr] at h2; exact absurd h2 id
    | hang g2 => rw [hr] at h2; exact absurd h2 id
  | exit c g1 =>
    rw [hs] at h1
    obtain ⟨hst, hc | ⟨-, hc⟩⟩ := h1
    · subst hc
      exact ⟨rfl, fun e he => (hst.trace e he).systemInfo_not_login_fetch⟩
    · rw [hhelp] at hc; exact absurd hc (by simp)
  | panic g1 => rw [hs] at h1; exact absurd h1 id
  | hang g1 => rw [hs] at h1; exact absurd h1 id

theorem invalid_reference_aborts_before_login_witness :
    (sampleFlags "acme/netplug".toList).help = false ∧
    (main sampleWorld (sampleFlags "acme/netplug".toList)).exitStatus = some 1 ∧
      ∀ e ∈ (main sampleWorld (sampleFlags "acme/netplug".toList)).globals.trace,
        e.isLogin = false ∧ e.isFetch = false :=
  ⟨rfl, invalid_reference_aborts_before_login sampleWorld (sampleFlags "acme/netplug".toList)
    "acme/netplug".toList [] rfl rfl (Or.inr (Or.inl (by decide)))⟩

/-! ## Sanitising -/

theorem matchLazyGroup_of_clean (captured s : Str) (hnl : '\n' ∉ s)
    (hsep : ∃ c ∈ s, isShellSeparator c = true) :
    matchLazyGroup captured s
      = some (captured ++ s.takeWhile (fun c => !isShellSeparator c)) := by
  induction s generalizing captured with
  | nil => obtain ⟨c, hc, _⟩ := hsep; exact absurd hc (by simp)
  | cons x xs ih =>
    have hx : x ≠ '\n' := fun h => hnl (by simp [h])
    have hxs : '\n' ∉ xs := fun h => hnl (by simp [h])
    by_cases hsx : isShellSeparator x = true
    · have hrest : matchesDotStarEnd xs = true := by
        simp only [matchesDotStarEnd, List.all_eq_true]
        intro c hc
        have : c ≠ '\n' := fun h => hxs (h ▸ hc)
        simpa using this
      simp [matchLazyGroup, hsx, hrest, List.takeWhile]
    · have hsx2 : isShellSeparator x = false := by simpa using hsx
      have hsep2 : ∃ c ∈ xs, isShellSeparator c = true := by
        obtain ⟨c, hc, hcs⟩ := hsep
        rcases List.mem_cons.mp hc with h | h
        · subst h; exact absurd hcs hsx
        · exact ⟨c, h, hcs⟩
      have hxb : (x != '\n') = true := by simpa using hx
      simp [matchLazyGroup, hsx2, hxb, ih _ hxs hsep2, List.takeWhile]

/-- C2, as the program has it. For a reference without line feed that contains `;`, `|`
or `&`, the effective reference is the part of the input before the first of these
characters; for `ns/name:tag;rm -rf` it is `ns/name:tag`. -/
theorem sanitize_strips_from_first_separator (s : Str) (hnl : '\n' ∉ s)
    (hsep : ∃ c ∈ s, isShellSeparator c = true) :
    sanitize s = s.takeWhile (fun c => !isShellSeparator c) ∧
      sanitize "ns/name:tag;rm -rf".toList = "ns/name:tag".toList := by
  refine ⟨?_, by decide⟩
  unfold sanitize findSubmatch1
  rw [matchLazyGroup_of_clean [] s hnl hsep]
  rfl

theorem sanitize_strips_from_first_separator_witness :
    sanitize "a/b:1&c;d".toList
        = "a/b:1&c;d".toList.takeWhile (fun c => !isShellSeparator c) ∧
      sanitize "ns/name:tag;rm -rf".toList = "ns/name:tag".toList :=
  sanitize_strips_from_first_separator "a/b:1&c;d".toList (by decide) ⟨'&', by decide, by decide⟩

/-- C2 as stated fails: the input `a/b:1&c;d` contains `;`, the part before its first `;`
or `|` is `a/b:1&c`, and the effective reference is `a/b:1`. -/
theorem sanitize_not_up_to_first_semicolon_or_bar :
    ';' ∈ "a/b:1&c;d".toList ∧
      "a/b:1&c;d".toList.takeWhile (fun c => !(c = ';' || c = '|')) = "a/b:1&c".toList ∧
      sanitize "a/b:1&c;d".toList = "a/b:1".toList ∧
      sanitize "a/b:1&c;d".toList
        ≠ "a/b:1&c;d".toList.takeWhile (fun c => !(c = ';' || c = '|')) := by
  decide

/-- C3 fails on the code: for the input `a/b:1`, line feed, `;id` the sanitising
expression does not match, the effective reference is the input itself and still
contains `;`, and the run hands it to the shell in the install command. -/
theorem sanitize_keeps_separator_after_line_feed :
    sanitize "a/b:1\n;id".toList = "a/b:1\n;id".toList ∧
      ';' ∈ sanitize "a/b:1\n;id".toList ∧
      (main sampleWorld (sampleFlags "a/b:1\n;id".toList)).globals.inspectionData.DockerNetworkingPlugin
        = "a/b:1\n;id".toList ∧
      Event.exec "/bin/bash".toList
          ["-c".toList, "docker plugin install --grant-all-permissions a/b:1\n;id".toList]
          { output := [], err := none }
        ∈ (main sampleWorld (sampleFlags "a/b:1\n;id".toList)).globals.trace := by
  decide

/-! ## JSON results -/

theorem foldl_results (ms : List Str) (acc : List jsonResultsStruct) :
    ms.foldl (fun results statusMessage =>
        match parseMessage statusMessage with
        | (status, message) => results ++ [{ Status := status, Message := message }]) acc
      = acc ++ ms.map resultOfMessage := by
  induction ms generalizing acc with
  | nil => simp
  | cons m ms ih => simp [List.foldl, ih, resultOfMessage]

/-- C7. The `Results` array built by `generateJSONOutput` has as many entries as there
are recorded messages, and its i-th entry is `parseMessage` of the i-th message. -/
theorem results_are_parsed_messages (g : Globals) :
    (jsonOutputData g).Results.length = g.inspectionData.Messages.length ∧
      ∀ i : Nat, (jsonOutputData g).Results[i]?
        = (g.inspectionData.Messages[i]?).map resultOfMessage := by
  have h : (jsonOutputData g).Results = g.inspectionData.Messages.map resultOfMessage := by
    unfold jsonOutputData
    simp only
    rw [foldl_results]
    simp
  rw [h]
  exact ⟨by simp, fun i => by simp⟩

/-- `parseMessage` on a text with a colon: the part before the first colon and the
trimmed part behind it. -/
theorem parseMessage_of_colon (a b : Str) (ha : ':' ∉ a) :
    parseMessage (a ++ ':' :: b) = (a, TrimSpace b) := by
  have hidx : Index (a ++ ':' :: b) ":".toList = some a.length := by
    show Index (a ++ ':' :: b) [':'] = some a.length
    rw [Index_singleton, if_pos (by simp)]
    have h1 : List.takeWhile (fun x => x != ':') (a ++ ':' :: b) = a := by
      rw [List.takeWhile_append_of_pos]
      · simp [List.takeWhile]
      · intro c hc
        have : c ≠ ':' := fun h => ha (h ▸ hc)
        simpa using this
    rw [h1]
  unfold parseMessage
  rw [hidx]
  simp

theorem useColour_json (w : World) (g : Globals) (hj : g.jsonOutput = true) :
    useColour w g = false := by
  simp [useColour, hj]

/-- The message behind a status column that was stored with trailing line feeds cut. -/
theorem parseMessage_stored (status pad m : Str) (hs : ':' ∉ status)
    (hpad : ∀ c ∈ pad, isSpace c = true) :
    parseMessage (status ++ ':' :: (pad ++ List.rdropWhile (fun c => decide (c ∈ "\n".toList)) m))
      = (status, TrimSpace m) := by
  rw [parseMessage_of_colon _ _ hs]
  congr 1
  induction pad with
  | nil => exact TrimSpace_rdropWhile_newline m
  | cons x xs ih =>
    rw [List.cons_append, TrimSpace_cons_space _ _ (hpad x (by simp))]
    exact ih (fun c hc => hpad c (by simp [hc]))

/-- C8. With JSON output requested, the message stored by `printSuccess`, `printWarning`
or `printError` for a finding text `m` is split by `parseMessage` into the status
`Passed`, `Warning` or `Error` and the text `m` with leading and trailing white space
removed. -/
theorem stored_finding_splits (w : World) (g : Globals) (m : Str) (hj : g.jsonOutput = true) :
    ((printSuccess w m g).globals.inspectionData.Messages.getLast?).map parseMessage
        = some ("Passed".toList, TrimSpace m) ∧
      ((printWarning w m g).globals.inspectionData.Messages.getLast?).map parseMessage
        = some ("Warning".toList, TrimSpace m) ∧
      ((printError w m g).globals.inspectionData.Messages.getLast?).map parseMessage
        = some ("Error".toList, TrimSpace m) := by
  have hc := useColour_json w g hj
  refine ⟨?_, ?_, ?_⟩
  · simp only [printSuccess, Res.globals, List.getLast?_concat, Option.map_some', boldGreen, hc, Bool.false_eq_true, if_false]
    have h1 : padRight10 "Passed:".toList ++ m = "Passed:   ".toList ++ m := rfl
    rw [h1, Trim_status_message _ _ (by decide) (by decide) (by decide)]
    exact congrArg some (parseMessage_stored "Passed".toList "   ".toList m (by decide)
      (by decide))
  · simp only [printWarning, Res.globals, List.getLast?_concat, Option.map_some', boldYellow, hc, Bool.false_eq_true, if_false]
    have h1 : padRight10 "Warning:".toList ++ m = "Warning:  ".toList ++ m := rfl
    rw [h1, Trim_status_message _ _ (by decide) (by decide) (by decide)]
    exact congrArg some (parseMessage_stored "Warning".toList "  ".toList m (by decide)
      (by decide))
  · simp only [printError, Res.globals, List.getLast?_concat, Option.map_some', boldRed, hc, Bool.false_eq_true, if_false]
    have h1 : padRight10 "Error:".toList ++ m = "Error:    ".toList ++ m := rfl
    rw [h1, Trim_status_message _ _ (by decide) (by decide) (by decide)]
    exact congrArg some (parseMessage_stored "Error".toList "    ".toList m (by decide)
      (by decide))

theorem stored_finding_splits_witness :
    jsonGlobals.jsonOutput = true ∧
    (((printSuccess sampleWorld " net: ok \n".toList jsonGlobals).globals.inspectionData.Messages.getLast?).map
        parseMessage = some ("Passed".toList, TrimSpace " net: ok \n".toList) ∧
      ((printWarning sampleWorld " net: ok \n".toList jsonGlobals).globals.inspectionData.Messages.getLast?).map
        parseMessage = some ("Warning".toList, TrimSpace " net: ok \n".toList) ∧
      ((printError sampleWorld " net: ok \n".toList jsonGlobals).globals.inspectionData.Messages.getLast?).map
        parseMessage = some ("Error".toList, TrimSpace " net: ok \n".toList)) :=
  ⟨rfl, stored_finding_splits sampleWorld jsonGlobals " net: ok \n".toList rfl⟩

/-- C9 fails on the code: the reference `localhost:5000/net` passes the validation of
`main`, and the parsed repository `localhost` contains no `/` (the tag is `5000/net`). -/
theorem reference_with_slash_behind_last_colon_accepted :
    (readReference sampleWorld (sampleFlags "localhost:5000/net".toList)
        initialGlobals).returned = true ∧
      (readReference sampleWorld (sampleFlags "localhost:5000/net".toList)
        initialGlobals).globals.inspectionData.DockerNetworkingPluginRepo = "localhost".toList ∧
      '/' ∉ (readReference sampleWorld (sampleFlags "localhost:5000/net".toList)
        initialGlobals).globals.inspectionData.DockerNetworkingPluginRepo ∧
      (readReference sampleWorld (sampleFlags "localhost:5000/net".toList)
        initialGlobals).globals.inspectionData.DockerNetworkingPluginTag = "5000/net".toList ∧
      (main sampleWorld (sampleFlags "localhost:5000/net".toList)).exitStatus = some 0 := by
  decide

/-! ## Summary and reports -/

theorem Reports.reports_refl (g : Globals) : Reports g g :=
  ⟨rfl, rfl, rfl, rfl, rfl, rfl, rfl, rfl, rfl, rfl, ⟨[], by simp⟩⟩

theorem Reports.reports_trans {a b c : Globals} (h1 : Reports a b) (h2 : Reports b c) :
    Reports a c := by
  obtain ⟨e1, he1, ha1⟩ := h1.trace
  obtain ⟨e2, he2, ha2⟩ := h2.trace
  refine ⟨h2.exitCode.trans h1.exitCode, h2.jsonOutput.trans h1.jsonOutput,
    h2.htmlOutput.trans h1.htmlOutput, h2.errors.trans h1.errors,
    h2.warnings.trans h1.warnings, h2.messages.trans h1.messages,
    h2.plugin.trans h1.plugin, h2.repo.trans h1.repo, h2.tag.trans h1.tag,
    h2.url.trans h1.url, ⟨e1 ++ e2, by rw [he2, he1, List.append_assoc], ?_⟩⟩
  intro e he
  rcases List.mem_append.mp he with h | h
  · exact ha1 e h
  · exact ha2 e h

theorem reports_bind {α β : Type} {m : Run α} {f : α → Run β}
    (hm : m.steps Reports) (hf : ∀ a, (f a).steps Reports) : (m >>= f).steps Reports :=
  steps_bind (T := Reports) (fun _ _ _ h1 h2 => h1.reports_trans h2) hm hf

theorem reports_pure {α : Type} (a : α) : (pure a : Run α).steps Reports :=
  ⟨fun g => ⟨Reports.reports_refl g, trivial⟩⟩

theorem reports_osExit {α : Type} : (osExit 1 : Run α).steps Reports :=
  ⟨fun g => ⟨Reports.reports_refl g, rfl⟩⟩

theorem reports_getGlobals : getGlobals.steps Reports :=
  ⟨fun g => ⟨Reports.reports_refl g, trivial⟩⟩

theorem reports_emit (e : Event) (h : e.isReport) : (emit e).steps Reports :=
  ⟨fun g => ⟨⟨rfl, rfl, rfl, rfl, rfl, rfl, rfl, rfl, rfl, rfl, ⟨[e], rfl, by simpa using h⟩⟩,
    trivial⟩⟩

theorem reports_modifyData (f : inspectionStruct → inspectionStruct)
    (h : ∀ d, SameFindings d (f d)) : (modifyData f).steps Reports :=
  ⟨fun g => ⟨⟨rfl, rfl, rfl, (h _).errors, (h _).warnings, (h _).messages, (h _).plugin,
    (h _).repo, (h _).tag, (h _).url, ⟨[], by
      simp [modifyData, modifyGlobals, Res.globals]⟩⟩, trivial⟩⟩

theorem reports_generateJSONOutput (w : World) : (generateJSONOutput w).steps Reports := by
  constructor
  intro g
  unfold generateJSONOutput
  split
  · exact ⟨Reports.reports_refl g, rfl⟩
  · refine ⟨⟨rfl, rfl, rfl, rfl, rfl, rfl, rfl, rfl, rfl, rfl, ⟨[_], rfl, ?_⟩⟩, trivial⟩
    intro e he
    simp only [List.mem_singleton] at he
    subst he
    trivial

theorem reports_open (w : World) (file : Str) :
    (runCommand w ("nohup open ".toList ++ file ++ " &".toList)).steps Reports := by
  constructor
  intro g
  obtain ⟨cmd, args, res, h1, h2⟩ := runCommand_eq w
    ("nohup open ".toList ++ file ++ " &".toList) g (by
      have : "nohup open ".toList ++ file ++ " &".toList
          = "nohup open".toList ++ (" ".toList ++ file ++ " &".toList) := by simp
      rw [this, TrimSpace_append_keep _ _ (by decide) (by decide) (by decide)]
      simp)
  rw [h2]
  refine ⟨⟨rfl, rfl, rfl, rfl, rfl, rfl, rfl, rfl, rfl, rfl, ⟨[_], rfl, ?_⟩⟩, trivial⟩
  intro e he
  simp only [List.mem_singleton] at he
  subst he
  show HasPrefix (args.getLastD []) "nohup open".toList = true
  rw [h1]
  have : "nohup open ".toList ++ file ++ " &".toList
      = "nohup open".toList ++ (" ".toList ++ file ++ " &".toList) := by simp
  rw [this, TrimSpace_append_keep _ _ (by decide) (by decide) (by decide)]
  exact List.isPrefixOf_iff_prefix.mpr (List.prefix_append _ _)

theorem reports_generateHTMLReport (w : World) : (generateHTMLReport w).steps Reports := by
  unfold generateHTMLReport
  repeat' first
    | with_reducible exact reports_pure _
    | with_reducible exact reports_osExit
    | with_reducible exact reports_getGlobals
    | ((with_reducible apply reports_emit); trivial)
    | with_reducible exact reports_open w _
    | with_reducible exact reports_modifyData _ (fun _ => ⟨rfl, rfl, rfl, rfl, rfl, rfl, rfl⟩)
    | with_reducible apply reports_bind
    | intro _
    | split

/-- The last part of `main`: the scan URL is assigned, then the reports are written. -/
theorem summaryAndReports_spec (w : World) (g : Globals) :
    Reports (withScanURL g) (summaryAndReports w g).globals ∧
      (summaryAndReports w g).stopsWithOne := by
  have h : (do
      let g ← getGlobals
      (if g.htmlOutput = true then generateHTMLReport w else pure ())
      if g.jsonOutput = true then generateJSONOutput w else pure () : Run Unit).steps Reports := by
    repeat' first
      | with_reducible exact reports_pure _
      | with_reducible exact reports_getGlobals
      | with_reducible exact reports_generateHTMLReport w
      | with_reducible exact reports_generateJSONOutput w
      | with_reducible apply reports_bind
      | intro _
      | split
  have h2 := h.run (withScanURL g)
  unfold summaryAndReports
  rw [run_bind]
  exact h2

/-! ## Plugin life cycle -/

theorem bind_returns_post {α β : Type} {m : Run α} {f : α → Run β}
    {T : Globals → Globals → Prop} (hm : m.returns T) (g : Globals) (Q : Res β → Prop)
    (h : ∀ a g1, T g g1 → Q (f a g1)) : Q ((m >>= f) g) := by
  obtain ⟨a, g1, h1, t1⟩ := hm.run g
  rw [run_bind, h1]
  exact h a g1 t1

theorem bind_steps_post {α β : Type} {m : Run α} {f : α → Run β}
    {T : Globals → Globals → Prop} (hm : m.steps T) (g : Globals) (Q : Res β → Prop)
    (hok : ∀ a g1, T g g1 → Q (f a g1))
    (hstop : ∀ r : Res β, r.returned = false → r.stopsWithOne → T g r.globals → Q r) :
    Q ((m >>= f) g) := by
  have h := hm.run g
  rw [run_bind]
  cases hmg : m g with
  | ok a g1 => rw [hmg] at h; exact hok a g1 h.1
  | exit c g1 => rw [hmg] at h; exact hstop (.exit c g1) rfl h.2 h.1
  | panic g1 => rw [hmg] at h; exact hstop (.panic g1) rfl trivial h.1
  | hang g1 => rw [hmg] at h; exact hstop (.hang g1) rfl trivial h.1

theorem commandLine_hasPrefix_false (e : Event) (a b q : Str) (ha : a ≠ [])
    (hhead : isSpace (a.head ha) = false) (hlast : isSpace (a.getLast ha) = false)
    (h : ∀ rest, HasPrefix (a ++ rest) q = false) (he : e.commandLine = TrimSpace (a ++ b)) :
    HasPrefix e.commandLine q = false := by
  rw [he]
  exact hasPrefix_trimmed_false a b q ha hhead hlast h

theorem createDockerNetwork_returns (A : Event → Prop) (hA : ∀ e, e.isInstall = false → A e)
    (w : World) (p : Str) : (createDockerNetwork w p).returns (Evolves A) := by
  have hrm : ∀ e : Event, e.commandLine = TrimSpace "docker network rm test_network".toList
      → A e := by
    intro e he
    exact hA e (commandLine_hasPrefix_false e "docker network rm test_network".toList [] _
      (by decide) (by decide) (by decide) (fun _ => rfl) (by rw [he]; rfl))
  have hcreate : ∀ e : Event, e.commandLine = TrimSpace
      ("docker network create --driver=".toList ++ p ++ " ".toList ++ testNetworkName)
      → A e := by
    intro e he
    exact hA e (commandLine_hasPrefix_false e "docker network create --driver=".toList
      (p ++ " ".toList ++ testNetworkName) _
      (by decide) (by decide) (by decide) (fun _ => rfl) (by rw [he]; simp))
  have hsleep : A .sleep := hA _ rfl
  unfold createDockerNetwork
  repeat' first
    | with_reducible exact evolves_pure_returns A _
    | with_reducible exact printError_returns A w _
    | with_reducible exact printSuccess_returns A w _
    | with_reducible exact sleepOneSecond_returns A hsleep
    | with_reducible exact runCommand_returns A w _ hrm
    | with_reducible exact runCommand_returns A w _ hcreate
    | with_reducible apply evolves_bind_returns
    | rintro ⟨_, _⟩
    | intro _
    | split

theorem removeDockerNetwork_returns (A : Event → Prop) (hA : ∀ e, e.isInstall = false → A e)
    (w : World) (p : Str) : (removeDockerNetwork w p).returns (Evolves A) := by
  have hrm : ∀ e : Event, e.commandLine = TrimSpace ("docker network rm ".toList ++
      testNetworkName) → A e := by
    intro e he
    exact hA e (commandLine_hasPrefix_false e "docker network rm test_network".toList [] _
      (by decide) (by decide) (by decide) (fun _ => rfl) (by rw [he]; rfl))
  have hsleep : A .sleep := hA _ rfl
  unfold removeDockerNetwork
  repeat' first
    | with_reducible exact evolves_pure_returns A _
    | with_reducible exact printError_returns A w _
    | with_reducible exact printSuccess_returns A w _
    | with_reducible exact sleepOneSecond_returns A hsleep
    | with_reducible exact runCommand_returns A w _ hrm
    | with_reducible apply evolves_bind_returns
    | rintro ⟨_, _⟩
    | intro _
    | split

theorem runNetworkingPluginTest_returns (A : Event → Prop)
    (hA : ∀ e, e.isInstall = false → A e) (w : World) (p : Str) :
    (runNetworkingPluginTest w p).returns (Evolves A) := by
  unfold runNetworkingPluginTest
  repeat' first
    | with_reducible exact evolves_pure_returns A _
    | with_reducible exact printError_returns A w _
    | with_reducible exact printStep_returns A
    | with_reducible exact createDockerNetwork_returns A hA w p
    | with_reducible exact removeDockerNetwork_returns A hA w p
    | with_reducible apply evolves_bind_returns
    | intro _
    | split

/-- The steps of `main` after a successful install: network test, step header, plugin
removal. -/
theorem testAndRemove_returns (A : Event → Prop) (hA : ∀ e, e.isInstall = false → A e)
    (w : World) (p : Str) :
    (do runNetworkingPluginTest w p
        printStep
        let _ ← removeDockerNetworkingPlugin w p
        pure () : Run Unit).returns (Evolves A) := by
  have hq : ∀ e : Event, e.quiet → A e := fun e h => hA e h.1
  repeat' first
    | with_reducible exact evolves_pure_returns A _
    | with_reducible exact printStep_returns A
    | with_reducible exact runNetworkingPluginTest_returns A hA w p
    | with_reducible exact removeDockerNetworkingPlugin_returns A hq w p
    | with_reducible apply evolves_bind_returns
    | intro _

theorem swarm_quiet (e : Event) (he : e.commandLine = TrimSpace "docker swarm init".toList) :
    e.quiet :=
  quiet_of_commandLine e "docker swarm init".toList [] (by decide) (by decide) (by decide)
    (fun _ => rfl) (fun _ => rfl) (by rw [he]; rfl)

theorem installDockerNetworkingPlugin_returns (A : Event → Prop)
    (hA : ∀ e, e.isNetwork = false → A e) (w : World) (p : Str) :
    (installDockerNetworkingPlugin w p).returns (Evolves A) := by
  have hq : ∀ e : Event, e.quiet → A e := fun e h => hA e h.2
  have hswarm : ∀ e : Event, e.commandLine = TrimSpace "docker swarm init".toList → A e :=
    fun e he => hq e (swarm_quiet e he)
  have hinstall : ∀ e : Event, e.commandLine = TrimSpace
      ("docker plugin install --grant-all-permissions ".toList ++ p) → A e := by
    intro e he
    exact hA e (commandLine_hasPrefix_false e
      "docker plugin install --grant-all-permissions".toList (" ".toList ++ p) _
      (by decide) (by decide) (by decide) (fun _ => rfl) (by rw [he]; rfl))
  unfold installDockerNetworkingPlugin
  repeat' first
    | with_reducible exact evolves_pure_returns A _
    | with_reducible exact printError_returns A w _
    | with_reducible exact printSuccess_returns A w _
    | with_reducible exact printWarning_returns A w _
    | with_reducible exact printStep_returns A
    | with_reducible exact getGlobals_returns A
    | with_reducible exact dockerNetworkingPluginInstalled_returns A hq w p
    | with_reducible exact removeDockerNetworkingPlugin_returns A hq w p
    | with_reducible exact runCommand_returns A w _ hswarm
    | with_reducible exact runCommand_returns A w _ hinstall
    | with_reducible apply evolves_bind_returns
    | rintro ⟨_, _⟩
    | intro _
    | split

theorem installTestRemove_returns (A : Event → Prop) (hA : ∀ e, A e) (w : World) :
    (installTestRemove w).returns (Evolves A) := by
  unfold installTestRemove
  repeat' first
    | with_reducible exact evolves_pure_returns A _
    | with_reducible exact getGlobals_returns A
    | with_reducible exact installDockerNetworkingPlugin_returns A (fun e _ => hA e) w _
    | with_reducible exact testAndRemove_returns A (fun e _ => hA e) w _
    | with_reducible apply evolves_bind_returns
    | intro _
    | split

theorem installDockerNetworkingPlugin_spec (w : World) (p : Str) (g : Globals) :
    InstallOutcome w g (installDockerNetworkingPlugin w p g) := by
  unfold installDockerNetworkingPlugin
  refine bind_returns_post (runCommand_returns Event.quiet w _ swarm_quiet) g
    (InstallOutcome w g) ?_
  intro _ g1 t1
  refine bind_returns_post (printStep_returns Event.quiet) g1 (InstallOutcome w g) ?_
  intro _ g2 t2
  refine bind_returns_post
    (dockerNetworkingPluginInstalled_returns Event.quiet (fun _ h => h) w p) g2
    (InstallOutcome w g) ?_
  intro installed g3 t3
  refine bind_returns_post (T := Evolves Event.quiet) ?_ g3 (InstallOutcome w g) ?_
  · repeat' first
      | with_reducible exact evolves_pure_returns _ _
      | with_reducible exact printWarning_returns _ w _
      | with_reducible exact getGlobals_returns _
      | with_reducible exact removeDockerNetworkingPlugin_returns _ (fun _ h => h) w p
      | with_reducible apply evolves_bind_returns
      | intro _
      | split
  intro _ g4 t4
  have t := ((t1.evolves_trans t2).evolves_trans t3).evolves_trans t4
  obtain ⟨evs, hevs, hq⟩ := t.trace
  have hne : TrimSpace ("docker plugin install --grant-all-permissions ".toList ++ p) ≠ [] := by
    have : "docker plugin install --grant-all-permissions ".toList ++ p
        = "docker plugin install --grant-all-permissions".toList ++ (" ".toList ++ p) := rfl
    rw [this, TrimSpace_append_keep _ _ (by decide) (by decide) (by decide)]
    simp
  obtain ⟨cmd, args, res, hl, hrun⟩ := runCommand_eq w
    ("docker plugin install --grant-all-permissions ".toList ++ p) g4 hne
  have hnet : (Event.exec cmd args res).isNetwork = false :=
    commandLine_hasPrefix_false _ "docker plugin install --grant-all-permissions".toList
      (" ".toList ++ p) _ (by decide) (by decide) (by decide) (fun _ => rfl) hl
  have hall : ∀ e ∈ evs ++ [Event.exec cmd args res], e.isNetwork = false := by
    intro e he
    rcases List.mem_append.mp he with h | h
    · exact (hq e h).2
    · simp only [List.mem_singleton] at h
      subst h
      exact hnet
  show InstallOutcome w g ((runCommand w _ >>= _) g4)
  rw [run_bind, hrun]
  unfold InstallOutcome
  cases herr : res.err with
  | some err =>
    refine ⟨false, _, evs ++ [Event.exec cmd args res], rfl, ?_, t.jsonOutput, hall,
      fun h => absurd h (by simp), fun _ => ⟨TrimSpace res.output, err, ?_⟩⟩
    · simp [printError, hevs]
    · simp [printError, storedError, boldRed, useColour]
  | none =>
    refine ⟨true, _, evs ++ [Event.exec cmd args res], rfl, ?_, t.jsonOutput, hall, ?_,
      fun h => absurd h (by simp)⟩
    · simp [printSuccess, getGlobals, hevs]
    · intro _ e he
      rcases List.mem_append.mp he with h | h
      · intro hc
        rw [(hq e h).1] at hc
        exact absurd hc.1 (by simp)
      · simp only [List.mem_singleton] at h
        subst h
        simp [Event.failed, herr]

/-! ## Exit code and scan URL -/

theorem ExitCodeTracksErrors.tracks_of_evolves {A : Event → Prop} {g g1 : Globals}
    (h : ExitCodeTracksErrors g) (t : Evolves A g g1) : ExitCodeTracksErrors g1 := by
  rcases t.errors with ⟨h1, h2⟩ | ⟨h1, h2⟩
  · rw [ExitCodeTracksErrors, h1, h2]; exact h
  · exact Or.inr ⟨h1, by omega⟩

theorem BeforeSummaryState.state_of_evolves {A : Event → Prop} {g g1 : Globals}
    (h : BeforeSummaryState g) (t : Evolves A g g1) : BeforeSummaryState g1 :=
  ⟨h.1.tracks_of_evolves t, t.url.trans h.2⟩

theorem Res.exitOK_of_stopsWithOne {α : Type} {r : Res α} (h : r.stopsWithOne) : r.exitOK := by
  cases r with
  | exit c g => exact Or.inl h
  | _ => trivial

theorem steps_keeps_state {α : Type} {A : Event → Prop} {m : Run α} (hm : m.steps (Evolves A))
    (g : Globals) (hg : BeforeSummaryState g) :
    BeforeSummaryState (m g).globals ∧ (m g).exitOK :=
  ⟨hg.state_of_evolves (hm.run g).1, Res.exitOK_of_stopsWithOne (hm.run g).2⟩

theorem Started.beforeSummaryState {g : Globals} (h : Started g) : BeforeSummaryState g :=
  ⟨Or.inl ⟨h.exitCode, h.errors⟩, h.url⟩

/-- Everything before the summary keeps the exit code in step with the error count,
assigns no scan URL, and exits with status 1 or with status 0 and no error. -/
theorem beforeSummary_spec (w : World) (f : Flags) :
    BeforeSummaryState (beforeSummary w f initialGlobals).globals ∧
      (beforeSummary w f initialGlobals).exitOK := by
  have h1 := startRun_spec w f
  unfold beforeSummary
  rw [run_bind]
  cases hs : startRun w f initialGlobals with
  | ok api g1 =>
    rw [hs] at h1
    obtain ⟨hst, -, -, -, -⟩ := h1
    have h2 := readReference_spec w f g1
    simp only
    rw [run_bind]
    cases hr : readReference w f g1 with
    | ok u g2 =>
      rw [hr] at h2
      simp only
      have hg2 : BeforeSummaryState g2 := by
        refine ⟨Or.inl ⟨h2.exitCode.trans hst.exitCode, h2.errors.trans hst.errors⟩, ?_⟩
        exact h2.url.trans hst.url
      refine steps_keeps_state (A := fun _ => True) ?_ g2 hg2
      repeat' first
        | with_reducible exact evolves_pure _ _
        | with_reducible exact readCredentials_steps _ (fun _ _ => trivial) w f
        | with_reducible exact loginAndVersion_steps _ (fun _ _ => trivial) w _ _ _
        | with_reducible exact fetchMetadata_steps _ (fun _ _ => trivial) w _ _
        | with_reducible exact (installTestRemove_returns _ (fun _ => trivial) w).steps
        | with_reducible apply evolves_bind
        | rintro ⟨_, _⟩
    | exit c g2 =>
      rw [hr] at h2
      obtain ⟨hc, g0, h0, hev⟩ := h2
      have hg0 : BeforeSummaryState g0 :=
        ⟨Or.inl ⟨h0.exitCode.trans hst.exitCode, h0.errors.trans hst.errors⟩,
          h0.url.trans hst.url⟩
      exact ⟨hg0.state_of_evolves hev, Or.inl hc⟩
    | panic g2 => rw [hr] at h2; exact absurd h2 id
    | hang g2 => rw [hr] at h2; exact absurd h2 id
  | exit c g1 =>
    rw [hs] at h1
    obtain ⟨hst, hc | ⟨hc, -⟩⟩ := h1
    · exact ⟨hst.beforeSummaryState, Or.inl hc⟩
    · exact ⟨hst.beforeSummaryState, Or.inr ⟨hc, hst.errors⟩⟩
  | panic g1 => rw [hs] at h1; exact absurd h1 id
  | hang g1 => rw [hs] at h1; exact absurd h1 id

theorem withScanURL_rule (g : Globals) (h : g.inspectionData.VulnerabilitiesScanURL = []) :
    ScanURLRule (withScanURL g) := by
  unfold ScanURLRule withScanURL
  by_cases hp : HasPrefix g.inspectionData.DockerNetworkingPluginRepo
      "dockerstorestaging/".toList = true
  · simp only [hp, ↓reduceIte]
  · have hp2 : HasPrefix g.inspectionData.DockerNetworkingPluginRepo
        "dockerstorestaging/".toList = false := Bool.eq_false_iff.mpr hp
    simp only [hp2, Bool.false_eq_true, ↓reduceIte]
    exact h

theorem ScanURLRule.rule_of_reports {g g1 : Globals} (h : ScanURLRule g) (t : Reports g g1) :
    ScanURLRule g1 := by
  unfold ScanURLRule at h ⊢
  rw [t.url, t.repo, t.tag]
  exact h

theorem ExitCodeTracksErrors.tracks_of_reports {g g1 : Globals} (h : ExitCodeTracksErrors g)
    (t : Reports g g1) : ExitCodeTracksErrors g1 := by
  unfold ExitCodeTracksErrors at h ⊢
  rw [t.exitCode, t.errors]
  exact h

theorem withScanURL_tracks (g : Globals) (h : ExitCodeTracksErrors g) :
    ExitCodeTracksErrors (withScanURL g) := by
  unfold ExitCodeTracksErrors withScanURL at *
  split <;> exact h

/-- The process ends with the globals of `mainBody`; its exit status is the exit code
when `mainBody` returns, and the status `mainBody` stopped with otherwise. -/
theorem main_eq (w : World) (f : Flags) :
    (main w f).globals = (mainBody w f initialGlobals).globals ∧
      (main w f).exitStatus =
        if (mainBody w f initialGlobals).returned = true then
          some (mainBody w f initialGlobals).globals.exitCode
        else (mainBody w f initialGlobals).exitStatus := by
  unfold main
  rw [run_bind]
  cases mainBody w f initialGlobals <;> simp [getGlobals, osExit, Res.globals, Res.exitStatus,
    Res.returned]

/-- The whole body of `main`: at its end the exit code tracks the error count; an exit on
the way has status 1, or status 0 with no error; and once the summary is reached the scan
URL follows its rule. -/
theorem mainBody_spec (w : World) (f : Flags) :
    ExitCodeTracksErrors (mainBody w f initialGlobals).globals ∧
      (mainBody w f initialGlobals).exitOK ∧
      ((beforeSummary w f initialGlobals).returned = true →
        ScanURLRule (mainBody w f initialGlobals).globals) := by
  obtain ⟨h1, h2⟩ := beforeSummary_spec w f
  unfold mainBody
  rw [run_bind]
  cases hb : beforeSummary w f initialGlobals with
  | ok u g =>
    rw [hb] at h1
    obtain ⟨h3, h4⟩ := summaryAndReports_spec w g
    exact ⟨(withScanURL_tracks g h1.1).tracks_of_reports h3, Res.exitOK_of_stopsWithOne h4,
      fun _ => (withScanURL_rule g h1.2).rule_of_reports h3⟩
  | exit c g =>
    rw [hb] at h1 h2
    exact ⟨h1.1, h2, fun h => absurd h (by simp [Res.returned])⟩
  | panic g =>
    rw [hb] at h1
    exact ⟨h1.1, trivial, fun h => absurd h (by simp [Res.returned])⟩
  | hang g =>
    rw [hb] at h1
    exact ⟨h1.1, trivial, fun h => absurd h (by simp [Res.returned])⟩

/-- C4, as the program has it. In every run, exit status 0 means that no Error finding
was recorded; and in every run that reaches the final `os.Exit(exitCode)` of `main` the
exit status is 0 exactly when no Error finding was recorded. -/
theorem exit_zero_iff_no_error_at_normal_end (w : World) (f : Flags) :
    ((main w f).exitStatus = some 0 → (main w f).globals.inspectionData.Errors = 0) ∧
      ((mainBody w f initialGlobals).returned = true →
        ((main w f).exitStatus = some 0 ↔ (main w f).globals.inspectionData.Errors = 0)) := by
  obtain ⟨hg, hs⟩ := main_eq w f
  obtain ⟨ht, hx, -⟩ := mainBody_spec w f
  rw [hg, hs]
  have key : (mainBody w f initialGlobals).returned = true →
      ((some (mainBody w f initialGlobals).globals.exitCode = some 0) ↔
        (mainBody w f initialGlobals).globals.inspectionData.Errors = 0) := by
    intro _
    rcases ht with ⟨a, b⟩ | ⟨a, b⟩
    · simp [a, b]
    · rw [a]
      constructor
      · intro h; exact absurd h (by simp)
      · intro h; omega
  refine ⟨?_, fun hr => by rw [if_pos hr]; exact key hr⟩
  by_cases hr : (mainBody w f initialGlobals).returned = true
  · rw [if_pos hr]; exact (key hr).mp
  · rw [if_neg hr]
    cases hm : mainBody w f initialGlobals with
    | ok u g => rw [hm] at hr; exact absurd rfl hr
    | exit c g =>
      rw [hm] at hx
      intro h0
      simp only [Res.exitStatus, Option.some.injEq] at h0
      rcases hx with h | ⟨_, h⟩
      · omega
      · exact h
    | panic g => intro h0; simp [Res.exitStatus] at h0
    | hang g => intro h0; simp [Res.exitStatus] at h0

theorem exit_zero_iff_no_error_at_normal_end_witness :
    (mainBody (sampleWorldFailing "docker network create".toList)
        (sampleFlags "acme/netplug:1.0".toList) initialGlobals).returned = true ∧
      (((main (sampleWorldFailing "docker network create".toList)
          (sampleFlags "acme/netplug:1.0".toList)).exitStatus = some 0 →
        (main (sampleWorldFailing "docker network create".toList)
          (sampleFlags "acme/netplug:1.0".toList)).globals.inspectionData.Errors = 0) ∧
      ((main (sampleWorldFailing "docker network create".toList)
          (sampleFlags "acme/netplug:1.0".toList)).exitStatus = some 0 ↔
        (main (sampleWorldFailing "docker network create".toList)
          (sampleFlags "acme/netplug:1.0".toList)).globals.inspectionData.Errors = 0)) :=
  ⟨by decide,
    (exit_zero_iff_no_error_at_normal_end (sampleWorldFailing "docker network create".toList)
      (sampleFlags "acme/netplug:1.0".toList)).1,
    (exit_zero_iff_no_error_at_normal_end (sampleWorldFailing "docker network create".toList)
      (sampleFlags "acme/netplug:1.0".toList)).2 (by decide)⟩

/-- C4 as stated fails: the run for the reference `acme/netplug` (no tag, no JSON output)
ends with exit status 1 although no Error finding was recorded. -/
theorem exit_one_without_error_finding :
    (main sampleWorld (sampleFlags "acme/netplug".toList)).exitStatus = some 1 ∧
      (main sampleWorld (sampleFlags "acme/netplug".toList)).globals.inspectionData.Errors = 0 ∧
      ¬((main sampleWorld (sampleFlags "acme/netplug".toList)).exitStatus = some 0 ↔
        (main sampleWorld (sampleFlags "acme/netplug".toList)).globals.inspectionData.Errors
          = 0) := by
  decide

/-- C5. Recording a Warning leaves exit code and error count as they are; recording an
Error sets the exit code to 1; and a run that reaches the final `os.Exit(exitCode)` ends
with status 1 when the error count is above 0 and with status 0 otherwise. -/
theorem warning_keeps_and_error_sets_exit_code (w : World) :
    (∀ g m, (printWarning w m g).globals.exitCode = g.exitCode ∧
      (printWarning w m g).globals.inspectionData.Errors = g.inspectionData.Errors) ∧
    (∀ g m, (printError w m g).globals.exitCode = 1) ∧
    (∀ f, (mainBody w f initialGlobals).returned = true →
      (main w f).exitStatus
        = some (if 0 < (main w f).globals.inspectionData.Errors then 1 else 0)) := by
  refine ⟨fun g m => ⟨rfl, rfl⟩, fun g m => rfl, fun f hr => ?_⟩
  obtain ⟨hg, hs⟩ := main_eq w f
  obtain ⟨ht, -, -⟩ := mainBody_spec w f
  rw [hg, hs, if_pos hr]
  rcases ht with ⟨a, b⟩ | ⟨a, b⟩
  · simp [a, b]
  · simp [a, b]

theorem warning_keeps_and_error_sets_exit_code_witness :
    (mainBody (sampleWorldFailing "docker network create".toList)
        (sampleFlags "acme/netplug:1.0".toList) initialGlobals).returned = true ∧
      (main (sampleWorldFailing "docker network create".toList)
        (sampleFlags "acme/netplug:1.0".toList)).exitStatus
        = some (if 0 < (main (sampleWorldFailing "docker network create".toList)
          (sampleFlags "acme/netplug:1.0".toList)).globals.inspectionData.Errors then 1 else 0) :=
  ⟨by decide,
    (warning_keeps_and_error_sets_exit_code
      (sampleWorldFailing "docker network create".toList)).2.2
      (sampleFlags "acme/netplug:1.0".toList) (by decide)⟩

/-- C10. In every run that reaches the summary, the scan URL is non-empty exactly when
the parsed repository starts with `dockerstorestaging/`, and then it is the fixed address
followed by the repository, `/tags/` and the tag. -/
theorem scan_url_from_repository_and_tag (w : World) (f : Flags)
    (h : (beforeSummary w f initialGlobals).returned = true) :
    ((main w f).globals.inspectionData.VulnerabilitiesScanURL ≠ [] ↔
      HasPrefix (main w f).globals.inspectionData.DockerNetworkingPluginRepo
        "dockerstorestaging/".toList = true) ∧
    (HasPrefix (main w f).globals.inspectionData.DockerNetworkingPluginRepo
        "dockerstorestaging/".toList = true →
      (main w f).globals.inspectionData.VulnerabilitiesScanURL =
        "https://cloud.docker.com/app/dockerstorestaging/repository/docker/".toList ++
          (main w f).globals.inspectionData.DockerNetworkingPluginRepo ++ "/tags/".toList ++
          (main w f).globals.inspectionData.DockerNetworkingPluginTag) := by
  obtain ⟨hg, -⟩ := main_eq w f
  obtain ⟨-, -, hu⟩ := mainBody_spec w f
  have hrule := hu h
  rw [hg]
  unfold ScanURLRule at hrule
  by_cases hp : HasPrefix (mainBody w f initialGlobals).globals.inspectionData.DockerNetworkingPluginRepo
      "dockerstorestaging/".toList = true
  · rw [if_pos hp] at hrule
    refine ⟨⟨fun _ => hp, fun _ => ?_⟩, fun _ => hrule⟩
    rw [hrule]
    simp
  · rw [if_neg hp] at hrule
    exact ⟨⟨fun hne => absurd hrule hne, fun hp2 => absurd hp2 hp⟩, fun hp2 => absurd hp2 hp⟩

theorem scan_url_from_repository_and_tag_witness :
    (beforeSummary sampleWorld (sampleFlags "dockerstorestaging/net:1.0".toList)
        initialGlobals).returned = true ∧
      (main sampleWorld (sampleFlags
          "dockerstorestaging/net:1.0".toList)).globals.inspectionData.VulnerabilitiesScanURL
        = "https://cloud.docker.com/app/dockerstorestaging/repository/docker/dockerstorestaging/net/tags/1.0".toList :=
  ⟨by decide, by
    have h := (scan_url_from_repository_and_tag sampleWorld
      (sampleFlags "dockerstorestaging/net:1.0".toList) (by decide)).2 (by decide)
    rw [h]
    decide⟩

/-! ## The install gate -/

theorem QuietTrace.quiet_of_evolves {g g1 : Globals} (h : QuietTrace g)
    (t : Evolves Event.quiet g g1) : QuietTrace g1 := by
  obtain ⟨evs, h1, h2⟩ := t.trace
  intro e he
  rw [h1] at he
  rcases List.mem_append.mp he with h3 | h3
  · exact h e h3
  · exact h2 e h3

theorem QuietTrace.noFailedInstall {g : Globals} (h : QuietTrace g) : NoFailedInstall g := by
  intro e he hc
  rw [(h e he).1] at hc
  exact absurd hc.1 (by simp)

theorem Event.isSystemInfo.systemInfo_quiet {e : Event} (h : e.isSystemInfo) : e.quiet := by
  unfold Event.quiet Event.isInstall Event.isNetwork
  rcases h with h | h | h <;> rw [h] <;> exact ⟨by decide, by decide⟩

theorem Event.isJson.json_quiet {e : Event} (h : e.isJson) : e.quiet := by
  cases e with
  | json d => exact ⟨rfl, rfl⟩
  | _ => exact absurd h (by simp [Event.isJson])

theorem hasPrefix_false_of_open (line : Str) (h : HasPrefix line "nohup open".toList = true)
    (q : Str) (hq : q.head? = some 'd') : HasPrefix line q = false := by
  cases line with
  | nil => exact absurd h (by decide)
  | cons c cs =>
    have hc : c = 'n' := by
      simp only [HasPrefix, String.toList, List.isPrefixOf, Bool.and_eq_true, beq_iff_eq] at h
      exact h.1.symm
    subst hc
    cases q with
    | nil => exact absurd hq (by simp)
    | cons x xs =>
      simp only [List.head?_cons, Option.some.injEq] at hq
      subst hq
      simp [HasPrefix, List.isPrefixOf]

theorem Event.isReport.report_quiet {e : Event} (h : e.isReport) : e.quiet := by
  cases e with
  | json d => exact ⟨rfl, rfl⟩
  | createFile p => exact ⟨rfl, rfl⟩
  | exec cmd args res =>
    exact ⟨hasPrefix_false_of_open _ h _ (by decide), hasPrefix_false_of_open _ h _ (by decide)⟩
  | _ => exact absurd h (by simp [Event.isReport])

theorem NoFailedInstall.of_append {g g1 : Globals} (h : NoFailedInstall g) (evs : List Event)
    (h1 : g1.trace = g.trace ++ evs) (h2 : ∀ e ∈ evs, e.isInstall = false) :
    NoFailedInstall g1 := by
  intro e he hc
  rw [h1] at he
  rcases List.mem_append.mp he with h3 | h3
  · exact h e h3 hc
  · rw [h2 e h3] at hc
    exact absurd hc.1 (by simp)

theorem InstallGate.of_summary {w : World} {g g1 : Globals} (h : InstallGate w g)
    (t : Reports (withScanURL g) g1) : InstallGate w g1 := by
  obtain ⟨evs, h1, h2⟩ := t.trace
  have htr : g1.trace = g.trace ++ evs := h1
  rcases h with h | ⟨h3, output, err, h4⟩
  · exact Or.inl (h.of_append evs htr (fun e he => (h2 e he).report_quiet.1))
  · refine Or.inr ⟨?_, output, err, ?_⟩
    · intro e he
      rw [htr] at he
      rcases List.mem_append.mp he with h5 | h5
      · exact h3 e h5
      · exact (h2 e h5).report_quiet.2
    · have hm : g1.inspectionData.Messages = g.inspectionData.Messages := by
        rw [t.messages]
        unfold withScanURL
        split <;> rfl
      have hj : g1.jsonOutput = g.jsonOutput := t.jsonOutput
      rw [hm, h4]
      simp [storedError, boldRed, useColour, hj]

/-- Everything before the summary respects the gate: a failed install command is
followed by no network command and no further finding. -/
theorem beforeSummary_gate (w : World) (f : Flags) :
    InstallGate w (beforeSummary w f initialGlobals).globals := by
  have h1 := startRun_spec w f
  unfold beforeSummary
  rw [run_bind]
  cases hs : startRun w f initialGlobals with
  | ok api g1 =>
    rw [hs] at h1
    obtain ⟨hst, -, -, -, -⟩ := h1
    have hq1 : QuietTrace g1 := fun e he => (hst.trace e he).systemInfo_quiet
    have h2 := readReference_spec w f g1
    simp only
    rw [run_bind]
    cases hr : readReference w f g1 with
    | ok u g2 =>
      rw [hr] at h2
      simp only
      have hq2 : QuietTrace g2 := by
        intro e he
        rw [h2.trace] at he
        exact hq1 e he
      refine bind_steps_post (readCredentials_steps Event.quiet (fun _ h => h) w f) g2
        (fun r => InstallGate w r.globals) ?_
        (fun r _ _ t => Or.inl (hq2.quiet_of_evolves t).noFailedInstall)
      rintro ⟨u, p⟩ g3 t3
      have hq3 := hq2.quiet_of_evolves t3
      refine bind_steps_post (loginAndVersion_steps Event.quiet (fun _ h => h) w u p api) g3
        (fun r => InstallGate w r.globals) ?_
        (fun r _ _ t => Or.inl (hq3.quiet_of_evolves t).noFailedInstall)
      intro _ g4 t4
      have hq4 := hq3.quiet_of_evolves t4
      refine bind_steps_post (fetchMetadata_steps Event.quiet (fun _ h => h) w u p) g4
        (fun r => InstallGate w r.globals) ?_
        (fun r _ _ t => Or.inl (hq4.quiet_of_evolves t).noFailedInstall)
      intro _ g5 t5
      have hq5 := hq4.quiet_of_evolves t5
      show InstallGate w (installTestRemove w g5).globals
      unfold installTestRemove
      rw [run_bind]
      simp only [getGlobals]
      obtain ⟨b, g6, evs, hrun, htr, -, hnet, htrue, hfalse⟩ :=
        installDockerNetworkingPlugin_spec w g5.inspectionData.DockerNetworkingPlugin g5
      rw [run_bind, hrun]
      cases b with
      | false =>
        simp only [Bool.false_eq_true, if_false, run_pure, Res.globals]
        refine Or.inr ⟨?_, hfalse rfl⟩
        intro e he
        rw [htr] at he
        rcases List.mem_append.mp he with h5 | h5
        · exact (hq5 e h5).2
        · exact hnet e h5
      | true =>
        simp only [if_true]
        have hg6 : NoFailedInstall g6 := by
          intro e he
          rw [htr] at he
          rcases List.mem_append.mp he with h5 | h5
          · exact hq5.noFailedInstall e h5
          · exact htrue rfl e h5
        obtain ⟨a, g7, h7, t7⟩ := (testAndRemove_returns (fun e => e.isInstall = false)
          (fun _ h => h) w g5.inspectionData.DockerNetworkingPlugin).run g6
        rw [h7]
        obtain ⟨evs7, h8, h9⟩ := t7.trace
        exact Or.inl (hg6.of_append evs7 h8 h9)
    | exit c g2 =>
      rw [hr] at h2
      obtain ⟨-, g0, h0, hev⟩ := h2
      obtain ⟨evs, he1, he2⟩ := hev.trace
      refine Or.inl (QuietTrace.noFailedInstall ?_)
      intro e he
      simp only [Res.globals] at he
      rw [he1, h0.trace] at he
      rcases List.mem_append.mp he with h5 | h5
      · exact hq1 e h5
      · exact (he2 e h5).json_quiet
    | panic g2 => rw [hr] at h2; exact absurd h2 id
    | hang g2 => rw [hr] at h2; exact absurd h2 id
  | exit c g1 =>
    rw [hs] at h1
    exact Or.inl (QuietTrace.noFailedInstall (fun e he => (h1.1.trace e he).systemInfo_quiet))
  | panic g1 => rw [hs] at h1; exact absurd h1 id
  | hang g1 => rw [hs] at h1; exact absurd h1 id

/-- C6. In every run in which the plugin install command fails, no network command
(create or delete) is run, and the install error is the last finding recorded: nothing
about network creation or deletion is recorded after it. -/
theorem failed_install_gates_network_test (w : World) (f : Flags)
    (h : ∃ e ∈ (main w f).globals.trace, e.isInstall = true ∧ e.failed = true) :
    (∀ e ∈ (main w f).globals.trace, e.isNetwork = false) ∧
      ∃ output err, (main w f).globals.inspectionData.Messages.getLast? =
        some (storedError w (main w f).globals
          (withFailureText "Unable to install the Docker Networking Plugin!".toList
            output err)) := by
  have hgate : InstallGate w (main w f).globals := by
    rw [(main_eq w f).1]
    have hb := beforeSummary_gate w f
    unfold mainBody
    rw [run_bind]
    cases hbs : beforeSummary w f initialGlobals with
    | ok u g =>
      rw [hbs] at hb
      exact hb.of_summary (summaryAndReports_spec w g).1
    | exit c g => rw [hbs] at hb; exact hb
    | panic g => rw [hbs] at hb; exact hb
    | hang g => rw [hbs] at hb; exact hb
  rcases hgate with h1 | h1
  · obtain ⟨e, he, hc⟩ := h
    exact absurd hc (h1 e he)
  · exact h1

theorem failed_install_gates_network_test_witness :
    (∃ e ∈ (main (sampleWorldFailing "docker plugin install".toList)
        (sampleFlags "acme/netplug:1.0".toList)).globals.trace,
        e.isInstall = true ∧ e.failed = true) ∧
    ((∀ e ∈ (main (sampleWorldFailing "docker plugin install".toList)
        (sampleFlags "acme/netplug:1.0".toList)).globals.trace, e.isNetwork = false) ∧
      ∃ output err, (main (sampleWorldFailing "docker plugin install".toList)
          (sampleFlags "acme/netplug:1.0".toList)).globals.inspectionData.Messages.getLast? =
        some (storedError (sampleWorldFailing "docker plugin install".toList)
          (main (sampleWorldFailing "docker plugin install".toList)
            (sampleFlags "acme/netplug:1.0".toList)).globals
          (withFailureText "Unable to install the Docker Networking Plugin!".toList
            output err))) :=
  ⟨by decide, failed_install_gates_network_test
    (sampleWorldFailing "docker plugin install".toList)
    (sampleFlags "acme/netplug:1.0".toList) (by decide)⟩

/-! ## Running a command -/

theorem TrimSpace_eq_nil_of_spaces (s : Str) (h : ∀ c ∈ s, isSpace c = true) :
    TrimSpace s = [] := by
  have h1 : s.dropWhile isSpace = [] := List.dropWhile_eq_nil_iff.mpr h
  simp [TrimSpace, h1]

theorem TrimSpace_ne_nil (s : Str) (h : ∃ c ∈ s, isSpace c = false) : TrimSpace s ≠ [] := by
  obtain ⟨c, hc, hs⟩ := h
  induction s with
  | nil => simp at hc
  | cons x xs ih =>
    by_cases hx : isSpace x = true
    · rw [TrimSpace_cons_space x xs hx]
      rcases List.mem_cons.mp hc with h1 | h1
      · subst h1
        rw [hx] at hs
        exact absurd hs (by simp)
      · exact ih h1
    · have hx2 : isSpace x = false := by simpa using hx
      have : x :: xs = [x] ++ xs := rfl
      rw [this, TrimSpace_append_keep [x] xs (by simp) (by simpa using hx2) (by simpa using hx2)]
      simp

/-- The result of `TrimSpace` is the string without a first and a last part made of
white space only, and it neither starts nor ends with white space. -/
theorem TrimSpace_spec (s : Str) :
    (∃ lead trail, s = lead ++ TrimSpace s ++ trail ∧ (∀ c ∈ lead, isSpace c = true) ∧
      (∀ c ∈ trail, isSpace c = true)) ∧
    (∀ c, (TrimSpace s).head? = some c → isSpace c = false) ∧
    (∀ c, (TrimSpace s).getLast? = some c → isSpace c = false) := by
  refine ⟨⟨s.takeWhile isSpace, ((s.dropWhile isSpace).reverse.takeWhile isSpace).reverse, ?_,
    ?_, ?_⟩, ?_, ?_⟩
  · have h1 : s = s.takeWhile isSpace ++ s.dropWhile isSpace :=
      (List.takeWhile_append_dropWhile isSpace s).symm
    have h2 : (s.dropWhile isSpace).reverse
        = (s.dropWhile isSpace).reverse.takeWhile isSpace ++
          (s.dropWhile isSpace).reverse.dropWhile isSpace :=
      (List.takeWhile_append_dropWhile isSpace _).symm
    have h3 : s.dropWhile isSpace = TrimSpace s ++
        ((s.dropWhile isSpace).reverse.takeWhile isSpace).reverse := by
      have := congrArg List.reverse h2
      rw [List.reverse_reverse, List.reverse_append] at this
      exact this
    rw [List.append_assoc, ← h3]
    exact h1
  · intro c hc
    exact List.mem_takeWhile_imp hc
  · intro c hc
    exact List.mem_takeWhile_imp (List.mem_reverse.mp hc)
  · intro c hc
    have hp : TrimSpace s <+: s.dropWhile isSpace := List.rdropWhile_prefix isSpace _
    obtain ⟨t, ht⟩ := hp
    have h1 : (s.dropWhile isSpace).head? = some c := by
      rw [← ht]
      cases hts : TrimSpace s with
      | nil => rw [hts] at hc; simp at hc
      | cons a as => rw [hts] at hc; simpa using hc
    have h2 := List.head?_dropWhile_not isSpace s
    rw [h1] at h2
    exact h2
  · intro c hc
    unfold TrimSpace at hc
    rw [List.getLast?_reverse] at hc
    have h2 := List.head?_dropWhile_not isSpace (s.dropWhile isSpace).reverse
    rw [hc] at h2
    exact h2

/-- C18. For every command line that is empty or made of white space only, `runCommand`
returns the error `you must specify a command!` with an empty output, and it starts no
external process: the globals, with their record of events, are unchanged. -/
theorem runCommand_rejects_blank_command (w : World) (command : Str) (g : Globals)
    (h : ∀ c ∈ command, isSpace c = true) :
    runCommand w command g = .ok ([], some "you must specify a command!".toList) g := by
  unfold runCommand
  simp only [TrimSpace_eq_nil_of_spaces command h, if_true]

theorem runCommand_rejects_blank_command_witness :
    (∀ c ∈ " \t\n".toList, isSpace c = true) ∧
      runCommand sampleWorld " \t\n".toList initialGlobals
        = .ok ([], some "you must specify a command!".toList) initialGlobals :=
  ⟨by decide, runCommand_rejects_blank_command sampleWorld " \t\n".toList initialGlobals
    (by decide)⟩

/-- C19. For every command line with a character that is not white space, whatever the
external process writes and whether it succeeds or fails, `runCommand` returns the error
of the process and, as output, the combined output of the process without its leading
and trailing white space: the raw output is white space, the returned output, white
space, and the returned output neither starts nor ends with a white space character. -/
theorem runCommand_output_is_trimmed (w : World) (command : Str) (g : Globals)
    (h : ∃ c ∈ command, isSpace c = false) :
    ∃ cmd args out err,
      runCommand w command g
        = .ok (out, err) { g with trace := g.trace ++
            [.exec cmd args (w.run g.trace.length cmd args)] } ∧
      err = (w.run g.trace.length cmd args).err ∧
      (∃ lead trail, (w.run g.trace.length cmd args).output = lead ++ out ++ trail ∧
        (∀ c ∈ lead, isSpace c = true) ∧ (∀ c ∈ trail, isSpace c = true)) ∧
      (∀ c, out.head? = some c → isSpace c = false) ∧
      (∀ c, out.getLast? = some c → isSpace c = false) := by
  have hne := TrimSpace_ne_nil command h
  unfold runCommand
  simp only [hne, if_false]
  exact ⟨_, _, _, _, rfl, rfl, TrimSpace_spec _⟩

theorem runCommand_output_is_trimmed_witness :
    (∃ c ∈ "docker --version".toList, isSpace c = false) ∧
    ∃ cmd args out err,
      runCommand (sampleWorldFailing "docker".toList) "docker --version".toList initialGlobals
        = .ok (out, err) { initialGlobals with trace := initialGlobals.trace ++
            [.exec cmd args ((sampleWorldFailing "docker".toList).run
              initialGlobals.trace.length cmd args)] } ∧
      err = ((sampleWorldFailing "docker".toList).run initialGlobals.trace.length cmd args).err ∧
      (∃ lead trail, ((sampleWorldFailing "docker".toList).run initialGlobals.trace.length
          cmd args).output = lead ++ out ++ trail ∧
        (∀ c ∈ lead, isSpace c = true) ∧ (∀ c ∈ trail, isSpace c = true)) ∧
      (∀ c, out.head? = some c → isSpace c = false) ∧
      (∀ c, out.getLast? = some c → isSpace c = false) :=
  ⟨by decide, runCommand_output_is_trimmed (sampleWorldFailing "docker".toList)
    "docker --version".toList initialGlobals (by decide)⟩

/-! ## An exact account of the life cycle -/

theorem Records.records_refl (g : Globals) : Records [] [] 0 0 g g :=
  ⟨rfl, rfl, rfl, rfl, rfl, rfl, by simp, by simp, by simp, rfl, rfl, rfl⟩

theorem Records.records_trans {e1 e2 : List Event} {m1 m2 : List Str} {x1 x2 y1 y2 : Nat}
    {a b c : Globals} (h1 : Records e1 m1 x1 y1 a b) (h2 : Records e2 m2 x2 y2 b c) :
    Records (e1 ++ e2) (m1 ++ m2) (x1 + x2) (y1 + y2) a c := by
  refine ⟨h2.jsonOutput.trans h1.jsonOutput, h2.htmlOutput.trans h1.htmlOutput,
    h2.plugin.trans h1.plugin, h2.repo.trans h1.repo, h2.tag.trans h1.tag,
    h2.url.trans h1.url, ?_, ?_, ?_, ?_, ?_, ?_⟩
  · rw [h2.trace, h1.trace, List.append_assoc]
  · rw [h2.messages, h1.messages, List.append_assoc]
  · rw [h2.html, h1.html, List.length_append]; omega
  · rw [h2.errors, h1.errors]; omega
  · rw [h2.warnings, h1.warnings]; omega
  · rw [h2.exitCode, h1.exitCode]
    by_cases hx1 : x1 = 0 <;> by_cases hx2 : x2 = 0 <;> simp [hx1, hx2]

theorem Records.cast {e1 e2 : List Event} {m1 m2 : List Str} {x1 x2 y1 y2 : Nat}
    {a b : Globals} (h : Records e1 m1 x1 y1 a b) (he : e1 = e2) (hm : m1 = m2) (hx : x1 = x2)
    (hy : y1 = y2) : Records e2 m2 x2 y2 a b := by
  subst he hm hx hy
  exact h

theorem storedError_congr (w : World) {g g1 : Globals} (h : g1.jsonOutput = g.jsonOutput)
    (m : Str) : storedError w g1 m = storedError w g m := by
  simp [storedError, boldRed, useColour, h]

theorem storedSuccess_congr (w : World) {g g1 : Globals} (h : g1.jsonOutput = g.jsonOutput)
    (m : Str) : storedSuccess w g1 m = storedSuccess w g m := by
  simp [storedSuccess, boldGreen, useColour, h]

theorem storedWarning_congr (w : World) {g g1 : Globals} (h : g1.jsonOutput = g.jsonOutput)
    (m : Str) : storedWarning w g1 m = storedWarning w g m := by
  simp [storedWarning, boldYellow, useColour, h]

theorem commandFinding_congr (w : World) {g g1 : Globals} (h : g1.jsonOutput = g.jsonOutput)
    (a s : Str) (e : Event) : commandFinding w g1 a s e = commandFinding w g a s e := by
  simp [commandFinding, storedError_congr w h, storedSuccess_congr w h]

theorem printError_records (w : World) (m : Str) (g : Globals) :
    ∃ g1, printError w m g = .ok () g1 ∧ Records [] [storedError w g m] 1 0 g g1 :=
  ⟨_, rfl, ⟨rfl, rfl, rfl, rfl, rfl, rfl, by simp, rfl, by simp, rfl, rfl, rfl⟩⟩

theorem printSuccess_records (w : World) (m : Str) (g : Globals) :
    ∃ g1, printSuccess w m g = .ok () g1 ∧ Records [] [storedSuccess w g m] 0 0 g g1 :=
  ⟨_, rfl, ⟨rfl, rfl, rfl, rfl, rfl, rfl, by simp, rfl, by simp, rfl, rfl, rfl⟩⟩

theorem printWarning_records (w : World) (m : Str) (g : Globals) :
    ∃ g1, printWarning w m g = .ok () g1 ∧ Records [] [storedWarning w g m] 0 1 g g1 :=
  ⟨_, rfl, ⟨rfl, rfl, rfl, rfl, rfl, rfl, by simp, rfl, by simp, rfl, rfl, rfl⟩⟩

theorem printStep_records (g : Globals) :
    ∃ g1, printStep g = .ok () g1 ∧ Records [] [] 0 0 g g1 :=
  ⟨_, rfl, ⟨rfl, rfl, rfl, rfl, rfl, rfl, by simp, by simp, by simp, rfl, rfl, rfl⟩⟩

theorem sleepOneSecond_records (g : Globals) :
    ∃ g1, sleepOneSecond g = .ok () g1 ∧ Records [.sleep] [] 0 0 g g1 :=
  ⟨_, rfl, ⟨rfl, rfl, rfl, rfl, rfl, rfl, rfl, by simp, by simp, rfl, rfl, rfl⟩⟩

theorem runCommand_records (w : World) (command : Str) (g : Globals)
    (h : TrimSpace command ≠ []) :
    ∃ cmd args res g1, args.getLastD [] = TrimSpace command ∧
      runCommand w command g = .ok (TrimSpace res.output, res.err) g1 ∧
      Records [.exec cmd args res] [] 0 0 g g1 := by
  obtain ⟨cmd, args, res, h1, h2⟩ := runCommand_eq w command g h
  exact ⟨cmd, args, res, _, h1, h2,
    ⟨rfl, rfl, rfl, rfl, rfl, rfl, rfl, by simp, by simp, rfl, rfl, rfl⟩⟩

theorem withFailureText_eq (a : Str) (cmd : Str) (args : List Str) (res : CmdResult) (e : Str)
    (h : res.err = some e) :
    withFailureText a (TrimSpace res.output) e
      = a ++ ", ".toList ++ (Event.exec cmd args res).failureText := by
  simp only [withFailureText, Event.failureText, h, Option.getD_some]
  split <;> rfl

theorem removeDockerNetworkingPlugin_exact (w : World) (p : Str) (g : Globals) :
    ∃ e g1, removeDockerNetworkingPlugin w p g = .ok (!e.failed) g1 ∧
      e.commandLine = TrimSpace ("docker plugin remove ".toList ++ p ++ " --force".toList) ∧
      Records [e] [removeFinding w g p e] e.errorCount 0 g g1 := by
  have hne : TrimSpace ("docker plugin remove ".toList ++ p ++ " --force".toList) ≠ [] := by
    have : "docker plugin remove ".toList ++ p ++ " --force".toList
        = "docker plugin remove".toList ++ (" ".toList ++ p ++ " --force".toList) := by simp
    rw [this, TrimSpace_append_keep _ _ (by decide) (by decide) (by decide)]
    simp
  obtain ⟨cmd, args, res, g1, hl, hrun, t1⟩ := runCommand_records w _ g hne
  unfold removeDockerNetworkingPlugin
  rw [run_bind, hrun]
  cases herr : res.err with
  | some err =>
    obtain ⟨g2, h2, t2⟩ := printError_records w (withFailureText
      ("Unable to remove the Docker networking plugin ".toList ++ p ++ "!".toList)
      (TrimSpace res.output) err) g1
    refine ⟨.exec cmd args res, g2, ?_, hl, ?_⟩
    · simp only [run_bind, h2, Event.failed, herr]
      rfl
    · refine (t1.records_trans t2).cast rfl ?_ ?_ rfl
      · rw [storedError_congr w t1.jsonOutput, withFailureText_eq _ cmd args res err herr]
        simp [removeFinding, commandFinding, Event.failed, herr]
      · simp [Event.errorCount, Event.failed, herr]
  | none =>
    obtain ⟨g2, h2, t2⟩ := printSuccess_records w
      ("Docker network plugin ".toList ++ p ++ " was removed.".toList) g1
    refine ⟨.exec cmd args res, g2, ?_, hl, ?_⟩
    · simp only [run_bind, h2, Event.failed, herr]
      rfl
    · refine (t1.records_trans t2).cast rfl ?_ ?_ rfl
      · rw [storedSuccess_congr w t1.jsonOutput]
        simp [removeFinding, commandFinding, Event.failed, herr]
      · simp [Event.errorCount, Event.failed, herr]

theorem createDockerNetwork_exact (w : World) (p : Str) (g : Globals) :
    ∃ cleanup create g1, createDockerNetwork w p g = .ok (!create.failed) g1 ∧
      cleanup.commandLine = TrimSpace "docker network rm test_network".toList ∧
      create.commandLine = TrimSpace ("docker network create --driver=".toList ++ p ++
        " ".toList ++ testNetworkName) ∧
      Records ([cleanup, .sleep, create] ++ settleAfter create)
        [commandFinding w g
          ("Unable to create a Docker network using plugin ".toList ++ p ++ "!".toList)
          ("Docker network was created using plugin ".toList ++ p) create]
        create.errorCount 0 g g1 := by
  have hne : TrimSpace ("docker network create --driver=".toList ++ p ++ " ".toList ++
      testNetworkName) ≠ [] := by
    have : "docker network create --driver=".toList ++ p ++ " ".toList ++ testNetworkName
        = "docker network create --driver=".toList ++ (p ++ " ".toList ++ testNetworkName) := by
      simp
    rw [this, TrimSpace_append_keep _ _ (by decide) (by decide) (by decide)]
    simp
  obtain ⟨c0, a0, r0, g1, hl0, hrun0, t0⟩ :=
    runCommand_records w "docker network rm test_network".toList g (by decide)
  obtain ⟨g2, hs, ts⟩ := sleepOneSecond_records g1
  obtain ⟨cmd, args, res, g3, hl, hrun, t1⟩ := runCommand_records w _ g2 hne
  have t3 := (t0.records_trans ts).records_trans t1
  unfold createDockerNetwork
  rw [run_bind, hrun0]
  simp only
  rw [run_bind, hs]
  simp only
  rw [run_bind, hrun]
  cases herr : res.err with
  | some err =>
    obtain ⟨g4, h4, t4⟩ := printError_records w (withFailureText
      ("Unable to create a Docker network using plugin ".toList ++ p ++ "!".toList)
      (TrimSpace res.output) err) g3
    refine ⟨.exec c0 a0 r0, .exec cmd args res, g4, ?_, hl0, hl, ?_⟩
    · simp only [run_bind, h4, Event.failed, herr]
      rfl
    · refine (t3.records_trans t4).cast ?_ ?_ ?_ rfl
      · simp [settleAfter, Event.failed, herr]
      · rw [storedError_congr w t3.jsonOutput, withFailureText_eq _ cmd args res err herr]
        simp [commandFinding, Event.failed, herr]
      · simp [Event.errorCount, Event.failed, herr]
  | none =>
    obtain ⟨g4, h4, t4⟩ := sleepOneSecond_records g3
    obtain ⟨g5, h5, t5⟩ := printSuccess_records w
      ("Docker network was created using plugin ".toList ++ p) g4
    have t6 := (t3.records_trans t4).records_trans t5
    refine ⟨.exec c0 a0 r0, .exec cmd args res, g5, ?_, hl0, hl, ?_⟩
    · simp only [run_bind, h4, h5, Event.failed, herr]
      rfl
    · refine t6.cast ?_ ?_ ?_ rfl
      · simp [settleAfter, Event.failed, herr]
      · rw [storedSuccess_congr w (t3.records_trans t4).jsonOutput]
        simp [commandFinding, Event.failed, herr]
      · simp [Event.errorCount, Event.failed, herr]

theorem removeDockerNetwork_exact (w : World) (p : Str) (g : Globals) :
    ∃ delete g1, removeDockerNetwork w p g = .ok (!delete.failed) g1 ∧
      delete.commandLine = TrimSpace ("docker network rm ".toList ++ testNetworkName) ∧
      Records [.sleep, delete]
        [commandFinding w g
          ("Unable to remove the Docker test network using plugin ".toList ++ p ++ "!".toList)
          ("Docker network was removed using plugin ".toList ++ p) delete]
        delete.errorCount 0 g g1 := by
  obtain ⟨g2, hs, ts⟩ := sleepOneSecond_records g
  obtain ⟨cmd, args, res, g3, hl, hrun, t1⟩ :=
    runCommand_records w ("docker network rm ".toList ++ testNetworkName) g2 (by decide)
  have t3 := ts.records_trans t1
  unfold removeDockerNetwork
  rw [run_bind, hs]
  simp only
  rw [run_bind, hrun]
  cases herr : res.err with
  | some err =>
    obtain ⟨g4, h4, t4⟩ := printError_records w (withFailureText
      ("Unable to remove the Docker test network using plugin ".toList ++ p ++ "!".toList)
      (TrimSpace res.output) err) g3
    refine ⟨.exec cmd args res, g4, ?_, hl, ?_⟩
    · simp only [run_bind, h4, Event.failed, herr]
      rfl
    · refine (t3.records_trans t4).cast rfl ?_ ?_ rfl
      · rw [storedError_congr w t3.jsonOutput, withFailureText_eq _ cmd args res err herr]
        simp [commandFinding, Event.failed, herr]
      · simp [Event.errorCount, Event.failed, herr]
  | none =>
    obtain ⟨g4, h4, t4⟩ := printSuccess_records w
      ("Docker network was removed using plugin ".toList ++ p) g3
    refine ⟨.exec cmd args res, g4, ?_, hl, ?_⟩
    · simp only [run_bind, h4, Event.failed, herr]
      rfl
    · refine (t3.records_trans t4).cast rfl ?_ ?_ rfl
      · rw [storedSuccess_congr w t3.jsonOutput]
        simp [commandFinding, Event.failed, herr]
      · simp [Event.errorCount, Event.failed, herr]

theorem testError_records (w : World) (m : Str) (failed : Bool) (g : Globals) :
    ∃ g1, (if (!failed) = false then printError w m else pure ()) g = .ok () g1 ∧
      Records [] (if failed = true then [storedError w g m] else [])
        (if failed = true then 1 else 0) 0 g g1 := by
  cases failed with
  | true => exact printError_records w m g
  | false => exact ⟨g, rfl, Records.records_refl g⟩

theorem runNetworkingPluginTest_exact (w : World) (p : Str) (g : Globals) :
    ∃ cleanup create delete g1, runNetworkingPluginTest w p g = .ok () g1 ∧
      cleanup.commandLine = TrimSpace "docker network rm test_network".toList ∧
      create.commandLine = TrimSpace ("docker network create --driver=".toList ++ p ++
        " ".toList ++ testNetworkName) ∧
      delete.commandLine = TrimSpace ("docker network rm ".toList ++ testNetworkName) ∧
      Records ([cleanup, .sleep, create] ++ settleAfter create ++ [.sleep, delete])
        (createFindings w g p create ++ deleteFindings w g p delete)
        (2 * create.errorCount + 2 * delete.errorCount) 0 g g1 := by
  obtain ⟨g1, h1, t1⟩ := printStep_records g
  obtain ⟨cleanup, create, g2, h2, hl0, hl1, t2⟩ := createDockerNetwork_exact w p g1
  obtain ⟨g3, h3, t3⟩ := testError_records w ("Docker Network Plugin Test has failed! Unable to create a Docker network using the plugin: ".toList ++ p) create.failed g2
  obtain ⟨g4, h4, t4⟩ := printStep_records g3
  obtain ⟨delete, g5, h5, hl2, t5⟩ := removeDockerNetwork_exact w p g4
  obtain ⟨g6, h6, t6⟩ := testError_records w ("Docker Network Plugin Test has failed! Unable to delete a Docker network using the plugin: ".toList ++ p) delete.failed g5
  have t := ((((t1.records_trans t2).records_trans t3).records_trans t4).records_trans
    t5).records_trans t6
  refine ⟨cleanup, create, delete, g6, ?_, hl0, hl1, hl2, t.cast ?_ ?_ ?_ rfl⟩
  · unfold runNetworkingPluginTest
    rw [run_bind, h1]
    simp only
    rw [run_bind, h2]
    simp only
    rw [run_bind, h3]
    simp only
    rw [run_bind, h4]
    simp only
    rw [run_bind, h5]
    exact h6
  · simp
  · rw [storedError_congr w (t1.records_trans t2).jsonOutput,
      storedError_congr w ((((t1.records_trans t2).records_trans t3).records_trans
        t4).records_trans t5).jsonOutput,
      commandFinding_congr w t1.jsonOutput,
      commandFinding_congr w (((t1.records_trans t2).records_trans t3).records_trans
        t4).jsonOutput]
    simp only [createFindings, deleteFindings]
    cases create.failed <;> cases delete.failed <;> simp
  · simp only [Event.errorCount]
    cases create.failed <;> cases delete.failed <;> simp

theorem dockerNetworkingPluginInstalled_exact (w : World) (p : Str) (g : Globals) :
    ∃ probe g1, dockerNetworkingPluginInstalled w p g = .ok (!probe.failed) g1 ∧
      probe.commandLine
        = TrimSpace ("docker plugin inspect --format '\x7b\x7b .Name \x7d\x7d' ".toList ++ p) ∧
      Records [probe] [] 0 0 g g1 := by
  have hne : TrimSpace ("docker plugin inspect --format '\x7b\x7b .Name \x7d\x7d' ".toList ++ p)
      ≠ [] := by
    have : "docker plugin inspect --format '\x7b\x7b .Name \x7d\x7d' ".toList ++ p
        = "docker plugin inspect".toList ++
          (" --format '\x7b\x7b .Name \x7d\x7d' ".toList ++ p) := rfl
    rw [this, TrimSpace_append_keep _ _ (by decide) (by decide) (by decide)]
    simp
  obtain ⟨cmd, args, res, g1, hl, hrun, t1⟩ := runCommand_records w _ g hne
  unfold dockerNetworkingPluginInstalled
  rw [run_bind, hrun]
  refine ⟨.exec cmd args res, g1, ?_, hl, t1⟩
  cases herr : res.err <;> simp only [Event.failed, herr] <;> rfl

theorem ensureClean_exact (w : World) (p : Str) (failed : Bool) (g : Globals) :
    ∃ rm g1,
      (if (!failed) = true then do
          let g ← getGlobals
          printWarning w ("The Docker networking plugin ".toList ++
            g.inspectionData.DockerNetworkingPlugin ++
            " is already installed and will be removed.".toList)
          let _ ← removeDockerNetworkingPlugin w p
          pure ()
        else (pure () : Run Unit)) g = .ok () g1 ∧
      (failed = true → rm = none) ∧
      (failed = false → ∃ e, rm = some e ∧
        e.commandLine = TrimSpace ("docker plugin remove ".toList ++ p ++ " --force".toList)) ∧
      Records rm.toList (cleanFindings w g p rm) (cleanErrors rm) rm.toList.length g g1 := by
  cases failed with
  | true =>
    exact ⟨none, g, rfl, fun _ => rfl, fun h => absurd h (by simp), Records.records_refl g⟩
  | false =>
    obtain ⟨g1, h1, t1⟩ := printWarning_records w ("The Docker networking plugin ".toList ++
      g.inspectionData.DockerNetworkingPlugin ++
      " is already installed and will be removed.".toList) g
    obtain ⟨e, g2, h2, hl, t2⟩ := removeDockerNetworkingPlugin_exact w p g1
    refine ⟨some e, g2, ?_, fun h => absurd h (by simp), fun _ => ⟨e, rfl, hl⟩,
      (t1.records_trans t2).cast rfl ?_ (by simp [cleanErrors]) rfl⟩
    · simp only [Bool.not_false, if_true]
      rw [run_bind]
      simp only [getGlobals]
      rw [run_bind, h1]
      simp only
      rw [run_bind, h2]
      rfl
    · simp [cleanFindings, removeFinding, commandFinding_congr w t1.jsonOutput]

theorem installDockerNetworkingPlugin_exact (w : World) (p : Str) (g : Globals) :
    ∃ swarm probe rm inst g1, installDockerNetworkingPlugin w p g = .ok (!inst.failed) g1 ∧
      swarm.commandLine = TrimSpace "docker swarm init".toList ∧
      probe.commandLine
        = TrimSpace ("docker plugin inspect --format '\x7b\x7b .Name \x7d\x7d' ".toList ++ p) ∧
      inst.commandLine
        = TrimSpace ("docker plugin install --grant-all-permissions ".toList ++ p) ∧
      (probe.failed = true → rm = none) ∧
      (probe.failed = false → ∃ e, rm = some e ∧
        e.commandLine = TrimSpace ("docker plugin remove ".toList ++ p ++ " --force".toList)) ∧
      Records ([swarm, probe] ++ rm.toList ++ [inst])
        (cleanFindings w g p rm ++ [installFinding w g inst])
        (cleanErrors rm + inst.errorCount) rm.toList.length g g1 := by
  have hne : TrimSpace ("docker plugin install --grant-all-permissions ".toList ++ p) ≠ [] := by
    have : "docker plugin install --grant-all-permissions ".toList ++ p
        = "docker plugin install --grant-all-permissions".toList ++ (" ".toList ++ p) := rfl
    rw [this, TrimSpace_append_keep _ _ (by decide) (by decide) (by decide)]
    simp
  obtain ⟨c0, a0, r0, g1, hl0, h1, t1⟩ :=
    runCommand_records w "docker swarm init".toList g (by decide)
  obtain ⟨g2, h2, t2⟩ := printStep_records g1
  obtain ⟨probe, g3, h3, hl1, t3⟩ := dockerNetworkingPluginInstalled_exact w p g2
  obtain ⟨rm, g4, h4, hrm1, hrm2, t4⟩ := ensureClean_exact w p probe.failed g3
  obtain ⟨cmd, args, res, g5, hl, h5, t5⟩ := runCommand_records w
    ("docker plugin install --grant-all-permissions ".toList ++ p) g4 hne
  have t := (((t1.records_trans t2).records_trans t3).records_trans t4).records_trans t5
  have hplugin : g5.inspectionData.DockerNetworkingPlugin
      = g.inspectionData.DockerNetworkingPlugin := t.plugin
  have hclean : cleanFindings w g3 p rm = cleanFindings w g p rm := by
    have hj := ((t1.records_trans t2).records_trans t3).jsonOutput
    have hp := ((t1.records_trans t2).records_trans t3).plugin
    cases rm with
    | none => rfl
    | some e =>
      simp [cleanFindings, removeFinding, commandFinding_congr w hj,
        storedWarning_congr w hj, hp]
  unfold installDockerNetworkingPlugin
  rw [run_bind, h1]
  simp only
  rw [run_bind, h2]
  simp only
  rw [run_bind, h3]
  simp only
  rw [run_bind, h4]
  simp only
  rw [run_bind, h5]
  cases herr : res.err with
  | some err =>
    obtain ⟨g6, h6, t6⟩ := printError_records w (withFailureText
      "Unable to install the Docker Networking Plugin!".toList (TrimSpace res.output) err) g5
    refine ⟨.exec c0 a0 r0, probe, rm, .exec cmd args res, g6, ?_, hl0, hl1, hl, hrm1, hrm2,
      (t.records_trans t6).cast (by simp) ?_ ?_ (by simp)⟩
    · simp only [run_bind, h6, Event.failed, herr]
      rfl
    · rw [storedError_congr w t.jsonOutput, withFailureText_eq _ cmd args res err herr, hclean]
      simp [installFinding, commandFinding, Event.failed, herr]
    · simp [Event.errorCount, Event.failed, herr]
  | none =>
    obtain ⟨g6, h6, t6⟩ := printSuccess_records w ("Docker networking plugin ".toList ++
      g5.inspectionData.DockerNetworkingPlugin ++ " has been installed successfully.".toList) g5
    refine ⟨.exec c0 a0 r0, probe, rm, .exec cmd args res, g6, ?_, hl0, hl1, hl, hrm1, hrm2,
      (t.records_trans t6).cast (by simp) ?_ ?_ (by simp)⟩
    · simp only [run_bind, getGlobals, h6, Event.failed, herr]
      rfl
    · rw [storedSuccess_congr w t.jsonOutput, hplugin, hclean]
      simp [installFinding, commandFinding, Event.failed, herr]
    · simp [Event.errorCount, Event.failed, herr]

/-! ### Classes of the life cycle commands -/

theorem commandLine_hasPrefix_true (e : Event) (a b q : Str) (ha : a ≠ [])
    (hhead : isSpace (a.head ha) = false) (hlast : isSpace (a.getLast ha) = false)
    (h : HasPrefix a q = true) (he : e.commandLine = TrimSpace (a ++ b)) :
    HasPrefix e.commandLine q = true := by
  rw [he, TrimSpace_append_keep a b ha hhead hlast]
  unfold HasPrefix at *
  obtain ⟨t, ht⟩ := List.isPrefixOf_iff_prefix.mp h
  exact List.isPrefixOf_iff_prefix.mpr ⟨t ++ List.rdropWhile isSpace b, by
    rw [← List.append_assoc, ht]⟩

theorem inspect_class (e : Event) (p : Str) (he : e.commandLine
    = TrimSpace ("docker plugin inspect --format '\x7b\x7b .Name \x7d\x7d' ".toList ++ p)) :
    e.isInspect = true ∧ e.isInstall = false ∧ e.isNetwork = false ∧
      e.isPluginRemove = false := by
  have he2 : e.commandLine = TrimSpace ("docker plugin inspect".toList ++
      (" --format '\x7b\x7b .Name \x7d\x7d' ".toList ++ p)) := he
  exact ⟨commandLine_hasPrefix_true e "docker plugin inspect".toList _ _ (by decide) (by decide) (by decide) (by decide) he2,
    commandLine_hasPrefix_false e "docker plugin inspect".toList _ _ (by decide) (by decide) (by decide) (fun _ => rfl) he2,
    commandLine_hasPrefix_false e "docker plugin inspect".toList _ _ (by decide) (by decide) (by decide) (fun _ => rfl) he2,
    commandLine_hasPrefix_false e "docker plugin inspect".toList _ _ (by decide) (by decide) (by decide) (fun _ => rfl) he2⟩

theorem install_class (e : Event) (p : Str) (he : e.commandLine
    = TrimSpace ("docker plugin install --grant-all-permissions ".toList ++ p)) :
    e.isInstall = true ∧ e.isInspect = false ∧ e.isNetwork = false ∧
      e.isPluginRemove = false := by
  have he2 : e.commandLine = TrimSpace ("docker plugin install".toList ++
      (" --grant-all-permissions ".toList ++ p)) := he
  exact ⟨commandLine_hasPrefix_true e "docker plugin install".toList _ _ (by decide) (by decide) (by decide) (by decide) he2,
    commandLine_hasPrefix_false e "docker plugin install".toList _ _ (by decide) (by decide) (by decide) (fun _ => rfl) he2,
    commandLine_hasPrefix_false e "docker plugin install".toList _ _ (by decide) (by decide) (by decide) (fun _ => rfl) he2,
    commandLine_hasPrefix_false e "docker plugin install".toList _ _ (by decide) (by decide) (by decide) (fun _ => rfl) he2⟩

theorem pluginRemove_class (e : Event) (p : Str) (he : e.commandLine
    = TrimSpace ("docker plugin remove ".toList ++ p ++ " --force".toList)) :
    e.isPluginRemove = true ∧ e.isInstall = false ∧ e.isNetwork = false ∧
      e.isInspect = false := by
  have he2 : e.commandLine = TrimSpace ("docker plugin remove".toList ++
      (" ".toList ++ p ++ " --force".toList)) := by
    rw [he]
    simp
  exact ⟨commandLine_hasPrefix_true e "docker plugin remove".toList _ _ (by decide) (by decide) (by decide) (by decide) he2,
    commandLine_hasPrefix_false e "docker plugin remove".toList _ _ (by decide) (by decide) (by decide) (fun _ => rfl) he2,
    commandLine_hasPrefix_false e "docker plugin remove".toList _ _ (by decide) (by decide) (by decide) (fun _ => rfl) he2,
    commandLine_hasPrefix_false e "docker plugin remove".toList _ _ (by decide) (by decide) (by decide) (fun _ => rfl) he2⟩

theorem swarm_class (e : Event) (he : e.commandLine = TrimSpace "docker swarm init".toList) :
    e.isInstall = false ∧ e.isNetwork = false ∧ e.isPluginRemove = false ∧
      e.isInspect = false := by
  unfold Event.isInstall Event.isNetwork Event.isPluginRemove Event.isInspect
  rw [he]
  exact ⟨by decide, by decide, by decide, by decide⟩

theorem networkRemove_class (e : Event)
    (he : e.commandLine = TrimSpace "docker network rm test_network".toList) :
    e.isNetworkRemove = true ∧ e.isNetworkCreate = false ∧ e.isInstall = false ∧
      e.isPluginRemove = false ∧ e.isInspect = false := by
  unfold Event.isNetworkRemove Event.isNetworkCreate Event.isInstall Event.isPluginRemove
    Event.isInspect
  rw [he]
  exact ⟨by decide, by decide, by decide, by decide, by decide⟩

theorem networkCreate_class (e : Event) (p : Str) (he : e.commandLine
    = TrimSpace ("docker network create --driver=".toList ++ p ++ " ".toList ++
      testNetworkName)) :
    e.isNetworkCreate = true ∧ e.isNetworkRemove = false ∧ e.isInstall = false ∧
      e.isPluginRemove = false ∧ e.isInspect = false := by
  have he2 : e.commandLine = TrimSpace ("docker network create".toList ++
      (" --driver=".toList ++ p ++ " ".toList ++ testNetworkName)) := by
    rw [he]
    simp
  exact ⟨commandLine_hasPrefix_true e "docker network create".toList _ _ (by decide) (by decide) (by decide) (by decide) he2,
    commandLine_hasPrefix_false e "docker network create".toList _ _ (by decide) (by decide) (by decide) (fun _ => rfl) he2,
    commandLine_hasPrefix_false e "docker network create".toList _ _ (by decide) (by decide) (by decide) (fun _ => rfl) he2,
    commandLine_hasPrefix_false e "docker network create".toList _ _ (by decide) (by decide) (by decide) (fun _ => rfl) he2,
    commandLine_hasPrefix_false e "docker network create".toList _ _ (by decide) (by decide) (by decide) (fun _ => rfl) he2⟩

/-! ## Findings of the life cycle -/

/-- C11, as the claim states it, fails: started with no finding recorded, on a host where
the plugin is found installed, one invocation of `installDockerNetworkingPlugin` returns
with three findings recorded (the warning, the removal, the install), not one. -/
theorem install_of_installed_plugin_records_three_findings :
    initialGlobals.inspectionData.Messages.length = 0 ∧
    (installDockerNetworkingPlugin sampleWorld "acme/netplug:1.0".toList
      initialGlobals).returned = true ∧
    (installDockerNetworkingPlugin sampleWorld "acme/netplug:1.0".toList
      initialGlobals).globals.inspectionData.Messages.length = 3 ∧
    (installDockerNetworkingPlugin sampleWorld "acme/netplug:1.0".toList
      initialGlobals).globals.inspectionData.HTMLMessages.length = 3 ∧
    (installDockerNetworkingPlugin sampleWorld "acme/netplug:1.0".toList
      initialGlobals).globals.inspectionData.Warnings = 1 := by
  decide

/-- C11, as the program has it. For every outcome of the commands, one invocation of
`removeDockerNetworkingPlugin` runs the remove command and appends exactly one finding,
to `Messages` and to `HTMLMessages`; one invocation of `installDockerNetworkingPlugin`
appends exactly one finding when its inspect probe (the second command it runs) fails,
and exactly three when the probe succeeds. -/
theorem lifecycle_findings_per_invocation (w : World) (p : Str) (g : Globals) :
    (∃ rm b g1, removeDockerNetworkingPlugin w p g = .ok b g1 ∧ rm.isPluginRemove = true ∧
      g1.trace = g.trace ++ [rm] ∧
      g1.inspectionData.Messages = g.inspectionData.Messages ++ [removeFinding w g p rm] ∧
      g1.inspectionData.HTMLMessages.length = g.inspectionData.HTMLMessages.length + 1) ∧
    (∃ swarm probe rest b g1, installDockerNetworkingPlugin w p g = .ok b g1 ∧
      probe.isInspect = true ∧ g1.trace = g.trace ++ swarm :: probe :: rest ∧
      g1.inspectionData.Messages.length
        = g.inspectionData.Messages.length + (if probe.failed = true then 1 else 3) ∧
      g1.inspectionData.HTMLMessages.length
        = g.inspectionData.HTMLMessages.length + (if probe.failed = true then 1 else 3)) := by
  constructor
  · obtain ⟨rm, g1, h1, hl, t⟩ := removeDockerNetworkingPlugin_exact w p g
    exact ⟨rm, _, g1, h1, (pluginRemove_class rm p hl).1, t.trace, t.messages, t.html⟩
  · obtain ⟨swarm, probe, rm, inst, g1, h1, -, hl1, -, hrm1, hrm2, t⟩ :=
      installDockerNetworkingPlugin_exact w p g
    refine ⟨swarm, probe, rm.toList ++ [inst], _, g1, h1, (inspect_class probe p hl1).1,
      by rw [t.trace]; simp, ?_, ?_⟩
    · rw [t.messages]
      cases hf : probe.failed with
      | true => rw [hrm1 hf]; simp [cleanFindings]
      | false =>
        obtain ⟨e, he, -⟩ := hrm2 hf
        rw [he]
        simp [cleanFindings]
    · rw [t.html]
      cases hf : probe.failed with
      | true => rw [hrm1 hf]; simp [cleanFindings]
      | false =>
        obtain ⟨e, he, -⟩ := hrm2 hf
        rw [he]
        simp [cleanFindings]

/-- C12, as the claim states it, fails: when the create command fails and the delete
command succeeds, `runNetworkingPluginTest` records three findings, two of them errors. -/
theorem failed_create_records_two_errors :
    initialGlobals.inspectionData.Messages.length = 0 ∧
    (runNetworkingPluginTest (sampleWorldFailing "docker network create".toList)
      "acme/netplug:1.0".toList initialGlobals).returned = true ∧
    (runNetworkingPluginTest (sampleWorldFailing "docker network create".toList)
      "acme/netplug:1.0".toList initialGlobals).globals.inspectionData.Messages.length = 3 ∧
    (runNetworkingPluginTest (sampleWorldFailing "docker network create".toList)
      "acme/netplug:1.0".toList initialGlobals).globals.inspectionData.Errors = 2 := by
  decide

/-- C12, as the program has it. For every outcome of the create and the delete command,
`runNetworkingPluginTest` returns and records, for the create step and then for the
delete step, one Success finding when the command of the step succeeded and two Error
findings when it failed (the error of the command, with its failure text, and the error
that the test has failed): two findings in all exactly when both succeeded.  The error
count goes up by two per failed step, so no Error finding is recorded if and only if
both the create and the delete command succeeded. -/
theorem network_test_findings_per_step (w : World) (p : Str) (g : Globals) :
    ∃ cleanup create delete g1, runNetworkingPluginTest w p g = .ok () g1 ∧
      create.isNetworkCreate = true ∧ delete.isNetworkRemove = true ∧
      g1.trace = g.trace ++
        ([cleanup, .sleep, create] ++ settleAfter create ++ [.sleep, delete]) ∧
      g1.inspectionData.Messages = g.inspectionData.Messages ++
        (createFindings w g p create ++ deleteFindings w g p delete) ∧
      (createFindings w g p create).length = (if create.failed = true then 2 else 1) ∧
      (deleteFindings w g p delete).length = (if delete.failed = true then 2 else 1) ∧
      g1.inspectionData.Errors = g.inspectionData.Errors +
        (2 * create.errorCount + 2 * delete.errorCount) ∧
      (g1.inspectionData.Errors = g.inspectionData.Errors ↔
        create.failed = false ∧ delete.failed = false) := by
  obtain ⟨cleanup, create, delete, g1, h1, -, hl1, hl2, t⟩ :=
    runNetworkingPluginTest_exact w p g
  refine ⟨cleanup, create, delete, g1, h1, (networkCreate_class create p hl1).1,
    (networkRemove_class delete hl2).1, t.trace, t.messages, ?_, ?_, t.errors, ?_⟩
  · unfold createFindings
    split <;> rfl
  · unfold deleteFindings
    split <;> rfl
  · rw [t.errors]
    unfold Event.errorCount
    cases create.failed <;> cases delete.failed <;> simp

/-- C13. In `installDockerNetworkingPlugin` the second command is the inspect probe and
the last one the install command.  When the probe succeeds, the warning that the plugin
is already installed is the first finding recorded, the warning count goes up by one, and
the force-remove command is run between the probe and the install command.  When the
probe fails, the install command follows the probe directly, no command before it is a
remove command, the warning count stays, and the only finding recorded is that of the
install command. -/
theorem installed_plugin_is_warned_and_removed_before_install (w : World) (p : Str)
    (g : Globals) :
    ∃ swarm probe inst b g1, installDockerNetworkingPlugin w p g = .ok b g1 ∧
      probe.isInspect = true ∧ inst.isInstall = true ∧
      swarm.isPluginRemove = false ∧ probe.isPluginRemove = false ∧
      (probe.failed = false → ∃ rm rest, rm.isPluginRemove = true ∧
        g1.trace = g.trace ++ [swarm, probe, rm, inst] ∧
        g1.inspectionData.Warnings = g.inspectionData.Warnings + 1 ∧
        g1.inspectionData.Messages = g.inspectionData.Messages ++
          storedWarning w g ("The Docker networking plugin ".toList ++
            g.inspectionData.DockerNetworkingPlugin ++
            " is already installed and will be removed.".toList) :: rest) ∧
      (probe.failed = true →
        g1.trace = g.trace ++ [swarm, probe, inst] ∧
        g1.inspectionData.Warnings = g.inspectionData.Warnings ∧
        g1.inspectionData.Messages = g.inspectionData.Messages ++ [installFinding w g inst]) := by
  obtain ⟨swarm, probe, rm, inst, g1, h1, hl0, hl1, hl2, hrm1, hrm2, t⟩ :=
    installDockerNetworkingPlugin_exact w p g
  refine ⟨swarm, probe, inst, _, g1, h1, (inspect_class probe p hl1).1,
    (install_class inst p hl2).1, (swarm_class swarm hl0).2.2.1,
    (inspect_class probe p hl1).2.2.2, ?_, ?_⟩
  · intro hf
    obtain ⟨e, he, hle⟩ := hrm2 hf
    refine ⟨e, [removeFinding w g p e, installFinding w g inst],
      (pluginRemove_class e p hle).1, ?_, ?_, ?_⟩
    · rw [t.trace, he]; rfl
    · rw [t.warnings, he]; rfl
    · rw [t.messages, he]; rfl
  · intro hf
    refine ⟨?_, ?_, ?_⟩
    · rw [t.trace, hrm1 hf]; rfl
    · rw [t.warnings, hrm1 hf]; rfl
    · rw [t.messages, hrm1 hf]; rfl

/-! ## The run up to the registry fetches -/

theorem onOk_bind {α β : Type} {T : Globals → Globals → Prop}
    (ht : ∀ a b c, T a b → T b c → T a c) {m : Run α} {f : α → Run β}
    (hm : m.onOk T) (hf : ∀ a, (f a).onOk T) : (m >>= f).onOk T := by
  constructor
  intro g b g2 h
  rw [run_bind] at h
  cases hmg : m g with
  | ok a g1 =>
    rw [hmg] at h
    exact ht _ _ _ (hm.run g a g1 hmg) ((hf a).run g1 b g2 h)
  | exit c g1 => rw [hmg] at h; exact absurd h (by simp)
  | panic g1 => rw [hmg] at h; exact absurd h (by simp)
  | hang g1 => rw [hmg] at h; exact absurd h (by simp)

theorem Quietly.quietly_refl (c : Prop) (g : Globals) : Quietly c g g :=
  ⟨rfl, rfl, rfl, fun _ => ⟨rfl, rfl, rfl⟩⟩

theorem Quietly.quietly_trans {c : Prop} {a b d : Globals} (h1 : Quietly c a b)
    (h2 : Quietly c b d) : Quietly c a d :=
  ⟨h2.authEndpoint.trans h1.authEndpoint, h2.apiEndpoint.trans h1.apiEndpoint,
    h2.warnings.trans h1.warnings, fun hc =>
      ⟨(h2.findings hc).1.trans (h1.findings hc).1,
        (h2.findings hc).2.1.trans (h1.findings hc).2.1,
        (h2.findings hc).2.2.trans (h1.findings hc).2.2⟩⟩

theorem Quietly.weaken {c d : Prop} {g g1 : Globals} (h : Quietly c g g1) (hd : d → c) :
    Quietly d g g1 :=
  ⟨h.authEndpoint, h.apiEndpoint, h.warnings, fun x => h.findings (hd x)⟩

theorem quietly_bind {α β : Type} {c : Prop} {m : Run α} {f : α → Run β}
    (hm : m.onOk (Quietly c)) (hf : ∀ a, (f a).onOk (Quietly c)) :
    (m >>= f).onOk (Quietly c) :=
  onOk_bind (T := Quietly c) (fun _ _ _ h1 h2 => h1.quietly_trans h2) hm hf

theorem quietly_pure {α : Type} (c : Prop) (a : α) : (pure a : Run α).onOk (Quietly c) := by
  constructor
  intro g b g1 h
  simp only [run_pure, Res.ok.injEq] at h
  rw [← h.2]
  exact Quietly.quietly_refl c g

theorem quietly_osExit {α : Type} (c : Prop) (code : Nat) :
    (osExit code : Run α).onOk (Quietly c) :=
  ⟨fun g b g1 h => absurd h (by simp [osExit])⟩

theorem quietly_fatal (c : Prop) (w : World) (err : Str) :
    (logFatalError w err >>= fun _ => (osExit 1 : Run Unit)).onOk (Quietly c) :=
  ⟨fun g b g1 h => absurd h (by rw [fatal_exit]; simp)⟩

theorem quietly_getGlobals (c : Prop) : getGlobals.onOk (Quietly c) := by
  constructor
  intro g b g1 h
  simp only [getGlobals, Res.ok.injEq] at h
  rw [← h.2]
  exact Quietly.quietly_refl c g

theorem quietly_emit (c : Prop) (e : Event) : (emit e).onOk (Quietly c) := by
  constructor
  intro g b g1 h
  simp only [emit, modifyGlobals, Res.ok.injEq] at h
  rw [← h.2]
  exact ⟨rfl, rfl, rfl, fun _ => ⟨rfl, rfl, rfl⟩⟩

theorem quietly_printStep (c : Prop) : printStep.onOk (Quietly c) := by
  constructor
  intro g b g1 h
  simp only [printStep, modifyGlobals, Res.ok.injEq] at h
  rw [← h.2]
  exact ⟨rfl, rfl, rfl, fun _ => ⟨rfl, rfl, rfl⟩⟩

theorem quietly_modifyData (c : Prop) (f : inspectionStruct → inspectionStruct)
    (hf : ∀ d, (f d).Warnings = d.Warnings ∧ (f d).Errors = d.Errors ∧
      (f d).Messages = d.Messages) : (modifyData f).onOk (Quietly c) := by
  constructor
  intro g b g1 h
  simp only [modifyData, modifyGlobals, Res.ok.injEq] at h
  rw [← h.2]
  exact ⟨rfl, rfl, (hf _).1, fun _ => ⟨rfl, (hf _).2.1, (hf _).2.2⟩⟩

theorem quietly_runCommand (c : Prop) (w : World) (command : Str) :
    (runCommand w command).onOk (Quietly c) := by
  constructor
  intro g b g1 h
  by_cases hc : TrimSpace command = []
  · unfold runCommand at h
    simp only [hc, if_true, Res.ok.injEq] at h
    rw [← h.2]
    exact Quietly.quietly_refl c g
  · obtain ⟨cmd, args, res, -, hrun⟩ := runCommand_eq w command g hc
    rw [hrun] at h
    simp only [Res.ok.injEq] at h
    rw [← h.2]
    exact ⟨rfl, rfl, rfl, fun _ => ⟨rfl, rfl, rfl⟩⟩

theorem quietly_logFatalError (w : World) (err : Str) :
    (logFatalError w err).onOk (Quietly False) := by
  constructor
  intro g b g1 h
  unfold logFatalError at h
  split at h
  · simp only [run_bind, printError, generateJSONOutput] at h
    split at h
    · exact absurd h (by simp)
    · simp only [Res.ok.injEq] at h
      rw [← h.2]
      exact ⟨rfl, rfl, rfl, fun hc => absurd hc id⟩
  · simp only [Res.ok.injEq] at h
    rw [← h.2]
    exact Quietly.quietly_refl False g

theorem quietly_promptUserLoop (c : Prop) (answers : List Str) :
    (promptUserLoop answers).onOk (Quietly c) := by
  induction answers with
  | nil => exact ⟨fun g b g1 h => absurd h (by simp [promptUserLoop])⟩
  | cons a rest ih =>
    unfold promptUserLoop
    repeat' first
      | exact ih
      | with_reducible exact quietly_pure c _
      | with_reducible exact quietly_emit c _
      | with_reducible apply quietly_bind
      | intro _
      | split

theorem quietly_promptPasswordLoop (w : World) (answers : List (Str × Option Str)) :
    (promptPasswordLoop w answers).onOk (Quietly False) := by
  induction answers with
  | nil => exact ⟨fun g b g1 h => absurd h (by simp [promptPasswordLoop])⟩
  | cons a rest ih =>
    obtain ⟨pass, err⟩ := a
    unfold promptPasswordLoop
    repeat' first
      | exact ih
      | with_reducible exact quietly_pure False _
      | with_reducible exact quietly_emit False _
      | with_reducible exact quietly_logFatalError w _
      | with_reducible apply quietly_bind
      | intro _
      | split

theorem quietly_readCredentials (w : World) (f : Flags) :
    (readCredentials w f).onOk (Quietly (passwordGiven w f)) := by
  have hpw : passwordGiven w f →
      (if f.dockerPassword = [] then w.getenv "DOCKER_PASSWORD".toList else f.dockerPassword)
        ≠ [] := by
    intro hc
    rcases hc with hc | hc
    · simp only [hc, if_false]
      exact hc
    · by_cases hf : f.dockerPassword = []
      · simp only [hf, if_true]
        exact hc
      · simp only [hf, if_false]
        exact hf
  unfold readCredentials
  simp only []
  generalize (if f.dockerUser = [] then w.getenv "DOCKER_USER".toList else f.dockerUser) = du
  generalize (if f.dockerPassword = [] then w.getenv "DOCKER_PASSWORD".toList
    else f.dockerPassword) = pw at hpw
  refine quietly_bind ?_ ?_
  · by_cases hdu : du = []
    · simp only [hdu, if_true]
      exact quietly_promptUserLoop _ _
    · simp only [hdu, if_false]
      exact quietly_pure _ _
  · intro u
    refine quietly_bind ?_ (fun _ => quietly_pure _ _)
    by_cases hp : pw = []
    · simp only [hp, if_true]
      exact ⟨fun g b g1 hrun => ((quietly_promptPasswordLoop w _).run g b g1 hrun).weaken
        (fun hc => hpw hc hp)⟩
    · simp only [hp, if_false]
      exact quietly_pure _ _

theorem quietly_loginAndVersion (c : Prop) (w : World) (u p api : Str) :
    (loginAndVersion w u p api).onOk (Quietly c) := by
  unfold loginAndVersion
  repeat' first
    | with_reducible exact quietly_pure c _
    | with_reducible exact quietly_fatal c w _
    | with_reducible exact quietly_printStep c
    | with_reducible exact quietly_runCommand c w _
    | with_reducible exact quietly_modifyData c _ (fun _ => ⟨rfl, rfl, rfl⟩)
    | with_reducible apply quietly_bind
    | rintro ⟨_, _⟩
    | intro _
    | split

theorem calm_promptUser : Event.promptUser.calm := ⟨quiet_promptUser, rfl⟩

theorem calm_promptPassword : Event.promptPassword.calm := ⟨quiet_promptPassword, rfl⟩

theorem calm_json (d : jsonOutputStruct) : (Event.json d).calm := ⟨quiet_json d, rfl⟩

theorem calm_of_quiet_command (e : Event) (hq : e.quiet) (hl : e.commandLine ≠ []) :
    e.calm := by
  refine ⟨hq, ?_⟩
  cases e with
  | exec cmd args res => rfl
  | _ => exact absurd rfl hl

theorem Event.isSystemInfo.systemInfo_calm {e : Event} (h : e.isSystemInfo) : e.calm :=
  ⟨h.systemInfo_quiet, h.systemInfo_not_login_fetch.2⟩

theorem Event.isJson.json_calm {e : Event} (h : e.isJson) : e.calm :=
  ⟨h.json_quiet, h.json_not_login_fetch.2⟩

theorem promptUserLoop_calm (answers : List Str) :
    (promptUserLoop answers).steps (Evolves Event.calm) := by
  induction answers with
  | nil => exact ⟨fun g => ⟨Evolves.evolves_refl _ g, trivial⟩⟩
  | cons a rest ih =>
    unfold promptUserLoop
    repeat' first
      | exact ih
      | with_reducible exact evolves_pure _ _
      | with_reducible exact (emit_returns _ _ calm_promptUser).steps
      | with_reducible apply evolves_bind
      | intro _
      | split

theorem promptPasswordLoop_calm (w : World) (answers : List (Str × Option Str)) :
    (promptPasswordLoop w answers).steps (Evolves Event.calm) := by
  induction answers with
  | nil => exact ⟨fun g => ⟨Evolves.evolves_refl _ g, trivial⟩⟩
  | cons a rest ih =>
    obtain ⟨pass, err⟩ := a
    unfold promptPasswordLoop
    repeat' first
      | exact ih
      | with_reducible exact evolves_pure _ _
      | with_reducible exact (emit_returns _ _ calm_promptPassword).steps
      | with_reducible exact logFatalError_steps _ w _ calm_json
      | with_reducible apply evolves_bind
      | intro _
      | split

theorem readCredentials_calm (w : World) (f : Flags) :
    (readCredentials w f).steps (Evolves Event.calm) := by
  unfold readCredentials
  repeat' first
    | with_reducible exact evolves_pure _ _
    | with_reducible exact promptUserLoop_calm _
    | with_reducible exact promptPasswordLoop_calm w _
    | with_reducible apply evolves_bind
    | intro _
    | split

theorem loginAndVersion_calm (w : World) (u p api : Str) :
    (loginAndVersion w u p api).steps (Evolves Event.calm) := by
  have hlogin : ∀ e : Event, e.commandLine = TrimSpace ("docker login --username ".toList ++ u
      ++ " --password ".toList ++ p ++ " ".toList ++ api) → e.calm := by
    intro e he
    have he2 : e.commandLine = TrimSpace ("docker login --username".toList ++
        (" ".toList ++ u ++ " --password ".toList ++ p ++ " ".toList ++ api)) := by
      rw [he]; simp
    refine calm_of_quiet_command e (quiet_of_commandLine e "docker login --username".toList
      (" ".toList ++ u ++ " --password ".toList ++ p ++ " ".toList ++ api)
      (by decide) (by decide) (by decide) (fun _ => rfl) (fun _ => rfl) he2) ?_
    rw [he2, TrimSpace_append_keep _ _ (by decide) (by decide) (by decide)]
    simp
  have hversion : ∀ e : Event, e.commandLine = TrimSpace "docker --version".toList →
      e.calm := by
    intro e he
    refine calm_of_quiet_command e (quiet_of_commandLine e "docker --version".toList []
      (by decide) (by decide) (by decide) (fun _ => rfl) (fun _ => rfl) ?_) ?_
    · rw [he]; rfl
    · rw [he]; decide
  unfold loginAndVersion
  refine evolves_bind (runCommand_returns _ w _ hlogin).steps ?_
  repeat' first
    | with_reducible exact evolves_pure _ _
    | with_reducible exact osExit_one_steps _
    | with_reducible exact (printStep_returns _).steps
    | with_reducible exact (runCommand_returns _ w _ hversion).steps
    | with_reducible exact logFatalError_steps _ w _ calm_json
    | with_reducible exact modifyData_steps _ _ (fun _ => ⟨rfl, rfl, rfl, rfl, rfl, rfl, rfl⟩)
    | with_reducible apply evolves_bind
    | rintro ⟨_, _⟩
    | intro _
    | split

theorem bind_steps_onOk_post {α β : Type} {m : Run α} {f : α → Run β}
    {T U : Globals → Globals → Prop} (hm : m.steps T) (ho : m.onOk U) (g : Globals)
    (Q : Res β → Prop)
    (hok : ∀ a g1, m g = .ok a g1 → T g g1 → U g g1 → Q (f a g1))
    (hstop : ∀ r : Res β, r.returned = false → r.stopsWithOne → T g r.globals → Q r) :
    Q ((m >>= f) g) := by
  have h := hm.run g
  rw [run_bind]
  cases hmg : m g with
  | ok a g1 => rw [hmg] at h; exact hok a g1 hmg h.1 (ho.run g a g1 hmg)
  | exit c g1 => rw [hmg] at h; exact hstop (.exit c g1) rfl h.2 h.1
  | panic g1 => rw [hmg] at h; exact hstop (.panic g1) rfl trivial h.1
  | hang g1 => rw [hmg] at h; exact hstop (.hang g1) rfl trivial h.1

theorem quietly_readReference (c : Prop) (w : World) (f : Flags) :
    (readReference w f).onOk (Quietly c) := by
  unfold readReference
  repeat' first
    | with_reducible exact quietly_pure c _
    | with_reducible exact quietly_fatal c w _
    | with_reducible exact quietly_getGlobals c
    | with_reducible exact quietly_modifyData c _ (fun _ => ⟨rfl, rfl, rfl⟩)
    | with_reducible apply quietly_bind
    | intro _
    | split

theorem startRun_endpoints (w : World) (f : Flags) (api : Str) (g1 : Globals)
    (h : startRun w f initialGlobals = .ok api g1) :
    g1.inspectionData.Warnings = 0 ∧
      g1.DockerRegistryAuthEndpoint = effectiveAuthEndpoint w f ∧
      g1.DockerRegistryAPIEndpoint = effectiveAPIEndpoint w f := by
  obtain ⟨v, evs, h1, -⟩ := getOperatingSystemInfo_eq w
    { initialGlobals with inspectionData :=
      { initialGlobals.inspectionData with
        InspectionDate := w.inspectionDate, SystemArchitecture := w.GOARCH } }
  unfold startRun at h
  simp only [run_bind, modifyData, modifyGlobals, h1] at h
  obtain ⟨os, err⟩ := v
  cases err with
  | some e => cases h
  | none =>
    by_cases hh : f.help = true
    · simp only [hh, if_true] at h
      cases h
    · simp only [hh, if_false] at h
      by_cases ha : f.args.length = 0
      · simp only [ha, if_true] at h
        cases h
      · simp only [ha, if_false] at h
        cases h
        exact ⟨rfl, rfl, rfl⟩

theorem beforeSummary_reaches_fetch (w : World) (f : Flags) :
    ReachesFetch w f (beforeSummary w f initialGlobals) := by
  have h1 := startRun_spec w f
  unfold beforeSummary
  rw [run_bind]
  cases hs : startRun w f initialGlobals with
  | ok api g1 =>
    rw [hs] at h1
    obtain ⟨hst, -, -, hj, -⟩ := h1
    obtain ⟨hw1, ha1, hp1⟩ := startRun_endpoints w f api g1 hs
    have hq1 : ∀ e ∈ g1.trace, e.calm := fun e he => (hst.trace e he).systemInfo_calm
    have h2 := readReference_spec w f g1
    simp only
    rw [run_bind]
    cases hr : readReference w f g1 with
    | ok u g2 =>
      rw [hr] at h2
      have q2 := (quietly_readReference True w f).run g1 u g2 hr
      simp only
      have hq2 : ∀ e ∈ g2.trace, e.calm := by
        intro e he
        rw [h2.trace] at he
        exact hq1 e he
      have hcalm : ∀ {g3 : Globals}, Evolves Event.calm g2 g3 → ∀ e ∈ g3.trace, e.calm := by
        intro g3 t e he
        obtain ⟨evs, h3, h4⟩ := t.trace
        rw [h3] at he
        rcases List.mem_append.mp he with h5 | h5
        · exact hq2 e h5
        · exact h4 e h5
      refine bind_steps_onOk_post (readCredentials_calm w f) (quietly_readCredentials w f) g2
        (ReachesFetch w f) ?_ (fun r hr _ t => Or.inl ⟨hr, hcalm t⟩)
      rintro ⟨u, p⟩ g3 - t3 q3
      refine bind_steps_onOk_post (loginAndVersion_calm w u p api)
        (quietly_loginAndVersion (passwordGiven w f) w u p api) g3
        (ReachesFetch w f) ?_ (fun r hr _ t => Or.inl ⟨hr, hcalm (t3.evolves_trans t)⟩)
      intro _ g4 _ t4 q4
      have t := t3.evolves_trans t4
      have q := q3.quietly_trans q4
      refine Or.inr ⟨u, p, g4, ⟨hcalm t, ?_, ?_, ?_, ?_, ?_, ?_, ?_, ?_⟩, rfl⟩
      · exact ExitCodeTracksErrors.tracks_of_evolves
          (Or.inl ⟨h2.exitCode.trans hst.exitCode, h2.errors.trans hst.errors⟩) t
      · rw [t.url, h2.url, hst.url]
      · rw [t.jsonOutput, h2.jsonOutput, hj]
      · rw [t.plugin, h2.plugin]
      · rw [q.authEndpoint, q2.authEndpoint, ha1]
      · rw [q.apiEndpoint, q2.apiEndpoint, hp1]
      · rw [q.warnings, q2.warnings, hw1]
      · intro hc
        obtain ⟨x1, x2, x3⟩ := q.findings hc
        exact ⟨x1.trans (h2.exitCode.trans hst.exitCode),
          x2.trans (h2.errors.trans hst.errors), x3.trans (h2.messages.trans hst.messages)⟩
    | exit c g2 =>
      rw [hr] at h2
      obtain ⟨-, g0, h0, hev⟩ := h2
      obtain ⟨evs, he1, he2⟩ := hev.trace
      refine Or.inl ⟨rfl, ?_⟩
      intro e he
      simp only [Res.globals] at he
      rw [he1, h0.trace] at he
      rcases List.mem_append.mp he with h5 | h5
      · exact hq1 e h5
      · exact (he2 e h5).json_calm
    | panic g2 => rw [hr] at h2; exact absurd h2 id
    | hang g2 => rw [hr] at h2; exact absurd h2 id
  | exit c g1 =>
    rw [hs] at h1
    exact Or.inl ⟨rfl, fun e he => (h1.1.trace e he).systemInfo_calm⟩
  | panic g1 => rw [hs] at h1; exact absurd h1 id
  | hang g1 => rw [hs] at h1; exact absurd h1 id

/-! ## The registry fetches -/

theorem fatalGlobals_trace (w : World) (err : Str) (g : Globals) :
    ∃ js, (fatalGlobals w err g).trace = g.trace ++ js ∧ ∀ e ∈ js, e.isJson :=
  (fatalGlobals_evolves w err g).trace

theorem fetchMetadata_spec (w : World) (u p : Str) (g : Globals) :
    FetchOutcome w u p g (fetchMetadata w u p g) := by
  unfold fetchMetadata FetchOutcome
  simp only [run_bind, getGlobals, emit, modifyGlobals, modifyData, Event.fetchError]
  cases hd : (w.GetDockerImageDigest g.DockerRegistryAuthEndpoint g.DockerRegistryAPIEndpoint
      u p g.inspectionData.DockerNetworkingPlugin "plugin".toList).2 with
  | some e =>
    simp only [fatal_exit]
    obtain ⟨js, h1, h2⟩ := fatalGlobals_trace w e _
    exact Or.inl ⟨_, js, _, rfl, h1, h2, Or.inl ⟨rfl, by simp⟩⟩
  | none =>
    simp only [run_pure]
    cases hm : (w.GetDockerImageManifest g.DockerRegistryAuthEndpoint
        g.DockerRegistryAPIEndpoint u p g.inspectionData.DockerNetworkingPlugin
        "plugin".toList).2 with
    | some e =>
      simp only [fatal_exit]
      obtain ⟨js, h1, h2⟩ := fatalGlobals_trace w e _
      refine Or.inl ⟨_, js, _, rfl, ?_, h2, Or.inr (Or.inl ⟨rfl, trivial, by simp⟩)⟩
      rw [h1]
      simp
    | none =>
      simp only [run_pure]
      cases hl : (w.GetDockerImageManifest g.DockerRegistryAuthEndpoint
          g.DockerRegistryAPIEndpoint u p g.inspectionData.DockerNetworkingPlugin
          "plugin".toList).1.Layers with
      | nil =>
        simp only [goPanic]
        exact Or.inr (Or.inl ⟨_, rfl, by simp, trivial, trivial⟩)
      | cons layer0 rest =>
        simp only [run_bind, modifyData, modifyGlobals]
        cases hb : (w.GetDockerPluginConfigBlob g.DockerRegistryAuthEndpoint
            g.DockerRegistryAPIEndpoint u p g.inspectionData.DockerNetworkingPlugin).2 with
        | some e =>
          simp only [fatal_exit]
          obtain ⟨js, h1, h2⟩ := fatalGlobals_trace w e _
          refine Or.inl ⟨_, js, _, rfl, ?_, h2, Or.inr (Or.inr ⟨rfl, trivial, trivial, by simp⟩)⟩
          rw [h1]
          simp
        | none =>
          simp only [run_pure, printSuccess, printStep, modifyGlobals]
          refine Or.inr (Or.inr ⟨_, rfl, trivial, trivial, trivial, ⟨rfl, rfl, rfl, rfl, rfl, rfl, ?_, ?_,
            ?_, rfl, rfl, rfl⟩⟩)
          · simp
          · simp [storedSuccess, boldGreen, useColour]
          · simp

/-! ## The life cycle inside the run -/

theorem createFindings_congr (w : World) {g g1 : Globals} (h : g1.jsonOutput = g.jsonOutput)
    (p : Str) (e : Event) : createFindings w g1 p e = createFindings w g p e := by
  simp [createFindings, commandFinding_congr w h, storedError_congr w h]

theorem deleteFindings_congr (w : World) {g g1 : Globals} (h : g1.jsonOutput = g.jsonOutput)
    (p : Str) (e : Event) : deleteFindings w g1 p e = deleteFindings w g p e := by
  simp [deleteFindings, commandFinding_congr w h, storedError_congr w h]

theorem installTestRemove_exact (w : World) (g : Globals) :
    ∃ swarm probe rm inst g1, InstallPhase w g g1 swarm probe rm inst ∧
      (inst.failed = true → installTestRemove w g = .ok () g1) ∧
      (inst.failed = false → ∃ cleanup create delete remove g2,
        installTestRemove w g = .ok () g2 ∧
        TestPhase w g g1 g2 cleanup create delete remove) := by
  obtain ⟨swarm, probe, rm, inst, g1, h1, hl0, hl1, hl2, hrm1, hrm2, t1⟩ :=
    installDockerNetworkingPlugin_exact w g.inspectionData.DockerNetworkingPlugin g
  refine ⟨swarm, probe, rm, inst, g1, ⟨hl0, hl1, hl2, hrm1, hrm2, t1⟩, ?_, ?_⟩
  · intro hf
    unfold installTestRemove
    rw [run_bind]
    simp only [getGlobals]
    rw [run_bind, h1, hf]
    rfl
  · intro hf
    obtain ⟨cleanup, create, delete, g2, h2, hc0, hc1, hc2, t2⟩ :=
      runNetworkingPluginTest_exact w g.inspectionData.DockerNetworkingPlugin g1
    obtain ⟨g3, h3, t3⟩ := printStep_records g2
    obtain ⟨remove, g4, h4, hc3, t4⟩ :=
      removeDockerNetworkingPlugin_exact w g.inspectionData.DockerNetworkingPlugin g3
    refine ⟨cleanup, create, delete, remove, g4, ?_, ⟨hc0, hc1, hc2, hc3,
      ((t2.records_trans t3).records_trans t4).cast ?_ ?_ ?_ rfl⟩⟩
    · unfold installTestRemove
      rw [run_bind]
      simp only [getGlobals]
      rw [run_bind, h1, hf]
      simp only [Bool.not_false, if_true]
      rw [run_bind, h2]
      simp only
      rw [run_bind, h3]
      simp only
      rw [run_bind, h4]
      rfl
    · simp
    · rw [createFindings_congr w t1.jsonOutput, deleteFindings_congr w t1.jsonOutput]
      simp [removeFinding, commandFinding_congr w ((t1.records_trans t2).records_trans
        t3).jsonOutput]
    · simp

theorem finishes_bind {α β : Type} {m : Run α} {f : α → Run β}
    (hm : m.finishes) (hf : ∀ a, (f a).finishes) : (m >>= f).finishes := by
  constructor
  intro g
  rw [run_bind]
  have h := hm.run g
  cases hmg : m g with
  | ok a g1 => exact (hf a).run g1
  | exit c g1 => rw [hmg] at h; exact h
  | panic g1 => rw [hmg] at h; exact h
  | hang g1 => rw [hmg] at h; exact h

theorem finishes_pure {α : Type} (a : α) : (pure a : Run α).finishes :=
  ⟨fun _ => Or.inl rfl⟩

theorem finishes_osExit {α : Type} : (osExit 1 : Run α).finishes := ⟨fun _ => Or.inr rfl⟩

theorem finishes_getGlobals : getGlobals.finishes := ⟨fun _ => Or.inl rfl⟩

theorem finishes_emit (e : Event) : (emit e).finishes := ⟨fun _ => Or.inl rfl⟩

theorem finishes_modifyData (f : inspectionStruct → inspectionStruct) :
    (modifyData f).finishes := ⟨fun _ => Or.inl rfl⟩

theorem finishes_runCommand (w : World) (command : Str) : (runCommand w command).finishes := by
  constructor
  intro g
  obtain ⟨a, g1, h, -⟩ := (runCommand_returns (fun _ => True) w command (fun _ _ => trivial)).run g
  rw [h]
  exact Or.inl rfl

theorem finishes_generateJSONOutput (w : World) : (generateJSONOutput w).finishes := by
  constructor
  intro g
  unfold generateJSONOutput
  split
  · exact Or.inr rfl
  · exact Or.inl rfl

theorem finishes_generateHTMLReport (w : World) : (generateHTMLReport w).finishes := by
  unfold generateHTMLReport
  repeat' first
    | with_reducible exact finishes_pure _
    | with_reducible exact finishes_osExit
    | with_reducible exact finishes_getGlobals
    | with_reducible exact finishes_emit _
    | with_reducible exact finishes_modifyData _
    | with_reducible exact finishes_runCommand w _
    | with_reducible apply finishes_bind
    | intro _
    | split

theorem finishes_summaryAndReports (w : World) : (summaryAndReports w).finishes := by
  unfold summaryAndReports
  repeat' first
    | with_reducible exact finishes_pure _
    | with_reducible exact finishes_getGlobals
    | with_reducible exact finishes_modifyData _
    | with_reducible exact finishes_generateHTMLReport w
    | with_reducible exact finishes_generateJSONOutput w
    | with_reducible apply finishes_bind
    | intro _
    | split

theorem main_of_stop (w : World) (f : Flags)
    (h : (beforeSummary w f initialGlobals).returned = false) :
    (main w f).globals = (beforeSummary w f initialGlobals).globals ∧
      (main w f).exitStatus = (beforeSummary w f initialGlobals).exitStatus := by
  obtain ⟨h1, h2⟩ := main_eq w f
  have hm : mainBody w f initialGlobals = (beforeSummary w f >>= fun _ =>
      summaryAndReports w) initialGlobals := rfl
  rw [h1, h2, hm, run_bind]
  cases hb : beforeSummary w f initialGlobals with
  | ok a g => rw [hb] at h; exact absurd h (by simp [Res.returned])
  | exit c g => simp [Res.returned]
  | panic g => simp [Res.returned]
  | hang g => simp [Res.returned]

theorem main_after_return (w : World) (f : Flags) (g : Globals)
    (h : beforeSummary w f initialGlobals = .ok () g) : ∃ post, AtEnd w f g post := by
  obtain ⟨h1, h2⟩ := main_eq w f
  have hm : mainBody w f initialGlobals = summaryAndReports w g := by
    unfold mainBody
    rw [run_bind, h]
  rw [hm] at h1 h2
  obtain ⟨hr, -⟩ := summaryAndReports_spec w g
  obtain ⟨post, ht, hp⟩ := hr.trace
  have hmsg : (withScanURL g).inspectionData.Messages = g.inspectionData.Messages := by
    unfold withScanURL
    split <;> rfl
  have herr : (withScanURL g).inspectionData.Errors = g.inspectionData.Errors := by
    unfold withScanURL
    split <;> rfl
  have hwarn : (withScanURL g).inspectionData.Warnings = g.inspectionData.Warnings := by
    unfold withScanURL
    split <;> rfl
  have hcode : (summaryAndReports w g).globals.exitCode = g.exitCode := hr.exitCode
  refine ⟨post, ⟨by rw [h]; rfl, by rw [h1, ht]; rfl, hp, by rw [h1, hr.messages, hmsg],
    by rw [h1, hr.errors, herr], by rw [h1, hr.warnings, hwarn], by rw [h1, hcode],
    by rw [h1, hr.jsonOutput]; rfl, ?_⟩⟩
  rw [h2, hm]
  rcases (finishes_summaryAndReports w).run g with hf | hf
  · right
    rw [hf, hcode]
    exact ⟨rfl, rfl⟩
  · left
    cases hs : summaryAndReports w g with
    | ok a g1 => rw [hs] at hf; exact absurd hf (by simp [Res.exitStatus])
    | exit c g1 => rw [hs] at hf; simpa [Res.returned] using hf
    | panic g1 => rw [hs] at hf; simpa [Res.returned] using hf
    | hang g1 => rw [hs] at hf; simpa [Res.returned] using hf

theorem beforeSummary_lifecycle (w : World) (f : Flags) :
    ((beforeSummary w f initialGlobals).returned = false ∧
      ∀ e ∈ (beforeSummary w f initialGlobals).globals.trace, e.quiet) ∨
    ∃ g, Inspected w f g ∧ beforeSummary w f initialGlobals = installTestRemove w g := by
  rcases beforeSummary_reaches_fetch w f with ⟨h1, h2⟩ | ⟨u, p, g4, hl, hr⟩
  · exact Or.inl ⟨h1, fun e he => (h2 e he).1⟩
  · rw [hr, run_bind]
    rcases fetchMetadata_spec w u p g4 with ⟨fs, js, g1, hx, ht, hj, hfs⟩ | ⟨g1, hx, ht, -⟩ |
      ⟨g1, hx, -, -, -, t⟩
    · rw [hx]
      refine Or.inl ⟨rfl, ?_⟩
      intro e he
      simp only [Res.globals] at he
      rw [ht] at he
      rcases List.mem_append.mp he with h5 | h5
      · rcases List.mem_append.mp h5 with h6 | h6
        · exact (hl.calm e h6).1
        · rcases hfs with ⟨h7, -⟩ | ⟨h7, -⟩ | ⟨h7, -⟩ <;> rw [h7] at h6 <;>
            simp only [List.mem_cons, List.mem_singleton, List.not_mem_nil, or_false] at h6
          · rw [h6]; exact quiet_getDigest _ _ _ _
          · rcases h6 with h6 | h6 <;> rw [h6]
            · exact quiet_getDigest _ _ _ _
            · exact quiet_getManifest _ _ _ _
          · rcases h6 with h6 | h6 | h6 <;> rw [h6]
            · exact quiet_getDigest _ _ _ _
            · exact quiet_getManifest _ _ _ _
            · exact quiet_getConfigBlob _ _ _
      · exact (hj e h5).json_quiet
    · rw [hx]
      refine Or.inl ⟨rfl, ?_⟩
      intro e he
      simp only [Res.globals] at he
      rw [ht] at he
      rcases List.mem_append.mp he with h5 | h5
      · exact (hl.calm e h5).1
      · simp only [List.mem_cons, List.mem_singleton, List.not_mem_nil, or_false] at h5
        rcases h5 with h6 | h6 <;> rw [h6]
        · exact quiet_getDigest _ _ _ _
        · exact quiet_getManifest _ _ _ _
    · rw [hx]
      refine Or.inr ⟨g1, ⟨?_, t.jsonOutput.trans hl.jsonOutput, t.plugin.trans hl.plugin,
        by rw [t.warnings, hl.warnings], ?_⟩, rfl⟩
      · intro e he
        rw [t.trace] at he
        rcases List.mem_append.mp he with h5 | h5
        · exact (hl.calm e h5).1
        · simp only [List.mem_cons, List.mem_singleton, List.not_mem_nil, or_false] at h5
          rcases h5 with h6 | h6 | h6 <;> rw [h6]
          · exact quiet_getDigest _ _ _ _
          · exact quiet_getManifest _ _ _ _
          · exact quiet_getConfigBlob _ _ _
      · intro hc
        obtain ⟨x1, x2, x3⟩ := hl.findings hc
        refine ⟨by rw [t.exitCode]; simpa using x1, by rw [t.errors, x2], ?_⟩
        rw [t.messages, x3, storedSuccess_congr w t.jsonOutput, t.plugin]
        rfl

theorem main_lifecycle (w : World) (f : Flags) :
    (∀ e ∈ (main w f).globals.trace, e.quiet) ∨
    (∃ g swarm probe rm inst g1 post, Inspected w f g ∧
      InstallPhase w g g1 swarm probe rm inst ∧ inst.failed = true ∧ AtEnd w f g1 post) ∨
    (∃ g swarm probe rm inst g1 cleanup create delete remove g2 post, Inspected w f g ∧
      InstallPhase w g g1 swarm probe rm inst ∧ inst.failed = false ∧
      TestPhase w g g1 g2 cleanup create delete remove ∧ AtEnd w f g2 post) := by
  rcases beforeSummary_lifecycle w f with ⟨h1, h2⟩ | ⟨g, hg, hr⟩
  · left
    rw [(main_of_stop w f h1).1]
    exact h2
  · obtain ⟨swarm, probe, rm, inst, g1, hi, hfail, hok⟩ := installTestRemove_exact w g
    cases hf : inst.failed with
    | true =>
      obtain ⟨post, hp⟩ := main_after_return w f g1 (hr.trans (hfail hf))
      exact Or.inr (Or.inl ⟨g, swarm, probe, rm, inst, g1, post, hg, hi, hf, hp⟩)
    | false =>
      obtain ⟨cleanup, create, delete, remove, g2, h2, ht⟩ := hok hf
      obtain ⟨post, hp⟩ := main_after_return w f g2 (hr.trans h2)
      exact Or.inr (Or.inr ⟨g, swarm, probe, rm, inst, g1, cleanup, create, delete, remove, g2,
        post, hg, hi, hf, ht, hp⟩)

/-! ## The run after a successful install -/

theorem Event.isReport.report_classes {e : Event} (h : e.isReport) :
    e.isInstall = false ∧ e.isNetwork = false ∧ e.isPluginRemove = false ∧
      e.isInspect = false := by
  cases e with
  | json d => exact ⟨rfl, rfl, rfl, rfl⟩
  | createFile p => exact ⟨rfl, rfl, rfl, rfl⟩
  | exec cmd args res =>
    exact ⟨hasPrefix_false_of_open _ h _ (by decide), hasPrefix_false_of_open _ h _ (by decide),
      hasPrefix_false_of_open _ h _ (by decide), hasPrefix_false_of_open _ h _ (by decide)⟩
  | _ => exact absurd h (by simp [Event.isReport])

theorem InstallPhase.install_classes {w : World} {g g1 : Globals} {swarm probe inst : Event}
    {rm : Option Event} (h : InstallPhase w g g1 swarm probe rm inst) :
    inst.isInstall = true ∧ inst.isNetwork = false ∧ inst.isInspect = false ∧
      probe.isInspect = true ∧
      (∀ e ∈ [swarm, probe] ++ rm.toList, e.isInstall = false ∧ e.isNetwork = false) ∧
      (∀ e ∈ rm.toList, e.isPluginRemove = true ∧ e.isInspect = false) ∧
      swarm.isInspect = false := by
  have hs := swarm_class swarm h.swarmLine
  have hp := inspect_class probe _ h.probeLine
  have hi := install_class inst _ h.instLine
  have hrm : ∀ e ∈ rm.toList, e.isPluginRemove = true ∧ e.isInstall = false ∧
      e.isNetwork = false ∧ e.isInspect = false := by
    intro e he
    cases hf : probe.failed with
    | true =>
      rw [h.notInstalled hf] at he
      exact absurd he (by simp)
    | false =>
      obtain ⟨x, hx, hl⟩ := h.installed hf
      rw [hx] at he
      simp only [Option.toList_some, List.mem_singleton] at he
      rw [he]
      exact pluginRemove_class x _ hl
  refine ⟨hi.1, hi.2.2.1, hi.2.1, hp.1, ?_, fun e he => ⟨(hrm e he).1, (hrm e he).2.2.2⟩,
    hs.2.2.2⟩
  intro e he
  rcases List.mem_append.mp he with h1 | h1
  · simp only [List.mem_cons, List.mem_singleton, List.not_mem_nil, or_false] at h1
    rcases h1 with h1 | h1 <;> rw [h1]
    · exact ⟨hs.1, hs.2.1⟩
    · exact ⟨hp.2.1, hp.2.2.1⟩
  · exact ⟨(hrm e h1).2.1, (hrm e h1).2.2.1⟩

theorem TestPhase.test_classes {w : World} {g g1 g2 : Globals} {cleanup create delete remove : Event}
    (h : TestPhase w g g1 g2 cleanup create delete remove) :
    cleanup.isNetworkRemove = true ∧ create.isNetworkCreate = true ∧
      delete.isNetworkRemove = true ∧ remove.isPluginRemove = true ∧
      create.isNetwork = true ∧ delete.isNetwork = true ∧
      (∀ e ∈ [cleanup, .sleep, create] ++ settleAfter create ++ [.sleep, delete, remove],
        e.isInstall = false ∧ e.isInspect = false) := by
  have hc := networkRemove_class cleanup h.cleanupLine
  have hk := networkCreate_class create _ h.createLine
  have hd := networkRemove_class delete h.deleteLine
  have hr := pluginRemove_class remove _ h.removeLine
  have hkn : create.isNetwork = true := by
    have he2 : create.commandLine = TrimSpace ("docker network create".toList ++
        (" --driver=".toList ++ g.inspectionData.DockerNetworkingPlugin ++ " ".toList ++
          testNetworkName)) := by
      rw [h.createLine]
      simp
    exact commandLine_hasPrefix_true create "docker network create".toList _ _ (by decide)
      (by decide) (by decide) (by decide) he2
  have hdn : delete.isNetwork = true := by
    unfold Event.isNetwork
    rw [h.deleteLine]
    decide
  refine ⟨hc.1, hk.1, hd.1, hr.1, hkn, hdn, ?_⟩
  intro e he
  have hsleep : Event.sleep.isInstall = false ∧ Event.sleep.isInspect = false := ⟨rfl, rfl⟩
  rcases List.mem_append.mp he with h1 | h1
  · rcases List.mem_append.mp h1 with h2 | h2
    · simp only [List.mem_cons, List.mem_singleton, List.not_mem_nil, or_false] at h2
      rcases h2 with h2 | h2 | h2 <;> rw [h2]
      · exact ⟨hc.2.2.1, hc.2.2.2.2⟩
      · exact hsleep
      · exact ⟨hk.2.2.1, hk.2.2.2.2⟩
    · unfold settleAfter at h2
      split at h2
      · exact absurd h2 (by simp)
      · simp only [List.mem_singleton] at h2
        rw [h2]
        exact hsleep
  · simp only [List.mem_cons, List.mem_singleton, List.not_mem_nil, or_false] at h1
    rcases h1 with h2 | h2 | h2 <;> rw [h2]
    · exact hsleep
    · exact ⟨hd.2.2.1, hd.2.2.2.2⟩
    · exact ⟨hr.2.1, hr.2.2.2⟩

/-- C15, as the claim states it, fails: in a run on a host without the plugin where
every command other than the probe succeeds, so that the install succeeds, the command
`docker network rm` is run twice, not once. -/
theorem network_delete_command_runs_twice :
    (∃ e ∈ (main (sampleWorldFailing "docker plugin inspect".toList)
        (sampleFlags "acme/netplug:1.0".toList)).globals.trace,
      e.isInstall = true ∧ e.failed = false) ∧
    ((main (sampleWorldFailing "docker plugin inspect".toList)
      (sampleFlags "acme/netplug:1.0".toList)).globals.trace.filter
        Event.isNetworkRemove).length = 2 := by
  decide

/-- C15, as the program has it. In every run in which an install command succeeds, the
events after that command are, whatever the outcomes of the commands: the command
`docker network rm` (the cleanup before the create step), a pause, the network create
command, a pause when it succeeded, a pause, the command `docker network rm` (the delete
step), the plugin force-remove command, and then report events only.  Neither an install
nor a network command precedes the install command.  So after the create command the
network-delete command and then the force-remove command are each run exactly once.  The
part of `main` before the summary returns, and the exit status is 1 when the create, the
delete (step) or the plugin remove command failed. -/
theorem successful_install_is_tested_and_removed (w : World) (f : Flags)
    (h : ∃ e ∈ (main w f).globals.trace, e.isInstall = true ∧ e.failed = false) :
    ∃ pre inst cleanup create delete remove post,
      (main w f).globals.trace = pre ++ [inst, cleanup, .sleep, create] ++ settleAfter create ++
        [.sleep, delete, remove] ++ post ∧
      (∀ e ∈ pre, e.isInstall = false ∧ e.isNetwork = false) ∧
      inst.isInstall = true ∧ inst.failed = false ∧
      cleanup.isNetworkRemove = true ∧ create.isNetworkCreate = true ∧
      delete.isNetworkRemove = true ∧ remove.isPluginRemove = true ∧
      (∀ e ∈ post, e.isReport ∧ e.isNetwork = false ∧ e.isPluginRemove = false) ∧
      (beforeSummary w f initialGlobals).returned = true ∧
      ((create.failed = true ∨ delete.failed = true ∨ remove.failed = true) →
        (main w f).exitStatus = some 1) := by
  obtain ⟨e, he, hc1, hc2⟩ := h
  rcases main_lifecycle w f with h1 |
    ⟨g, swarm, probe, rm, inst, g1, post, hg, hi, hf, hend⟩ |
    ⟨g, swarm, probe, rm, inst, g1, cleanup, create, delete, remove, g2, post, hg, hi, hf, ht,
      hend⟩
  · rw [(h1 e he).1] at hc1
    exact absurd hc1 (by simp)
  · exfalso
    obtain ⟨-, -, -, -, hpre, -, -⟩ := hi.install_classes
    rw [hend.trace, hi.records.trace] at he
    rcases List.mem_append.mp he with h2 | h2
    · rcases List.mem_append.mp h2 with h3 | h3
      · rw [(hg.quiet e h3).1] at hc1
        exact absurd hc1 (by simp)
      · rcases List.mem_append.mp h3 with h4 | h4
        · rw [(hpre e h4).1] at hc1
          exact absurd hc1 (by simp)
        · simp only [List.mem_singleton] at h4
          rw [h4, hf] at hc2
          exact absurd hc2 (by simp)
    · rw [(hend.reports e h2).report_classes.1] at hc1
      exact absurd hc1 (by simp)
  · obtain ⟨hi1, -, -, -, hpre, -, -⟩ := hi.install_classes
    obtain ⟨hc, hk, hd, hr, -, -, -⟩ := ht.test_classes
    refine ⟨g.trace ++ ([swarm, probe] ++ rm.toList), inst, cleanup, create, delete, remove,
      post, ?_, ?_, hi1, hf, hc, hk, hd, hr, ?_, hend.reached, ?_⟩
    · rw [hend.trace, ht.records.trace, hi.records.trace]
      simp [List.append_assoc]
    · intro x hx
      rcases List.mem_append.mp hx with h3 | h3
      · exact hg.quiet x h3
      · exact hpre x h3
    · intro x hx
      have := (hend.reports x hx).report_classes
      exact ⟨hend.reports x hx, this.2.1, this.2.2.1⟩
    · intro hfail
      have hcode : g2.exitCode = 1 := by
        rw [ht.records.exitCode]
        have : 2 * create.errorCount + 2 * delete.errorCount + remove.errorCount ≠ 0 := by
          unfold Event.errorCount
          rcases hfail with h5 | h5 | h5 <;> rw [h5] <;> simp
        simp [this]
      rcases hend.status with h6 | ⟨-, h6⟩
      · exact h6
      · rw [h6, hcode]

theorem successful_install_is_tested_and_removed_witness :
    (∃ e ∈ (main (sampleWorldFailing "docker network create".toList)
        (sampleFlags "acme/netplug:1.0".toList)).globals.trace,
      e.isInstall = true ∧ e.failed = false) ∧
    ∃ pre inst cleanup create delete remove post,
      (main (sampleWorldFailing "docker network create".toList)
        (sampleFlags "acme/netplug:1.0".toList)).globals.trace
        = pre ++ [inst, cleanup, .sleep, create] ++ settleAfter create ++
          [.sleep, delete, remove] ++ post ∧
      (∀ e ∈ pre, e.isInstall = false ∧ e.isNetwork = false) ∧
      inst.isInstall = true ∧ inst.failed = false ∧
      cleanup.isNetworkRemove = true ∧ create.isNetworkCreate = true ∧
      delete.isNetworkRemove = true ∧ remove.isPluginRemove = true ∧
      (∀ e ∈ post, e.isReport ∧ e.isNetwork = false ∧ e.isPluginRemove = false) ∧
      (beforeSummary (sampleWorldFailing "docker network create".toList)
        (sampleFlags "acme/netplug:1.0".toList) initialGlobals).returned = true ∧
      ((create.failed = true ∨ delete.failed = true ∨ remove.failed = true) →
        (main (sampleWorldFailing "docker network create".toList)
          (sampleFlags "acme/netplug:1.0".toList)).exitStatus = some 1) :=
  ⟨by decide, successful_install_is_tested_and_removed
    (sampleWorldFailing "docker network create".toList)
    (sampleFlags "acme/netplug:1.0".toList) (by decide)⟩

/-! ## End to end: a failed install and a clean run -/

theorem InstallPhase.probe_mem {w : World} {g g1 : Globals} {swarm probe inst : Event}
    {rm : Option Event} (h : InstallPhase w g g1 swarm probe rm inst) :
    probe ∈ g1.trace ∧ inst ∈ g1.trace := by
  rw [h.records.trace]
  constructor <;> simp

/-- C16, as the claim states it, fails: on a host where the plugin is found installed and
the install command fails, the run records, besides the install error, the warning and
the finding `Docker network plugin acme/netplug:1.0 was removed.` of the removal. -/
theorem failed_install_after_removal_records_removal_finding :
    (∃ e ∈ (main (sampleWorldFailing "docker plugin install".toList)
        (sampleFlags "acme/netplug:1.0".toList)).globals.trace,
      e.isInstall = true ∧ e.failed = true) ∧
    (∃ e ∈ (main (sampleWorldFailing "docker plugin install".toList)
        (sampleFlags "acme/netplug:1.0".toList)).globals.trace, e.isFetch = true) ∧
    (main (sampleWorldFailing "docker plugin install".toList)
      (sampleFlags "acme/netplug:1.0".toList)).globals.inspectionData.Messages.length = 4 ∧
    (main (sampleWorldFailing "docker plugin install".toList)
      (sampleFlags "acme/netplug:1.0".toList)).globals.inspectionData.Messages[2]?
      = some (storedSuccess (sampleWorldFailing "docker plugin install".toList)
          (main (sampleWorldFailing "docker plugin install".toList)
            (sampleFlags "acme/netplug:1.0".toList)).globals
          "Docker network plugin acme/netplug:1.0 was removed.".toList) := by
  decide

/-- C16, as the program has it. In every run with the password given by flag or
environment in which the inspect probe fails (the plugin is not installed) and the
install command fails, the findings recorded are exactly the Success that the plugin
was inspected and the Error `Unable to install the Docker Networking Plugin!, ` with the
failure text of the install command: one Error, nothing about the network test or the
removal of the plugin; and the exit status is 1. -/
theorem failed_install_of_absent_plugin_records_one_error (w : World) (f : Flags)
    (hpw : passwordGiven w f)
    (hprobe : ∀ e ∈ (main w f).globals.trace, e.isInspect = true → e.failed = true)
    (hinst : ∃ e ∈ (main w f).globals.trace, e.isInstall = true ∧ e.failed = true) :
    ∃ inst ∈ (main w f).globals.trace, inst.isInstall = true ∧ inst.failed = true ∧
      (main w f).globals.inspectionData.Messages =
        [storedSuccess w (main w f).globals ("Docker Networking Plugin image ".toList ++
            sanitize (f.args.headD []) ++ " has been inspected.".toList),
          storedError w (main w f).globals
            ("Unable to install the Docker Networking Plugin!".toList ++ ", ".toList ++
              inst.failureText)] ∧
      (main w f).globals.inspectionData.Errors = 1 ∧
      (main w f).exitStatus = some 1 := by
  obtain ⟨e, he, hc1, hc2⟩ := hinst
  rcases main_lifecycle w f with h1 |
    ⟨g, swarm, probe, rm, inst, g1, post, hg, hi, hf, hend⟩ |
    ⟨g, swarm, probe, rm, inst, g1, cleanup, create, delete, remove, g2, post, hg, hi, hf, ht,
      hend⟩
  · rw [(h1 e he).1] at hc1
    exact absurd hc1 (by simp)
  · obtain ⟨hi1, -, -, hp1, -, -, -⟩ := hi.install_classes
    have hmem : ∀ x ∈ g1.trace, x ∈ (main w f).globals.trace := by
      intro x hx
      rw [hend.trace]
      exact List.mem_append_left _ hx
    have hpf : probe.failed = true := hprobe probe (hmem _ hi.probe_mem.1) hp1
    have hrm : rm = none := hi.notInstalled hpf
    obtain ⟨x1, x2, x3⟩ := hg.findings hpw
    have hj : (main w f).globals.jsonOutput = g.jsonOutput :=
      hend.jsonOutput.trans hi.records.jsonOutput
    refine ⟨inst, hmem _ hi.probe_mem.2, hi1, hf, ?_, ?_, ?_⟩
    · rw [hend.messages, hi.records.messages, x3, hrm, storedSuccess_congr w hj,
        storedError_congr w hj, hg.plugin]
      simp [cleanFindings, installFinding, commandFinding, hf]
    · rw [hend.errors, hi.records.errors, x2, hrm]
      simp [cleanErrors, Event.errorCount, hf]
    · have hcode : g1.exitCode = 1 := by
        rw [hi.records.exitCode]
        simp [Event.errorCount, hf]
      rcases hend.status with h6 | ⟨-, h6⟩
      · exact h6
      · rw [h6, hcode]
  · exfalso
    obtain ⟨-, -, -, -, hpre, -, -⟩ := hi.install_classes
    obtain ⟨-, -, -, -, -, -, htest⟩ := ht.test_classes
    rw [hend.trace, ht.records.trace, hi.records.trace] at he
    rcases List.mem_append.mp he with h2 | h2
    · rcases List.mem_append.mp h2 with h3 | h3
      · rcases List.mem_append.mp h3 with h4 | h4
        · rw [(hg.quiet e h4).1] at hc1
          exact absurd hc1 (by simp)
        · rcases List.mem_append.mp h4 with h5 | h5
          · rw [(hpre e h5).1] at hc1
            exact absurd hc1 (by simp)
          · simp only [List.mem_singleton] at h5
            rw [h5, hf] at hc2
            exact absurd hc2 (by simp)
      · rw [(htest e h3).1] at hc1
        exact absurd hc1 (by simp)
    · rw [(hend.reports e h2).report_classes.1] at hc1
      exact absurd hc1 (by simp)

theorem failed_install_of_absent_plugin_records_one_error_witness :
    passwordGiven (sampleWorldFailing "docker plugin ins".toList)
      (sampleFlags "acme/netplug:1.0".toList) ∧
    (∀ e ∈ (main (sampleWorldFailing "docker plugin ins".toList)
        (sampleFlags "acme/netplug:1.0".toList)).globals.trace,
      e.isInspect = true → e.failed = true) ∧
    (∃ e ∈ (main (sampleWorldFailing "docker plugin ins".toList)
        (sampleFlags "acme/netplug:1.0".toList)).globals.trace,
      e.isInstall = true ∧ e.failed = true) ∧
    ∃ inst ∈ (main (sampleWorldFailing "docker plugin ins".toList)
        (sampleFlags "acme/netplug:1.0".toList)).globals.trace,
      inst.isInstall = true ∧ inst.failed = true ∧
      (main (sampleWorldFailing "docker plugin ins".toList)
        (sampleFlags "acme/netplug:1.0".toList)).globals.inspectionData.Messages =
        [storedSuccess (sampleWorldFailing "docker plugin ins".toList)
            (main (sampleWorldFailing "docker plugin ins".toList)
              (sampleFlags "acme/netplug:1.0".toList)).globals
            ("Docker Networking Plugin image ".toList ++
              sanitize ((sampleFlags "acme/netplug:1.0".toList).args.headD []) ++
              " has been inspected.".toList),
          storedError (sampleWorldFailing "docker plugin ins".toList)
            (main (sampleWorldFailing "docker plugin ins".toList)
              (sampleFlags "acme/netplug:1.0".toList)).globals
            ("Unable to install the Docker Networking Plugin!".toList ++ ", ".toList ++
              inst.failureText)] ∧
      (main (sampleWorldFailing "docker plugin ins".toList)
        (sampleFlags "acme/netplug:1.0".toList)).globals.inspectionData.Errors = 1 ∧
      (main (sampleWorldFailing "docker plugin ins".toList)
        (sampleFlags "acme/netplug:1.0".toList)).exitStatus = some 1 :=
  ⟨Or.inl (by decide), by decide, by decide,
    failed_install_of_absent_plugin_records_one_error
      (sampleWorldFailing "docker plugin ins".toList) (sampleFlags "acme/netplug:1.0".toList)
      (Or.inl (by decide)) (by decide) (by decide)⟩

/-- C17, as the program has it. In every run with the password given by flag or
environment that reaches the final `os.Exit` of `main` (a report that was asked for is
written), in which the inspect probe fails (the plugin is not installed),
an install command succeeds, and the network create command, the `docker network rm`
command after it and the plugin remove command succeed, the findings recorded are exactly
five Success findings, in this order: the plugin was inspected, it was installed, the
network was created, the network was removed, the plugin was removed; no Error and no
Warning is counted and the exit status is 0.  (An install command is run only after
login and the three registry fetches succeeded on a valid reference.) -/
theorem clean_run_records_five_successes (w : World) (f : Flags)
    (hpw : passwordGiven w f)
    (hend : (mainBody w f initialGlobals).returned = true)
    (hprobe : ∀ e ∈ (main w f).globals.trace, e.isInspect = true → e.failed = true)
    (hinst : ∃ e ∈ (main w f).globals.trace, e.isInstall = true ∧ e.failed = false)
    (hcreate : ∀ e ∈ (main w f).globals.trace, e.isNetworkCreate = true → e.failed = false)
    (hdelete : ∀ pre e post, (main w f).globals.trace = pre ++ e :: post →
      (∃ c ∈ pre, c.isNetworkCreate = true) → e.isNetworkRemove = true → e.failed = false)
    (hremove : ∀ e ∈ (main w f).globals.trace, e.isPluginRemove = true → e.failed = false) :
    (main w f).globals.inspectionData.Messages =
      [storedSuccess w (main w f).globals ("Docker Networking Plugin image ".toList ++
          sanitize (f.args.headD []) ++ " has been inspected.".toList),
        storedSuccess w (main w f).globals ("Docker networking plugin ".toList ++
          sanitize (f.args.headD []) ++ " has been installed successfully.".toList),
        storedSuccess w (main w f).globals ("Docker network was created using plugin ".toList ++
          sanitize (f.args.headD [])),
        storedSuccess w (main w f).globals ("Docker network was removed using plugin ".toList ++
          sanitize (f.args.headD [])),
        storedSuccess w (main w f).globals ("Docker network plugin ".toList ++
          sanitize (f.args.headD []) ++ " was removed.".toList)] ∧
    (main w f).globals.inspectionData.Errors = 0 ∧
    (main w f).globals.inspectionData.Warnings = 0 ∧
    (main w f).exitStatus = some 0 := by
  obtain ⟨e, he, hc1, hc2⟩ := hinst
  rcases main_lifecycle w f with h1 |
    ⟨g, swarm, probe, rm, inst, g1, post, hg, hi, hf, hend0⟩ |
    ⟨g, swarm, probe, rm, inst, g1, cleanup, create, delete, remove, g2, post, hg, hi, hf, ht,
      hend0⟩
  · rw [(h1 e he).1] at hc1
    exact absurd hc1 (by simp)
  · exfalso
    obtain ⟨-, -, -, -, hpre, -, -⟩ := hi.install_classes
    rw [hend0.trace, hi.records.trace] at he
    rcases List.mem_append.mp he with h2 | h2
    · rcases List.mem_append.mp h2 with h3 | h3
      · rw [(hg.quiet e h3).1] at hc1
        exact absurd hc1 (by simp)
      · rcases List.mem_append.mp h3 with h4 | h4
        · rw [(hpre e h4).1] at hc1
          exact absurd hc1 (by simp)
        · simp only [List.mem_singleton] at h4
          rw [h4, hf] at hc2
          exact absurd hc2 (by simp)
    · rw [(hend0.reports e h2).report_classes.1] at hc1
      exact absurd hc1 (by simp)
  · obtain ⟨-, -, -, hp1, -, -, -⟩ := hi.install_classes
    obtain ⟨-, hk, hd, hr, -, -, -⟩ := ht.test_classes
    have htrace : (main w f).globals.trace = g.trace ++ ([swarm, probe] ++ rm.toList ++ [inst]) ++
        ([cleanup, .sleep, create] ++ settleAfter create ++ [.sleep, delete, remove]) ++
        post := by
      rw [hend0.trace, ht.records.trace, hi.records.trace]
    have hpf : probe.failed = true := hprobe probe (by rw [htrace]; simp) hp1
    have hrm : rm = none := hi.notInstalled hpf
    have hkf : create.failed = false := hcreate create (by rw [htrace]; simp) hk
    have hrf : remove.failed = false := hremove remove (by rw [htrace]; simp) hr
    have hdf : delete.failed = false := by
      refine hdelete (g.trace ++ ([swarm, probe] ++ rm.toList ++ [inst]) ++
        ([cleanup, .sleep, create] ++ settleAfter create ++ [.sleep])) delete (remove :: post)
        ?_ ⟨create, by simp, hk⟩ hd
      rw [htrace]
      simp [List.append_assoc]
    obtain ⟨x1, x2, x3⟩ := hg.findings hpw
    have hj1 : g1.jsonOutput = g.jsonOutput := hi.records.jsonOutput
    have hj : (main w f).globals.jsonOutput = g.jsonOutput :=
      hend0.jsonOutput.trans (ht.records.jsonOutput.trans hj1)
    refine ⟨?_, ?_, ?_, ?_⟩
    · rw [hend0.messages, ht.records.messages, hi.records.messages, x3, hrm]
      simp only [storedSuccess_congr w hj, ← hg.plugin]
      simp [cleanFindings, installFinding, createFindings, deleteFindings, removeFinding,
        commandFinding, hf, hkf, hdf, hrf]
    · rw [hend0.errors, ht.records.errors, hi.records.errors, x2, hrm]
      simp [cleanErrors, Event.errorCount, hf, hkf, hdf, hrf]
    · rw [hend0.warnings, ht.records.warnings, hi.records.warnings, hg.warnings, hrm]
      rfl
    · have hcode : g2.exitCode = 0 := by
        rw [ht.records.exitCode, hi.records.exitCode, x1, hrm]
        simp [cleanErrors, Event.errorCount, hf, hkf, hdf, hrf]
      rw [(main_eq w f).2, hend, if_pos rfl, ← (main_eq w f).1, hend0.exitCode, hcode]

theorem clean_run_records_five_successes_witness :
    passwordGiven (sampleWorldFailing "docker plugin inspect".toList) (sampleFlags "acme/netplug:1.0".toList) ∧
    (mainBody (sampleWorldFailing "docker plugin inspect".toList) (sampleFlags "acme/netplug:1.0".toList) initialGlobals).returned = true ∧
    (∃ e ∈ (main (sampleWorldFailing "docker plugin inspect".toList) (sampleFlags "acme/netplug:1.0".toList)).globals.trace, e.isInstall = true ∧ e.failed = false) ∧
    (main (sampleWorldFailing "docker plugin inspect".toList) (sampleFlags "acme/netplug:1.0".toList)).globals.inspectionData.Messages =
      [storedSuccess (sampleWorldFailing "docker plugin inspect".toList) (main (sampleWorldFailing "docker plugin inspect".toList) (sampleFlags "acme/netplug:1.0".toList)).globals ("Docker Networking Plugin image ".toList ++
          "acme/netplug:1.0".toList ++ " has been inspected.".toList),
        storedSuccess (sampleWorldFailing "docker plugin inspect".toList) (main (sampleWorldFailing "docker plugin inspect".toList) (sampleFlags "acme/netplug:1.0".toList)).globals ("Docker networking plugin ".toList ++
          "acme/netplug:1.0".toList ++ " has been installed successfully.".toList),
        storedSuccess (sampleWorldFailing "docker plugin inspect".toList) (main (sampleWorldFailing "docker plugin inspect".toList) (sampleFlags "acme/netplug:1.0".toList)).globals ("Docker network was created using plugin ".toList ++
          "acme/netplug:1.0".toList),
        storedSuccess (sampleWorldFailing "docker plugin inspect".toList) (main (sampleWorldFailing "docker plugin inspect".toList) (sampleFlags "acme/netplug:1.0".toList)).globals ("Docker network was removed using plugin ".toList ++
          "acme/netplug:1.0".toList),
        storedSuccess (sampleWorldFailing "docker plugin inspect".toList) (main (sampleWorldFailing "docker plugin inspect".toList) (sampleFlags "acme/netplug:1.0".toList)).globals ("Docker network plugin ".toList ++
          "acme/netplug:1.0".toList ++ " was removed.".toList)] ∧
    (main (sampleWorldFailing "docker plugin inspect".toList) (sampleFlags "acme/netplug:1.0".toList)).globals.inspectionData.Errors = 0 ∧
    (main (sampleWorldFailing "docker plugin inspect".toList) (sampleFlags "acme/netplug:1.0".toList)).globals.inspectionData.Warnings = 0 ∧
    (main (sampleWorldFailing "docker plugin inspect".toList) (sampleFlags "acme/netplug:1.0".toList)).exitStatus = some 0 := by
  have hall : ∀ e ∈ (main (sampleWorldFailing "docker plugin inspect".toList) (sampleFlags "acme/netplug:1.0".toList)).globals.trace, e.isNetworkRemove = true → e.failed = false := by decide
  have hs : sanitize (((sampleFlags "acme/netplug:1.0".toList)).args.headD []) = "acme/netplug:1.0".toList := by decide
  have h := clean_run_records_five_successes (sampleWorldFailing "docker plugin inspect".toList) (sampleFlags "acme/netplug:1.0".toList)
    (Or.inl (by decide)) (by decide) (by decide) (by decide) (by decide)
    (fun pre e post h _ hr => hall e (by rw [h]; simp) hr) (by decide)
  rw [hs] at h
  exact ⟨Or.inl (by decide), by decide, by decide, h⟩

/-! ## A failed registry fetch -/

theorem fetchFailed_of_not_fetch (w : World) (f : Flags) (e : Event) (h : e.isFetch = false) :
    e.fetchFailed w f = false := by
  cases e <;> first | rfl | exact absurd h (by simp [Event.isFetch])

theorem isFetch_of_line (e : Event) (h : e.commandLine ≠ []) : e.isFetch = false := by
  cases e with
  | exec cmd args res => rfl
  | _ => exact absurd rfl h

theorem Event.isReport.report_not_fetch {e : Event} (h : e.isReport) : e.isFetch = false := by
  cases e with
  | json d => rfl
  | createFile p => rfl
  | exec cmd args res => rfl
  | _ => exact absurd h (by simp [Event.isReport])

theorem line_nonempty (e : Event) (q : Str) (hq : q ≠ [])
    (h : HasPrefix e.commandLine q = true) : e.commandLine ≠ [] := by
  intro h0
  rw [h0] at h
  cases q with
  | nil => exact hq rfl
  | cons c cs => simp [HasPrefix, List.isPrefixOf] at h

theorem InstallPhase.install_not_fetch {w : World} {g g1 : Globals} {swarm probe inst : Event}
    {rm : Option Event} (h : InstallPhase w g g1 swarm probe rm inst) :
    ∀ e ∈ [swarm, probe] ++ rm.toList ++ [inst], e.isFetch = false := by
  obtain ⟨h1, -, -, h2, -, h3, -⟩ := h.install_classes
  intro e he
  apply isFetch_of_line
  rcases List.mem_append.mp he with h4 | h4
  · rcases List.mem_append.mp h4 with h5 | h5
    · simp only [List.mem_cons, List.mem_singleton, List.not_mem_nil, or_false] at h5
      rcases h5 with h5 | h5 <;> rw [h5]
      · rw [h.swarmLine]; decide
      · exact line_nonempty _ _ (by decide) h2
    · exact line_nonempty _ _ (by decide) (h3 e h5).1
  · simp only [List.mem_singleton] at h4
    rw [h4]
    exact line_nonempty _ _ (by decide) h1

theorem TestPhase.test_not_fetch {w : World} {g g1 g2 : Globals}
    {cleanup create delete remove : Event}
    (h : TestPhase w g g1 g2 cleanup create delete remove) :
    ∀ e ∈ [cleanup, .sleep, create] ++ settleAfter create ++ [.sleep, delete, remove],
      e.isFetch = false := by
  obtain ⟨h1, h2, h3, h4, -, -, -⟩ := h.test_classes
  intro e he
  rcases List.mem_append.mp he with h5 | h5
  · rcases List.mem_append.mp h5 with h6 | h6
    · simp only [List.mem_cons, List.mem_singleton, List.not_mem_nil, or_false] at h6
      rcases h6 with h6 | h6 | h6 <;> rw [h6]
      · exact isFetch_of_line _ (line_nonempty _ _ (by decide) h1)
      · rfl
      · exact isFetch_of_line _ (line_nonempty _ _ (by decide) h2)
    · unfold settleAfter at h6
      split at h6
      · exact absurd h6 (by simp)
      · simp only [List.mem_singleton] at h6
        rw [h6]
        rfl
  · simp only [List.mem_cons, List.mem_singleton, List.not_mem_nil, or_false] at h5
    rcases h5 with h6 | h6 | h6 <;> rw [h6]
    · rfl
    · exact isFetch_of_line _ (line_nonempty _ _ (by decide) h3)
    · exact isFetch_of_line _ (line_nonempty _ _ (by decide) h4)

theorem fetchFailed_of_none (w : World) (f : Flags) (e : Event)
    (h : e.fetchError w (effectiveAuthEndpoint w f) (effectiveAPIEndpoint w f) = none) :
    e.fetchFailed w f = false := by
  unfold Event.fetchFailed
  rw [h]
  rfl

theorem fetch_stop_shape (w : World) (f : Flags) (T pre fs js : List Event) (d m b : Event)
    (hT : T = pre ++ fs ++ js) (hpre : ∀ x ∈ pre, x.calm) (hjs : ∀ x ∈ js, x.isJson)
    (hd : d.isFetch = true) (hm : m.isFetch = true) (hb : b.isFetch = true)
    (hfs : (fs = [d] ∧ d.fetchFailed w f = true) ∨
      (fs = [d, m] ∧ d.fetchFailed w f = false ∧ m.fetchFailed w f = true) ∨
      (fs = [d, m, b] ∧ d.fetchFailed w f = false ∧ m.fetchFailed w f = false ∧
        b.fetchFailed w f = true)) :
    ∃ pre1 e post, T = pre1 ++ e :: post ∧ e.fetchFailed w f = true ∧
      (∀ x ∈ post, x.isJson) ∧ (∀ x ∈ pre1, x.fetchFailed w f = false) ∧
      T.filter Event.isFetch <+: [d, m, b] ∧
      (T.filter Event.isFetch).getLast? = some e := by
  have hfpre : pre.filter Event.isFetch = [] :=
    List.filter_eq_nil_iff.mpr (fun x hx => by simp [(hpre x hx).2])
  have hfjs : js.filter Event.isFetch = [] :=
    List.filter_eq_nil_iff.mpr (fun x hx => by simp [(hjs x hx).json_not_login_fetch.2])
  have hcalm : ∀ x ∈ pre, x.fetchFailed w f = false :=
    fun x hx => fetchFailed_of_not_fetch w f x (hpre x hx).2
  have hfilter : T.filter Event.isFetch = fs.filter Event.isFetch := by
    rw [hT, List.filter_append, List.filter_append, hfpre, hfjs]
    simp
  rw [hfilter]
  rcases hfs with ⟨h1, h2⟩ | ⟨h1, h2, h3⟩ | ⟨h1, h2, h3, h4⟩
  · refine ⟨pre, d, js, by rw [hT, h1]; simp, h2, hjs, hcalm, ?_, ?_⟩
    · rw [h1]
      simp only [List.filter, hd]
      exact ⟨[m, b], rfl⟩
    · rw [h1]
      simp [List.filter, hd]
  · refine ⟨pre ++ [d], m, js, by rw [hT, h1]; simp, h3, hjs, ?_, ?_, ?_⟩
    · intro x hx
      rcases List.mem_append.mp hx with h5 | h5
      · exact hcalm x h5
      · simp only [List.mem_singleton] at h5
        rw [h5]
        exact h2
    · rw [h1]
      simp only [List.filter, hd, hm]
      exact ⟨[b], rfl⟩
    · rw [h1]
      simp [List.filter, hd, hm]
  · refine ⟨pre ++ [d, m], b, js, by rw [hT, h1]; simp, h4, hjs, ?_, ?_, ?_⟩
    · intro x hx
      rcases List.mem_append.mp hx with h5 | h5
      · exact hcalm x h5
      · simp only [List.mem_cons, List.mem_singleton, List.not_mem_nil, or_false] at h5
        rcases h5 with h5 | h5 <;> rw [h5]
        · exact h2
        · exact h3
    · rw [h1]
      simp only [List.filter, hd, hm, hb]
      exact ⟨[], by simp⟩
    · rw [h1]
      simp [List.filter, hd, hm, hb]

/-- C20. In every run in which a registry fetch (digest, manifest or configuration blob)
returns an error, the process ends with exit status 1; the failed fetch is the last
fetch of the run and after it only the JSON document of the logged error is written; no
fetch before it failed; the fetches of the run are an initial part of the sequence
digest, manifest, configuration blob, so each is called at most once; and no install and
no network command is run. -/
theorem failed_fetch_ends_run (w : World) (f : Flags)
    (h : ∃ e ∈ (main w f).globals.trace, e.fetchFailed w f = true) :
    (main w f).exitStatus = some 1 ∧
    (∀ x ∈ (main w f).globals.trace, x.isInstall = false ∧ x.isNetwork = false) ∧
    ∃ u p pre e post, (main w f).globals.trace = pre ++ e :: post ∧
      e.fetchFailed w f = true ∧
      (∀ x ∈ post, x.isJson) ∧ (∀ x ∈ pre, x.fetchFailed w f = false) ∧
      (main w f).globals.trace.filter Event.isFetch <+:
        [.getDigest u p (sanitize (f.args.headD [])) "plugin".toList,
          .getManifest u p (sanitize (f.args.headD [])) "plugin".toList,
          .getConfigBlob u p (sanitize (f.args.headD []))] ∧
      ((main w f).globals.trace.filter Event.isFetch).getLast? = some e := by
  obtain ⟨e, he, hc⟩ := h
  rcases beforeSummary_reaches_fetch w f with ⟨h1, h2⟩ | ⟨u, p, g4, hl, hr⟩
  · exfalso
    rw [(main_of_stop w f h1).1] at he
    rw [fetchFailed_of_not_fetch w f e (h2 e he).2] at hc
    exact absurd hc (by simp)
  · have hspec := fetchMetadata_spec w u p g4
    unfold FetchOutcome at hspec
    simp only [hl.authEndpoint, hl.apiEndpoint, hl.plugin] at hspec
    rw [run_bind] at hr
    rcases hspec with ⟨fs, js, g1, hx, ht, hj, hfs⟩ | ⟨g1, hx, ht, hd, hm⟩ |
      ⟨g1, hx, hd, hm, hb, t⟩
    · rw [hx] at hr
      have hstop := main_of_stop w f (by rw [hr]; rfl)
      rw [hr] at hstop
      have hfs2 : (fs = [.getDigest u p (sanitize (f.args.headD [])) "plugin".toList] ∧
            (Event.getDigest u p (sanitize (f.args.headD []))
              "plugin".toList).fetchFailed w f = true) ∨
          (fs = [.getDigest u p (sanitize (f.args.headD [])) "plugin".toList,
              .getManifest u p (sanitize (f.args.headD [])) "plugin".toList] ∧
            (Event.getDigest u p (sanitize (f.args.headD []))
              "plugin".toList).fetchFailed w f = false ∧
            (Event.getManifest u p (sanitize (f.args.headD []))
              "plugin".toList).fetchFailed w f = true) ∨
          (fs = [.getDigest u p (sanitize (f.args.headD [])) "plugin".toList,
              .getManifest u p (sanitize (f.args.headD [])) "plugin".toList,
              .getConfigBlob u p (sanitize (f.args.headD []))] ∧
            (Event.getDigest u p (sanitize (f.args.headD []))
              "plugin".toList).fetchFailed w f = false ∧
            (Event.getManifest u p (sanitize (f.args.headD []))
              "plugin".toList).fetchFailed w f = false ∧
            (Event.getConfigBlob u p (sanitize (f.args.headD []))).fetchFailed w f
              = true) := by
        unfold Event.fetchFailed
        rcases hfs with ⟨a1, a2⟩ | ⟨a1, a2, a3⟩ | ⟨a1, a2, a3, a4⟩
        · exact Or.inl ⟨a1, Option.isSome_iff_ne_none.mpr a2⟩
        · exact Or.inr (Or.inl ⟨a1, by rw [a2]; rfl, Option.isSome_iff_ne_none.mpr a3⟩)
        · exact Or.inr (Or.inr ⟨a1, by rw [a2]; rfl, by rw [a3]; rfl,
            Option.isSome_iff_ne_none.mpr a4⟩)
      refine ⟨hstop.2, ?_, u, p, ?_⟩
      · intro x hxm
        rw [hstop.1] at hxm
        simp only [Res.globals] at hxm
        rw [ht] at hxm
        have hq : x.quiet := by
          rcases List.mem_append.mp hxm with h5 | h5
          · rcases List.mem_append.mp h5 with h6 | h6
            · exact (hl.calm x h6).1
            · rcases hfs2 with ⟨h7, -⟩ | ⟨h7, -⟩ | ⟨h7, -⟩ <;> rw [h7] at h6 <;>
                simp only [List.mem_cons, List.mem_singleton, List.not_mem_nil, or_false] at h6
              · rw [h6]; exact quiet_getDigest _ _ _ _
              · rcases h6 with h6 | h6 <;> rw [h6]
                · exact quiet_getDigest _ _ _ _
                · exact quiet_getManifest _ _ _ _
              · rcases h6 with h6 | h6 | h6 <;> rw [h6]
                · exact quiet_getDigest _ _ _ _
                · exact quiet_getManifest _ _ _ _
                · exact quiet_getConfigBlob _ _ _
          · exact (hj x h5).json_quiet
        exact hq
      · rw [hstop.1]
        exact fetch_stop_shape w f _ g4.trace fs js _ _ _ ht hl.calm hj rfl rfl rfl hfs2
    · exfalso
      rw [hx] at hr
      have hstop := main_of_stop w f (by rw [hr]; rfl)
      rw [hr] at hstop
      rw [hstop.1] at he
      simp only [Res.globals] at he
      rw [ht] at he
      rcases List.mem_append.mp he with h5 | h5
      · rw [fetchFailed_of_not_fetch w f e (hl.calm e h5).2] at hc
        exact absurd hc (by simp)
      · simp only [List.mem_cons, List.mem_singleton, List.not_mem_nil, or_false] at h5
        rcases h5 with h6 | h6 <;> rw [h6] at hc
        · rw [fetchFailed_of_none w f _ hd] at hc
          exact absurd hc (by simp)
        · rw [fetchFailed_of_none w f _ hm] at hc
          exact absurd hc (by simp)
    · exfalso
      rw [hx] at hr
      have hpre : ∀ x ∈ g1.trace, x.fetchFailed w f = false := by
        intro x hxm
        rw [t.trace] at hxm
        rcases List.mem_append.mp hxm with h5 | h5
        · exact fetchFailed_of_not_fetch w f x (hl.calm x h5).2
        · simp only [List.mem_cons, List.mem_singleton, List.not_mem_nil, or_false] at h5
          rcases h5 with h6 | h6 | h6 <;> rw [h6]
          · exact fetchFailed_of_none w f _ hd
          · exact fetchFailed_of_none w f _ hm
          · exact fetchFailed_of_none w f _ hb
      obtain ⟨swarm, probe, rm, inst, g2, hi, hfail, hok⟩ := installTestRemove_exact w g1
      have hinst : ∀ x ∈ g2.trace, x.fetchFailed w f = false := by
        intro x hxm
        rw [hi.records.trace] at hxm
        rcases List.mem_append.mp hxm with h5 | h5
        · exact hpre x h5
        · exact fetchFailed_of_not_fetch w f x (hi.install_not_fetch x h5)
      cases hf : inst.failed with
      | true =>
        obtain ⟨post, hp⟩ := main_after_return w f g2 (hr.trans (hfail hf))
        rw [hp.trace] at he
        rcases List.mem_append.mp he with h5 | h5
        · rw [hinst e h5] at hc
          exact absurd hc (by simp)
        · rw [fetchFailed_of_not_fetch w f e (hp.reports e h5).report_not_fetch] at hc
          exact absurd hc (by simp)
      | false =>
        obtain ⟨cleanup, create, delete, remove, g3, h3, ht3⟩ := hok hf
        obtain ⟨post, hp⟩ := main_after_return w f g3 (hr.trans h3)
        rw [hp.trace, ht3.records.trace] at he
        rcases List.mem_append.mp he with h5 | h5
        · rcases List.mem_append.mp h5 with h6 | h6
          · rw [hinst e h6] at hc
            exact absurd hc (by simp)
          · rw [fetchFailed_of_not_fetch w f e (ht3.test_not_fetch e h6)] at hc
            exact absurd hc (by simp)
        · rw [fetchFailed_of_not_fetch w f e (hp.reports e h5).report_not_fetch] at hc
          exact absurd hc (by simp)

theorem failed_fetch_ends_run_witness :
    (∃ e ∈ (main sampleWorldManifestError (sampleFlags "acme/netplug:1.0".toList)).globals.trace,
      e.fetchFailed sampleWorldManifestError (sampleFlags "acme/netplug:1.0".toList) = true) ∧
    (main sampleWorldManifestError (sampleFlags "acme/netplug:1.0".toList)).exitStatus
      = some 1 ∧
    (main sampleWorldManifestError (sampleFlags "acme/netplug:1.0".toList)).globals.trace.filter
      Event.isFetch
      = [.getDigest "u".toList "p".toList "acme/netplug:1.0".toList "plugin".toList,
          .getManifest "u".toList "p".toList "acme/netplug:1.0".toList "plugin".toList] ∧
    (∀ x ∈ (main sampleWorldManifestError
        (sampleFlags "acme/netplug:1.0".toList)).globals.trace,
      x.isInstall = false ∧ x.isNetwork = false) :=
  ⟨by decide,
    (failed_fetch_ends_run sampleWorldManifestError (sampleFlags "acme/netplug:1.0".toList)
      (by decide)).1,
    by decide,
    (failed_fetch_ends_run sampleWorldManifestError (sampleFlags "acme/netplug:1.0".toList)
      (by decide)).2.1⟩

/-! ## The findings log -/

/-- C25. Each of `printSuccess`, `printWarning` and `printError` returns with `Messages`
and `HTMLMessages` being what they were with exactly one entry appended at the end: the
stored text of the finding, and its HTML row. -/
theorem findings_log_is_append_only (w : World) (m : Str) (g : Globals) :
    (∃ g1, printSuccess w m g = .ok () g1 ∧
      g1.inspectionData.Messages = g.inspectionData.Messages ++ [storedSuccess w g m] ∧
      g1.inspectionData.HTMLMessages
        = g.inspectionData.HTMLMessages ++ [formatHTMLSuccess m]) ∧
    (∃ g1, printWarning w m g = .ok () g1 ∧
      g1.inspectionData.Messages = g.inspectionData.Messages ++ [storedWarning w g m] ∧
      g1.inspectionData.HTMLMessages
        = g.inspectionData.HTMLMessages ++ [formatHTMLWarning m]) ∧
    (∃ g1, printError w m g = .ok () g1 ∧
      g1.inspectionData.Messages = g.inspectionData.Messages ++ [storedError w g m] ∧
      g1.inspectionData.HTMLMessages
        = g.inspectionData.HTMLMessages ++ [formatHTMLError m]) :=
  ⟨⟨_, rfl, rfl, rfl⟩, ⟨_, rfl, rfl, rfl⟩, ⟨_, rfl, rfl, rfl⟩⟩

theorem recordAll_counts (w : World) (calls : List Recording) (g : Globals) :
    ∃ g1, recordAll w calls g = .ok () g1 ∧
      g1.inspectionData.Messages.length = g.inspectionData.Messages.length + calls.length ∧
      g1.inspectionData.HTMLMessages.length
        = g.inspectionData.HTMLMessages.length + calls.length ∧
      g1.inspectionData.Errors = g.inspectionData.Errors + calls.countP Recording.isError ∧
      g1.inspectionData.Warnings
        = g.inspectionData.Warnings + calls.countP Recording.isWarning ∧
      g1.exitCode = (if calls.countP Recording.isError = 0 then g.exitCode else 1) := by
  induction calls generalizing g with
  | nil => exact ⟨g, rfl, rfl, rfl, rfl, rfl, rfl⟩
  | cons c cs ih =>
    have hstep : ∃ g0, c.call w g = .ok () g0 ∧
        Records [] [g0.inspectionData.Messages.getLastD []]
          (if c.isError = true then 1 else 0) (if c.isWarning = true then 1 else 0) g g0 := by
      cases c with
      | success m =>
        obtain ⟨g0, h0, t0⟩ := printSuccess_records w m g
        exact ⟨g0, h0, t0.cast rfl (by rw [t0.messages]; simp) rfl rfl⟩
      | warning m =>
        obtain ⟨g0, h0, t0⟩ := printWarning_records w m g
        exact ⟨g0, h0, t0.cast rfl (by rw [t0.messages]; simp) rfl rfl⟩
      | error m =>
        obtain ⟨g0, h0, t0⟩ := printError_records w m g
        exact ⟨g0, h0, t0.cast rfl (by rw [t0.messages]; simp) rfl rfl⟩
    obtain ⟨g0, h0, t0⟩ := hstep
    obtain ⟨g1, h1, x1, x2, x3, x4, x5⟩ := ih g0
    refine ⟨g1, ?_, ?_, ?_, ?_, ?_, ?_⟩
    · show (c.call w >>= fun _ => recordAll w cs) g = _
      rw [run_bind, h0]
      exact h1
    · rw [x1, t0.messages]
      simp
      omega
    · rw [x2, t0.html]
      simp
      omega
    · rw [x3, t0.errors, List.countP_cons]
      omega
    · rw [x4, t0.warnings, List.countP_cons]
      omega
    · rw [x5, t0.exitCode, List.countP_cons]
      cases c.isError <;> by_cases hz : List.countP Recording.isError cs = 0 <;> simp [hz]

/-- C30. From the initial globals, every sequence of calls of `printSuccess`,
`printWarning` and `printError` returns, and then `Messages` and `HTMLMessages` both
have as many entries as there were calls, `Errors` is the number of calls of
`printError`, `Warnings` is the number of calls of `printWarning`, and the exit code is 1
when `Errors` is positive and 0 otherwise. -/
theorem counters_match_recorded_findings (w : World) (calls : List Recording) :
    ∃ g, recordAll w calls initialGlobals = .ok () g ∧
      g.inspectionData.Messages.length = calls.length ∧
      g.inspectionData.HTMLMessages.length = calls.length ∧
      g.inspectionData.Errors = calls.countP Recording.isError ∧
      g.inspectionData.Warnings = calls.countP Recording.isWarning ∧
      (g.exitCode = 1 ↔ 0 < g.inspectionData.Errors) ∧
      (g.exitCode = 0 ↔ g.inspectionData.Errors = 0) := by
  obtain ⟨g, h, x1, x2, x3, x4, x5⟩ := recordAll_counts w calls initialGlobals
  have e3 : g.inspectionData.Errors = calls.countP Recording.isError := by
    rw [x3]
    show 0 + _ = _
    omega
  refine ⟨g, h, ?_, ?_, e3, ?_, ?_, ?_⟩
  · rw [x1]
    show 0 + _ = _
    omega
  · rw [x2]
    show 0 + _ = _
    omega
  · rw [x4]
    show 0 + _ = _
    omega
  · rw [x5, e3]
    by_cases hz : List.countP Recording.isError calls = 0
    · simp [hz, initialGlobals]
    · simp only [hz, if_false, true_iff]
      omega
  · rw [x5, e3]
    by_cases hz : List.countP Recording.isError calls = 0
    · simp [hz, initialGlobals]
    · simp [hz]

/-! ## Splitting a stored message and a reference -/

theorem split_at_first (c : Char) (m : Str) (h : c ∈ m) :
    ∃ a b, m = a ++ c :: b ∧ c ∉ a := by
  induction m with
  | nil => simp at h
  | cons x xs ih =>
    by_cases hx : c = x
    · exact ⟨[], xs, by simp [hx], by simp⟩
    · rcases List.mem_cons.mp h with h1 | h1
      · exact absurd h1 hx
      · obtain ⟨a, b, hab, ha⟩ := ih h1
        refine ⟨x :: a, b, by simp [hab], ?_⟩
        simp only [List.mem_cons, not_or]
        exact ⟨hx, ha⟩

/-- C27. Every message that contains a colon is `a ++ ":" ++ b` with no colon in `a`,
and `parseMessage` returns `a` as status and `b` without its leading and trailing white
space as message; for every message without a colon it returns the empty status and the
message itself. -/
theorem parseMessage_splits_at_first_colon :
    (∀ m : Str, ':' ∈ m → ∃ a b, m = a ++ ':' :: b ∧ ':' ∉ a ∧
      parseMessage m = (a, TrimSpace b)) ∧
    (∀ m : Str, ':' ∉ m → parseMessage m = ([], m)) := by
  constructor
  · intro m hm
    obtain ⟨a, b, hab, ha⟩ := split_at_first ':' m hm
    exact ⟨a, b, hab, ha, by rw [hab]; exact parseMessage_of_colon a b ha⟩
  · intro m hm
    have hi : Index m ":".toList = none := (Index_singleton_eq_none ':' m).mpr hm
    unfold parseMessage
    rw [hi]

theorem take_colon_drop (s : Str) (k : Nat) (h : s[k]? = some ':') :
    s.take k ++ ":".toList ++ s.drop (k + 1) = s := by
  have hk : k < s.length := by
    rcases Nat.lt_or_ge k s.length with h1 | h1
    · exact h1
    · rw [List.getElem?_eq_none h1] at h
      exact absurd h (by simp)
  have hget : s[k] = ':' := by
    rw [List.getElem?_eq_getElem hk] at h
    exact Option.some.inj h
  have hdrop : s.drop k = ':' :: s.drop (k + 1) := by
    rw [← hget]
    exact List.drop_eq_getElem_cons hk
  calc s.take k ++ ":".toList ++ s.drop (k + 1)
      = s.take k ++ (':' :: s.drop (k + 1)) := by
        rw [List.append_assoc]
        rfl
    _ = s.take k ++ s.drop k := by rw [hdrop]
    _ = s := List.take_append_drop k s

/-- C29. Whenever `readReference` accepts the reference, the effective reference is the
sanitised first argument, it is the repository followed by a colon and the tag, and the
tag is not empty and contains no colon. -/
theorem accepted_reference_is_repository_colon_tag (w : World) (f : Flags) (g g1 : Globals)
    (h : readReference w f g = .ok () g1) :
    g1.inspectionData.DockerNetworkingPlugin = sanitize (f.args.headD []) ∧
      g1.inspectionData.DockerNetworkingPluginRepo ++ ":".toList ++
          g1.inspectionData.DockerNetworkingPluginTag
        = g1.inspectionData.DockerNetworkingPlugin ∧
      ':' ∉ g1.inspectionData.DockerNetworkingPluginTag ∧
      g1.inspectionData.DockerNetworkingPluginTag ≠ [] := by
  have h2 := readReference_spec w f g
  rw [h] at h2
  obtain ⟨k, hk, hrepo, htag⟩ := h2.split
  obtain ⟨h3, h4⟩ := LastIndex_singleton_eq_some ':' _ k hk
  refine ⟨h2.plugin, ?_, ?_, h2.tag⟩
  · rw [hrepo, htag]
    exact take_colon_drop _ k h3
  · rw [htag]
    exact h4

theorem accepted_reference_is_repository_colon_tag_witness :
    readReference sampleWorld (sampleFlags "reg.example:5000/acme/netplug:1.0;id".toList)
        initialGlobals
      = .ok () (readReference sampleWorld
          (sampleFlags "reg.example:5000/acme/netplug:1.0;id".toList) initialGlobals).globals ∧
    (readReference sampleWorld (sampleFlags "reg.example:5000/acme/netplug:1.0;id".toList)
        initialGlobals).globals.inspectionData.DockerNetworkingPluginRepo
      = "reg.example:5000/acme/netplug".toList ∧
    (readReference sampleWorld (sampleFlags "reg.example:5000/acme/netplug:1.0;id".toList)
        initialGlobals).globals.inspectionData.DockerNetworkingPluginTag = "1.0".toList ∧
    ((readReference sampleWorld (sampleFlags "reg.example:5000/acme/netplug:1.0;id".toList)
        initialGlobals).globals.inspectionData.DockerNetworkingPlugin
        = sanitize ((sampleFlags "reg.example:5000/acme/netplug:1.0;id".toList).args.headD []) ∧
      (readReference sampleWorld (sampleFlags "reg.example:5000/acme/netplug:1.0;id".toList)
          initialGlobals).globals.inspectionData.DockerNetworkingPluginRepo ++ ":".toList ++
          (readReference sampleWorld (sampleFlags "reg.example:5000/acme/netplug:1.0;id".toList)
            initialGlobals).globals.inspectionData.DockerNetworkingPluginTag
        = (readReference sampleWorld (sampleFlags "reg.example:5000/acme/netplug:1.0;id".toList)
            initialGlobals).globals.inspectionData.DockerNetworkingPlugin ∧
      ':' ∉ (readReference sampleWorld (sampleFlags "reg.example:5000/acme/netplug:1.0;id".toList)
          initialGlobals).globals.inspectionData.DockerNetworkingPluginTag ∧
      (readReference sampleWorld (sampleFlags "reg.example:5000/acme/netplug:1.0;id".toList)
          initialGlobals).globals.inspectionData.DockerNetworkingPluginTag ≠ []) :=
  ⟨by decide, by decide, by decide,
    accepted_reference_is_repository_colon_tag sampleWorld
      (sampleFlags "reg.example:5000/acme/netplug:1.0;id".toList) initialGlobals _ (by decide)⟩

/-! ## Credentials -/

theorem promptUserLoop_shape (answers : List Str) (g : Globals) :
    ∃ n, (promptUserLoop answers g).globals.trace = g.trace ++ List.replicate n .promptUser ∧
      ∀ u g1, promptUserLoop answers g = .ok u g1 → u ≠ [] ∧ u ∈ answers ∧ 0 < n := by
  induction answers generalizing g with
  | nil => exact ⟨0, by simp [promptUserLoop, Res.globals], fun u g1 h => by
      simp [promptUserLoop] at h⟩
  | cons a rest ih =>
    unfold promptUserLoop
    rw [run_bind]
    simp only [emit, modifyGlobals]
    by_cases ha : a = []
    · simp only [ha, if_true]
      obtain ⟨n, h1, h2⟩ := ih { g with trace := g.trace ++ [.promptUser] }
      refine ⟨n + 1, ?_, ?_⟩
      · rw [h1]
        simp [List.replicate_succ]
      · intro u g1 h
        obtain ⟨x1, x2, -⟩ := h2 u g1 h
        exact ⟨x1, List.mem_cons_of_mem _ x2, Nat.succ_pos n⟩
    · simp only [ha, if_false, run_pure]
      refine ⟨1, by simp [Res.globals], ?_⟩
      intro u g1 h
      simp only [Res.ok.injEq] at h
      rw [← h.1]
      exact ⟨ha, List.mem_cons_self _ _, Nat.one_pos⟩

theorem promptPasswordLoop_shape (w : World) (answers : List (Str × Option Str))
    (g : Globals) :
    ∃ evs, (promptPasswordLoop w answers g).globals.trace = g.trace ++ evs ∧
      (∀ e ∈ evs, e = .promptPassword ∨ e.isJson) ∧
      ∀ p g1, promptPasswordLoop w answers g = .ok p g1 →
        p ≠ [] ∧ (∃ err, (p, err) ∈ answers) ∧ Event.promptPassword ∈ evs := by
  induction answers generalizing g with
  | nil => exact ⟨[], by simp [promptPasswordLoop, Res.globals], fun e he => by simp at he,
      fun p g1 h => by simp [promptPasswordLoop] at h⟩
  | cons a rest ih =>
    obtain ⟨pass, err⟩ := a
    have hcont : ∀ (g0 : Globals) (js : List Event),
        g0.trace = (g.trace ++ [Event.promptPassword]) ++ js → (∀ e ∈ js, e.isJson) →
        ∃ evs, ((if pass = [] then promptPasswordLoop w rest else pure pass) g0).globals.trace
            = g.trace ++ evs ∧
          (∀ e ∈ evs, e = .promptPassword ∨ e.isJson) ∧
          ∀ p g1, (if pass = [] then promptPasswordLoop w rest else pure pass) g0 = .ok p g1 →
            p ≠ [] ∧ (∃ er, (p, er) ∈ (pass, err) :: rest) ∧ Event.promptPassword ∈ evs := by
      intro g0 js ht hjs
      by_cases hp : pass = []
      · simp only [hp, if_true]
        obtain ⟨evs, h1, h2, h3⟩ := ih g0
        refine ⟨[.promptPassword] ++ js ++ evs, ?_, ?_, ?_⟩
        · rw [h1, ht]
          simp [List.append_assoc]
        · intro e he
          rcases List.mem_append.mp he with h5 | h5
          · rcases List.mem_append.mp h5 with h6 | h6
            · simp only [List.mem_singleton] at h6
              exact Or.inl h6
            · exact Or.inr (hjs e h6)
          · exact h2 e h5
        · intro p g1 h
          obtain ⟨x1, ⟨er, x2⟩, -⟩ := h3 p g1 h
          exact ⟨x1, ⟨er, List.mem_cons_of_mem _ x2⟩, by simp⟩
      · simp only [hp, if_false, run_pure]
        refine ⟨[.promptPassword] ++ js, ?_, ?_, ?_⟩
        · simp only [Res.globals]
          rw [ht]
          simp [List.append_assoc]
        · intro e he
          rcases List.mem_append.mp he with h6 | h6
          · simp only [List.mem_singleton] at h6
            exact Or.inl h6
          · exact Or.inr (hjs e h6)
        · intro p g1 h
          simp only [Res.ok.injEq] at h
          rw [← h.1]
          exact ⟨hp, ⟨err, List.mem_cons_self _ _⟩, by simp⟩
    unfold promptPasswordLoop
    rw [run_bind]
    simp only [emit, modifyGlobals]
    rw [run_bind]
    cases err with
    | none =>
      simp only [run_pure]
      exact hcont _ [] (by simp) (fun e he => by simp at he)
    | some e =>
      simp only
      obtain ⟨g0, t, hcase⟩ := logFatalError_cases w e
        { g with trace := g.trace ++ [Event.promptPassword] }
      obtain ⟨js, ht, hjs⟩ := t.trace
      rcases hcase with hc | hc
      · rw [hc]
        exact hcont g0 js ht hjs
      · rw [hc]
        refine ⟨[.promptPassword] ++ js, ?_, ?_, fun p g1 h => by simp at h⟩
        · simp only [Res.globals]
          rw [ht]
          simp [List.append_assoc]
        · intro e he
          rcases List.mem_append.mp he with h6 | h6
          · simp only [List.mem_singleton] at h6
            exact Or.inl h6
          · exact Or.inr (hjs e h6)

theorem userPart_shape (w : World) (du : Str) (g : Globals) :
    ∃ evs, ((if du = [] then promptUserLoop w.scanUser else pure du) g).globals.trace
        = g.trace ++ evs ∧
      (∀ e ∈ evs, e = Event.promptUser) ∧ (du ≠ [] → evs = []) ∧
      ∀ u g1, (if du = [] then promptUserLoop w.scanUser else pure du) g = .ok u g1 →
        (du ≠ [] → u = du ∧ g1 = g) ∧
        (du = [] → u ∈ w.scanUser ∧ u ≠ [] ∧ Event.promptUser ∈ evs) := by
  by_cases hdu : du = []
  · simp only [hdu, if_true]
    obtain ⟨n, h1, h2⟩ := promptUserLoop_shape w.scanUser g
    refine ⟨List.replicate n .promptUser, h1, fun e he => (List.mem_replicate.mp he).2,
      fun h => absurd rfl h, ?_⟩
    intro u g1 h
    obtain ⟨x1, x2, x3⟩ := h2 u g1 h
    refine ⟨fun h0 => absurd rfl h0, fun _ => ⟨x2, x1, ?_⟩⟩
    exact List.mem_replicate.mpr ⟨by omega, rfl⟩
  · simp only [hdu, if_false, run_pure]
    refine ⟨[], by simp [Res.globals], fun e he => by simp at he, fun _ => rfl, ?_⟩
    intro u g1 h
    simp only [Res.ok.injEq] at h
    exact ⟨fun _ => ⟨h.1.symm, h.2.symm⟩, fun h0 => h0.elim⟩

theorem passwordPart_shape (w : World) (pw : Str) (g : Globals) :
    ∃ evs, ((if pw = [] then promptPasswordLoop w w.readPassword else pure pw) g).globals.trace
        = g.trace ++ evs ∧
      (∀ e ∈ evs, e = Event.promptPassword ∨ e.isJson) ∧ (pw ≠ [] → evs = []) ∧
      ∀ p g1, (if pw = [] then promptPasswordLoop w w.readPassword else pure pw) g
          = .ok p g1 →
        (pw ≠ [] → p = pw ∧ g1 = g) ∧
        (pw = [] → (∃ err, (p, err) ∈ w.readPassword) ∧ p ≠ [] ∧
          Event.promptPassword ∈ evs) := by
  by_cases hpw : pw = []
  · simp only [hpw, if_true]
    obtain ⟨evs, h1, h2, h3⟩ := promptPasswordLoop_shape w w.readPassword g
    refine ⟨evs, h1, h2, fun h => absurd rfl h, ?_⟩
    intro p g1 h
    obtain ⟨x1, x2, x3⟩ := h3 p g1 h
    exact ⟨fun h0 => absurd rfl h0, fun _ => ⟨x2, x1, x3⟩⟩
  · simp only [hpw, if_false, run_pure]
    refine ⟨[], by simp [Res.globals], fun e he => by simp at he, fun _ => rfl, ?_⟩
    intro p g1 h
    simp only [Res.ok.injEq] at h
    exact ⟨fun _ => ⟨h.1.symm, h.2.symm⟩, fun h0 => h0.elim⟩

theorem readCredentials_core (w : World) (f : Flags) (g : Globals) :
    ∃ evsU evsP, (readCredentials w f g).globals.trace = g.trace ++ (evsU ++ evsP) ∧
      (∀ e ∈ evsU, e = Event.promptUser) ∧
      (∀ e ∈ evsP, e = Event.promptPassword ∨ e.isJson) ∧
      (userBeforePrompt w f ≠ [] → evsU = []) ∧
      (passwordBeforePrompt w f ≠ [] → evsP = []) ∧
      (userBeforePrompt w f ≠ [] → passwordBeforePrompt w f ≠ [] →
        readCredentials w f g = .ok (userBeforePrompt w f, passwordBeforePrompt w f) g) ∧
      ∀ u p g1, readCredentials w f g = .ok (u, p) g1 →
        (userBeforePrompt w f ≠ [] → u = userBeforePrompt w f) ∧
        (userBeforePrompt w f = [] → u ∈ w.scanUser ∧ u ≠ [] ∧ Event.promptUser ∈ evsU) ∧
        (passwordBeforePrompt w f ≠ [] → p = passwordBeforePrompt w f) ∧
        (passwordBeforePrompt w f = [] → (∃ err, (p, err) ∈ w.readPassword) ∧ p ≠ [] ∧
          Event.promptPassword ∈ evsP) := by
  unfold readCredentials userBeforePrompt passwordBeforePrompt
  simp only []
  generalize (if f.dockerUser = [] then w.getenv "DOCKER_USER".toList else f.dockerUser) = du
  generalize (if f.dockerPassword = [] then w.getenv "DOCKER_PASSWORD".toList
    else f.dockerPassword) = pw
  obtain ⟨evsU, hU1, hU2, hU3, hU4⟩ := userPart_shape w du g
  rw [run_bind]
  cases hu : (if du = [] then promptUserLoop w.scanUser else pure du) g with
  | ok u g1 =>
    rw [hu] at hU1 hU4
    simp only [Res.globals] at hU1
    obtain ⟨evsP, hP1, hP2, hP3, hP4⟩ := passwordPart_shape w pw g1
    simp only
    rw [run_bind]
    cases hp : (if pw = [] then promptPasswordLoop w w.readPassword else pure pw) g1 with
    | ok p g2 =>
      rw [hp] at hP1 hP4
      simp only [Res.globals] at hP1
      simp only [run_pure]
      obtain ⟨a1, a2⟩ := hU4 u g1 rfl
      obtain ⟨b1, b2⟩ := hP4 p g2 rfl
      refine ⟨evsU, evsP, by simp only [Res.globals]; rw [hP1, hU1, List.append_assoc],
        hU2, hP2, hU3, hP3, ?_, ?_⟩
      · intro h1 h2
        rw [(a1 h1).1, (b1 h2).1, (b1 h2).2, (a1 h1).2]
      · intro u0 p0 g0 h
        simp only [Res.ok.injEq, Prod.mk.injEq] at h
        obtain ⟨⟨h1, h2⟩, -⟩ := h
        rw [← h1, ← h2]
        exact ⟨fun h0 => (a1 h0).1, a2, fun h0 => (b1 h0).1, b2⟩
    | exit c g2 =>
      rw [hp] at hP1 hP4
      simp only [Res.globals] at hP1
      refine ⟨evsU, evsP, by simp only [Res.globals]; rw [hP1, hU1, List.append_assoc],
        hU2, hP2, hU3, hP3, ?_, fun u0 p0 g0 h => by simp at h⟩
      intro h1 h2
      have := hP3 h2
      by_cases hpw : pw = []
      · exact absurd hpw h2
      · simp [hpw] at hp
    | panic g2 =>
      rw [hp] at hP1 hP4
      simp only [Res.globals] at hP1
      refine ⟨evsU, evsP, by simp only [Res.globals]; rw [hP1, hU1, List.append_assoc],
        hU2, hP2, hU3, hP3, ?_, fun u0 p0 g0 h => by simp at h⟩
      intro h1 h2
      by_cases hpw : pw = []
      · exact absurd hpw h2
      · simp [hpw] at hp
    | hang g2 =>
      rw [hp] at hP1 hP4
      simp only [Res.globals] at hP1
      refine ⟨evsU, evsP, by simp only [Res.globals]; rw [hP1, hU1, List.append_assoc],
        hU2, hP2, hU3, hP3, ?_, fun u0 p0 g0 h => by simp at h⟩
      intro h1 h2
      by_cases hpw : pw = []
      · exact absurd hpw h2
      · simp [hpw] at hp
  | exit c g1 =>
    rw [hu] at hU1
    simp only [Res.globals] at hU1
    refine ⟨evsU, [], by simp only [Res.globals]; rw [hU1]; simp, hU2,
      fun e he => by simp at he, hU3, fun _ => rfl, ?_, fun u0 p0 g0 h => by simp at h⟩
    intro h1 h2
    simp [h1] at hu
  | panic g1 =>
    rw [hu] at hU1
    simp only [Res.globals] at hU1
    refine ⟨evsU, [], by simp only [Res.globals]; rw [hU1]; simp, hU2,
      fun e he => by simp at he, hU3, fun _ => rfl, ?_, fun u0 p0 g0 h => by simp at h⟩
    intro h1 h2
    simp [h1] at hu
  | hang g1 =>
    rw [hu] at hU1
    simp only [Res.globals] at hU1
    refine ⟨evsU, [], by simp only [Res.globals]; rw [hU1]; simp, hU2,
      fun e he => by simp at he, hU3, fun _ => rfl, ?_, fun u0 p0 g0 h => by simp at h⟩
    intro h1 h2
    simp [h1] at hu

theorem userBeforePrompt_cases (w : World) (f : Flags) :
    (f.dockerUser ≠ [] → userBeforePrompt w f = f.dockerUser) ∧
    (f.dockerUser = [] → userBeforePrompt w f = w.getenv "DOCKER_USER".toList) := by
  unfold userBeforePrompt
  constructor
  · intro h
    simp only [h, if_false]
  · intro h
    simp only [h, if_true]

theorem passwordBeforePrompt_cases (w : World) (f : Flags) :
    (f.dockerPassword ≠ [] → passwordBeforePrompt w f = f.dockerPassword) ∧
    (f.dockerPassword = [] →
      passwordBeforePrompt w f = w.getenv "DOCKER_PASSWORD".toList) := by
  unfold passwordBeforePrompt
  constructor
  · intro h
    simp only [h, if_false]
  · intro h
    simp only [h, if_true]

/-- C21. In the part of `main` that reads the credentials (lines 824-853), for user and
password alike: when the flag is not empty its value is the one returned; when the flag
is empty and the environment variable is not, the value of the variable is returned; in
both cases no prompt for that credential is among the events of this part.  Only when
both are empty does the value come from the prompt: it is a non-empty answer, and the
prompt is among the events.  When both credentials are supplied the part returns at once
with the globals unchanged. -/
theorem credentials_from_flag_environment_prompt (w : World) (f : Flags) (g : Globals) :
    ∃ evs, (readCredentials w f g).globals.trace = g.trace ++ evs ∧
      (f.dockerUser ≠ [] → Event.promptUser ∉ evs) ∧
      (f.dockerUser = [] → w.getenv "DOCKER_USER".toList ≠ [] → Event.promptUser ∉ evs) ∧
      (f.dockerPassword ≠ [] → Event.promptPassword ∉ evs) ∧
      (f.dockerPassword = [] → w.getenv "DOCKER_PASSWORD".toList ≠ [] →
        Event.promptPassword ∉ evs) ∧
      (∀ u p g1, readCredentials w f g = .ok (u, p) g1 →
        (f.dockerUser ≠ [] → u = f.dockerUser) ∧
        (f.dockerUser = [] → w.getenv "DOCKER_USER".toList ≠ [] →
          u = w.getenv "DOCKER_USER".toList) ∧
        (f.dockerUser = [] → w.getenv "DOCKER_USER".toList = [] →
          u ∈ w.scanUser ∧ u ≠ [] ∧ Event.promptUser ∈ evs) ∧
        (f.dockerPassword ≠ [] → p = f.dockerPassword) ∧
        (f.dockerPassword = [] → w.getenv "DOCKER_PASSWORD".toList ≠ [] →
          p = w.getenv "DOCKER_PASSWORD".toList) ∧
        (f.dockerPassword = [] → w.getenv "DOCKER_PASSWORD".toList = [] →
          (∃ err, (p, err) ∈ w.readPassword) ∧ p ≠ [] ∧ Event.promptPassword ∈ evs)) ∧
      ((f.dockerUser ≠ [] ∨ w.getenv "DOCKER_USER".toList ≠ []) →
        (f.dockerPassword ≠ [] ∨ w.getenv "DOCKER_PASSWORD".toList ≠ []) →
        ∃ u p, readCredentials w f g = .ok (u, p) g) := by
  obtain ⟨evsU, evsP, ht, hU, hP, hU0, hP0, hboth, hok⟩ := readCredentials_core w f g
  obtain ⟨u1, u2⟩ := userBeforePrompt_cases w f
  obtain ⟨p1, p2⟩ := passwordBeforePrompt_cases w f
  have hnoU : userBeforePrompt w f ≠ [] → Event.promptUser ∉ evsU ++ evsP := by
    intro h hm
    rw [hU0 h] at hm
    rcases hP _ (by simpa using hm) with h1 | h1
    · exact absurd h1 (by simp)
    · exact h1
  have hnoP : passwordBeforePrompt w f ≠ [] → Event.promptPassword ∉ evsU ++ evsP := by
    intro h hm
    rw [hP0 h] at hm
    exact absurd (hU _ (by simpa using hm)) (by simp)
  refine ⟨evsU ++ evsP, ht, ?_, ?_, ?_, ?_, ?_, ?_⟩
  · intro h
    exact hnoU (by rw [u1 h]; exact h)
  · intro h h0
    exact hnoU (by rw [u2 h]; exact h0)
  · intro h
    exact hnoP (by rw [p1 h]; exact h)
  · intro h h0
    exact hnoP (by rw [p2 h]; exact h0)
  · intro u p g1 hr
    obtain ⟨a1, a2, a3, a4⟩ := hok u p g1 hr
    refine ⟨?_, ?_, ?_, ?_, ?_, ?_⟩
    · intro h
      rw [← u1 h]
      exact a1 (by rw [u1 h]; exact h)
    · intro h h0
      rw [← u2 h]
      exact a1 (by rw [u2 h]; exact h0)
    · intro h h0
      obtain ⟨x1, x2, x3⟩ := a2 (by rw [u2 h]; exact h0)
      exact ⟨x1, x2, List.mem_append_left _ x3⟩
    · intro h
      rw [← p1 h]
      exact a3 (by rw [p1 h]; exact h)
    · intro h h0
      rw [← p2 h]
      exact a3 (by rw [p2 h]; exact h0)
    · intro h h0
      obtain ⟨x1, x2, x3⟩ := a4 (by rw [p2 h]; exact h0)
      exact ⟨x1, x2, List.mem_append_right _ x3⟩
  · intro hu hp
    refine ⟨_, _, hboth ?_ ?_⟩
    · by_cases h : f.dockerUser = []
      · rw [u2 h]
        rcases hu with h0 | h0
        · exact absurd h h0
        · exact h0
      · rw [u1 h]
        exact h
    · by_cases h : f.dockerPassword = []
      · rw [p2 h]
        rcases hp with h0 | h0
        · exact absurd h h0
        · exact h0
      · rw [p1 h]
        exact h

/-- C22, as the claim states it, fails: with the password `from-env` in the variable
`DOCKER_PASSWORD` and the password `p` given by the flag, the password the run uses is
`p`: it is the one returned by the reading of the credentials and the one in the command
line of `docker login`. -/
theorem environment_password_not_used_when_flag_given :
    sampleWorldEnvPassword.getenv "DOCKER_PASSWORD".toList = "from-env".toList ∧
    (sampleFlags "acme/netplug:1.0".toList).dockerPassword = "p".toList ∧
    readCredentials sampleWorldEnvPassword (sampleFlags "acme/netplug:1.0".toList)
        initialGlobals
      = .ok ("u".toList, "p".toList) initialGlobals ∧
    ∃ e ∈ (main sampleWorldEnvPassword (sampleFlags "acme/netplug:1.0".toList)).globals.trace,
      e.commandLine
        = "docker login --username u --password p https://registry-1.docker.io".toList := by
  decide

/-- C22, as the program has it. With a user given by flag or environment, the reading of
the credentials returns at once with the password of the flag when that is not empty,
whatever the variable `DOCKER_PASSWORD` holds, and with the value of the variable when
the flag is empty and the variable is not; only when both are empty does the password
come from the masked prompt. -/
theorem password_flag_overrides_environment (w : World) (f : Flags) (g : Globals)
    (hu : f.dockerUser ≠ [] ∨ w.getenv "DOCKER_USER".toList ≠ []) :
    (f.dockerPassword ≠ [] → ∃ u, readCredentials w f g = .ok (u, f.dockerPassword) g) ∧
    (f.dockerPassword = [] → w.getenv "DOCKER_PASSWORD".toList ≠ [] →
      ∃ u, readCredentials w f g = .ok (u, w.getenv "DOCKER_PASSWORD".toList) g) ∧
    (f.dockerPassword = [] → w.getenv "DOCKER_PASSWORD".toList = [] →
      ∀ u p g1, readCredentials w f g = .ok (u, p) g1 →
        (∃ err, (p, err) ∈ w.readPassword) ∧ Event.promptPassword ∈ g1.trace) := by
  obtain ⟨evsU, evsP, ht, hU, hP, hU0, hP0, hboth, hok⟩ := readCredentials_core w f g
  obtain ⟨u1, u2⟩ := userBeforePrompt_cases w f
  obtain ⟨p1, p2⟩ := passwordBeforePrompt_cases w f
  have huser : userBeforePrompt w f ≠ [] := by
    by_cases h : f.dockerUser = []
    · rw [u2 h]
      rcases hu with h0 | h0
      · exact absurd h h0
      · exact h0
    · rw [u1 h]
      exact h
  refine ⟨?_, ?_, ?_⟩
  · intro h
    have h2 := hboth huser (by rw [p1 h]; exact h)
    rw [p1 h] at h2
    exact ⟨_, h2⟩
  · intro h h0
    have h2 := hboth huser (by rw [p2 h]; exact h0)
    rw [p2 h] at h2
    exact ⟨_, h2⟩
  · intro h h0 u p g1 hr
    obtain ⟨-, -, -, a4⟩ := hok u p g1 hr
    obtain ⟨x1, -, x3⟩ := a4 (by rw [p2 h]; exact h0)
    refine ⟨x1, ?_⟩
    have hg : g1.trace = g.trace ++ (evsU ++ evsP) := by
      rw [hr] at ht
      exact ht
    rw [hg]
    exact List.mem_append_right _ (List.mem_append_right _ x3)

theorem password_flag_overrides_environment_witness :
    ((sampleFlags "acme/netplug:1.0".toList).dockerUser ≠ [] ∨
      sampleWorldEnvPassword.getenv "DOCKER_USER".toList ≠ []) ∧
    (sampleFlags "acme/netplug:1.0".toList).dockerPassword ≠ [] ∧
    ∃ u, readCredentials sampleWorldEnvPassword (sampleFlags "acme/netplug:1.0".toList)
        initialGlobals
      = .ok (u, (sampleFlags "acme/netplug:1.0".toList).dockerPassword) initialGlobals :=
  ⟨Or.inl (by decide), by decide,
    (password_flag_overrides_environment sampleWorldEnvPassword
      (sampleFlags "acme/netplug:1.0".toList) initialGlobals (Or.inl (by decide))).1
      (by decide)⟩

/-! ## The pause of the delete step -/

/-- C26, as the claim states it, fails: in the run on a host without the plugin, where
every other command succeeds, the last three events are a pause, the command
`docker network rm test_network` of the delete step and the command
`docker plugin remove acme/netplug:1.0 --force`; no pause is recorded after the delete
command. -/
theorem no_pause_between_network_delete_and_plugin_remove :
    (main (sampleWorldFailing "docker plugin inspect".toList)
      (sampleFlags "acme/netplug:1.0".toList)).globals.trace.length = 16 ∧
    (main (sampleWorldFailing "docker plugin inspect".toList)
      (sampleFlags "acme/netplug:1.0".toList)).globals.trace[13]? = some Event.sleep ∧
    ((main (sampleWorldFailing "docker plugin inspect".toList)
      (sampleFlags "acme/netplug:1.0".toList)).globals.trace.drop 14).map Event.commandLine
      = ["docker network rm test_network".toList,
          "docker plugin remove acme/netplug:1.0 --force".toList] ∧
    Event.sleep ∉ (main (sampleWorldFailing "docker plugin inspect".toList)
      (sampleFlags "acme/netplug:1.0".toList)).globals.trace.drop 14 := by
  decide

/-- C26, as the program has it. In every run in which an install command succeeds, the
pause of the delete step is executed right before the command `docker network rm` of that
step, and the plugin force-remove command is the very next event after the delete
command: the record of events ends with a pause, the delete command, the force-remove
command and report events, none of which is a pause. -/
theorem pause_precedes_network_delete (w : World) (f : Flags)
    (h : ∃ e ∈ (main w f).globals.trace, e.isInstall = true ∧ e.failed = false) :
    ∃ pre delete remove post,
      (main w f).globals.trace = pre ++ [.sleep, delete, remove] ++ post ∧
      delete.commandLine = "docker network rm test_network".toList ∧
      remove.isPluginRemove = true ∧
      (∀ e ∈ post, e.isReport ∧ e ≠ Event.sleep) := by
  obtain ⟨e, he, hc1, hc2⟩ := h
  rcases main_lifecycle w f with h1 |
    ⟨g, swarm, probe, rm, inst, g1, post, hg, hi, hf, hend⟩ |
    ⟨g, swarm, probe, rm, inst, g1, cleanup, create, delete, remove, g2, post, hg, hi, hf, ht,
      hend⟩
  · rw [(h1 e he).1] at hc1
    exact absurd hc1 (by simp)
  · exfalso
    obtain ⟨-, -, -, -, hpre, -, -⟩ := hi.install_classes
    rw [hend.trace, hi.records.trace] at he
    rcases List.mem_append.mp he with h2 | h2
    · rcases List.mem_append.mp h2 with h3 | h3
      · rw [(hg.quiet e h3).1] at hc1
        exact absurd hc1 (by simp)
      · rcases List.mem_append.mp h3 with h4 | h4
        · rw [(hpre e h4).1] at hc1
          exact absurd hc1 (by simp)
        · simp only [List.mem_singleton] at h4
          rw [h4, hf] at hc2
          exact absurd hc2 (by simp)
    · rw [(hend.reports e h2).report_classes.1] at hc1
      exact absurd hc1 (by simp)
  · obtain ⟨-, -, -, hr, -, -, -⟩ := ht.test_classes
    refine ⟨g.trace ++ ([swarm, probe] ++ rm.toList ++ [inst]) ++
      ([cleanup, .sleep, create] ++ settleAfter create), delete, remove, post, ?_, ?_, hr, ?_⟩
    · rw [hend.trace, ht.records.trace, hi.records.trace]
      simp [List.append_assoc]
    · rw [ht.deleteLine]
      decide
    · intro x hx
      refine ⟨hend.reports x hx, ?_⟩
      intro hs
      have := hend.reports x hx
      rw [hs] at this
      exact this

theorem pause_precedes_network_delete_witness :
    (∃ e ∈ (main (sampleWorldFailing "docker network rm".toList)
        (sampleFlags "acme/netplug:1.0".toList)).globals.trace,
      e.isInstall = true ∧ e.failed = false) ∧
    ∃ pre delete remove post,
      (main (sampleWorldFailing "docker network rm".toList)
        (sampleFlags "acme/netplug:1.0".toList)).globals.trace
        = pre ++ [.sleep, delete, remove] ++ post ∧
      delete.commandLine = "docker network rm test_network".toList ∧
      remove.isPluginRemove = true ∧
      (∀ e ∈ post, e.isReport ∧ e ≠ Event.sleep) :=
  ⟨by decide, pause_precedes_network_delete
    (sampleWorldFailing "docker network rm".toList)
    (sampleFlags "acme/netplug:1.0".toList) (by decide)⟩

/-! ## The API endpoint of the login command -/

/-- C23. The flag `--docker-registry-api-endpoint` does not reach the login command: with
the flag set to `https://registry.example` and the variable
`DOCKER_REGISTRY_API_ENDPOINT` not set, the endpoint of the registry client is the value
of the flag and the digest is fetched there, but the one login command of the run is
`docker login --username u --password p https://registry-1.docker.io`, with the default
endpoint. -/
theorem login_ignores_api_endpoint_flag :
    (main sampleWorldEchoEndpoint (sampleFlagsWithEndpoint "acme/netplug:1.0".toList
      "https://registry.example".toList)).globals.DockerRegistryAPIEndpoint
      = "https://registry.example".toList ∧
    (main sampleWorldEchoEndpoint (sampleFlagsWithEndpoint "acme/netplug:1.0".toList
      "https://registry.example".toList)).globals.inspectionData.DockerNetworkingPluginDigest
      = "https://registry.example".toList ∧
    ((main sampleWorldEchoEndpoint (sampleFlagsWithEndpoint "acme/netplug:1.0".toList
      "https://registry.example".toList)).globals.trace.filter Event.isLogin).map
        Event.commandLine
      = ["docker login --username u --password p https://registry-1.docker.io".toList] := by
  decide

/-! ## The path of the HTML report -/

theorem runCommand_data (w : World) (command : Str) (g : Globals) :
    ∃ r g1, runCommand w command g = .ok r g1 ∧ g1.inspectionData = g.inspectionData := by
  unfold runCommand
  simp only []
  split
  · exact ⟨_, _, rfl, rfl⟩
  · exact ⟨_, _, rfl, rfl⟩

theorem openReport_data (w : World) (file : Str) (g : Globals) :
    ((if w.GOOS = "darwin".toList then do
        let _ ← runCommand w ("nohup open ".toList ++ file ++ " &".toList)
        pure ()
      else pure () : Run Unit) g).globals.inspectionData = g.inspectionData := by
  split
  · obtain ⟨r, g1, hr, hd⟩ := runCommand_data w ("nohup open ".toList ++ file ++ " &".toList) g
    rw [run_bind, hr]
    exact hd
  · rfl

theorem generateHTMLReport_eq (w : World) (g : Globals)
    (h1 : (w.htmlDirMissing && w.mkdirFails) = false) (h2 : w.createFails = false)
    (h3 : w.templateFails = false) :
    generateHTMLReport w g
      = (if w.GOOS = "darwin".toList then do
          let _ ← runCommand w ("nohup open ".toList ++
            ("html/".toList ++ ReplaceAll g.inspectionData.DockerNetworkingPluginRepo '/'
              "-".toList ++ "-".toList ++ g.inspectionData.DockerNetworkingPluginTag ++
              "_inspection_report_".toList ++ w.reportStamp ++ ".html".toList) ++ " &".toList)
          pure ()
        else pure () : Run Unit)
        { g with
          inspectionData := { g.inspectionData with HTMLReportFile :=
            ("html/".toList ++ ReplaceAll g.inspectionData.DockerNetworkingPluginRepo '/'
              "-".toList ++ "-".toList ++ g.inspectionData.DockerNetworkingPluginTag ++
              "_inspection_report_".toList ++ w.reportStamp ++ ".html".toList) }
          trace := g.trace ++ [.createFile
            ("html/".toList ++ ReplaceAll g.inspectionData.DockerNetworkingPluginRepo '/'
              "-".toList ++ "-".toList ++ g.inspectionData.DockerNetworkingPluginTag ++
              "_inspection_report_".toList ++ w.reportStamp ++ ".html".toList)] } := by
  unfold generateHTMLReport
  rw [h1, h2, h3]
  rfl

theorem generateHTMLReport_path (w : World) (g : Globals)
    (h : (generateHTMLReport w g).returned = true) :
    (generateHTMLReport w g).globals.inspectionData.HTMLReportFile
      = "html/".toList ++ ReplaceAll g.inspectionData.DockerNetworkingPluginRepo '/' "-".toList ++
        "-".toList ++ g.inspectionData.DockerNetworkingPluginTag ++
        "_inspection_report_".toList ++ w.reportStamp ++ ".html".toList := by
  cases h1 : (w.htmlDirMissing && w.mkdirFails) with
  | true =>
    have : generateHTMLReport w g = .exit 1 g := by
      unfold generateHTMLReport
      rw [h1]
      rfl
    rw [this] at h
    exact absurd h (by simp [Res.returned])
  | false =>
    cases h2 : w.createFails with
    | true =>
      have : ∃ g1, generateHTMLReport w g = .exit 1 g1 := by
        unfold generateHTMLReport
        rw [h1, h2]
        exact ⟨_, rfl⟩
      obtain ⟨g1, this⟩ := this
      rw [this] at h
      exact absurd h (by simp [Res.returned])
    | false =>
      cases h3 : w.templateFails with
      | true =>
        have : ∃ g1, generateHTMLReport w g = .exit 1 g1 := by
          unfold generateHTMLReport
          rw [h1, h2, h3]
          exact ⟨_, rfl⟩
        obtain ⟨g1, this⟩ := this
        rw [this] at h
        exact absurd h (by simp [Res.returned])
      | false =>
        rw [generateHTMLReport_eq w g h1 h2 h3, openReport_data]

/-- C24. The path of the report is `html/`, the repository with every `/` replaced by
`-`, `-`, the tag, `_inspection_report_`, the time stamp and `.html` whenever the report
is written; but the part after `html/` can hold a path separator: the reference
`localhost:5000/net` is accepted with the tag `5000/net`, and the report of that run is
the file `html/localhost-5000/net_inspection_report_2006-01-02_03-04-05.html`, in a
directory below `html/`. -/
theorem report_path_keeps_slash_of_tag :
    (∀ (w : World) (g : Globals), (generateHTMLReport w g).returned = true →
      (generateHTMLReport w g).globals.inspectionData.HTMLReportFile
        = "html/".toList ++ ReplaceAll g.inspectionData.DockerNetworkingPluginRepo '/'
            "-".toList ++ "-".toList ++ g.inspectionData.DockerNetworkingPluginTag ++
          "_inspection_report_".toList ++ w.reportStamp ++ ".html".toList) ∧
    (main sampleWorld (sampleFlagsHtml "localhost:5000/net".toList)).exitStatus = some 0 ∧
    (main sampleWorld (sampleFlagsHtml
      "localhost:5000/net".toList)).globals.inspectionData.DockerNetworkingPluginTag
      = "5000/net".toList ∧
    (main sampleWorld (sampleFlagsHtml
      "localhost:5000/net".toList)).globals.inspectionData.HTMLReportFile
      = "html/localhost-5000/net_inspection_report_2006-01-02_03-04-05.html".toList ∧
    Event.createFile
        "html/localhost-5000/net_inspection_report_2006-01-02_03-04-05.html".toList
      ∈ (main sampleWorld (sampleFlagsHtml "localhost:5000/net".toList)).globals.trace ∧
    '/' ∈ (main sampleWorld (sampleFlagsHtml
      "localhost:5000/net".toList)).globals.inspectionData.HTMLReportFile.drop 5 :=
  ⟨generateHTMLReport_path, by decide, by decide, by decide, by decide, by decide⟩

/-! ## The base layer of the manifest -/

/-- C28. When digest and manifest are fetched without error and the manifest has no
layer, the registry fetches end in a Go panic (index out of range), not in a recorded
digest; with a first layer the panic does not occur, and when the configuration blob is
fetched as well the digest recorded is that of the first layer.  The run on a registry
whose manifest has no layer ends with exit status 2, with nothing recorded and no
configuration blob fetched. -/
theorem manifest_without_layers_panics :
    (∀ (w : World) (u p : Str) (g : Globals),
      (w.GetDockerImageDigest g.DockerRegistryAuthEndpoint g.DockerRegistryAPIEndpoint u p
        g.inspectionData.DockerNetworkingPlugin "plugin".toList).2 = none →
      (w.GetDockerImageManifest g.DockerRegistryAuthEndpoint g.DockerRegistryAPIEndpoint u p
        g.inspectionData.DockerNetworkingPlugin "plugin".toList).2 = none →
      ((w.GetDockerImageManifest g.DockerRegistryAuthEndpoint g.DockerRegistryAPIEndpoint u p
          g.inspectionData.DockerNetworkingPlugin "plugin".toList).1.Layers = [] →
        ∃ g1, fetchMetadata w u p g = .panic g1) ∧
      (∀ layer0 rest,
        (w.GetDockerImageManifest g.DockerRegistryAuthEndpoint g.DockerRegistryAPIEndpoint u p
          g.inspectionData.DockerNetworkingPlugin "plugin".toList).1.Layers = layer0 :: rest →
        (w.GetDockerPluginConfigBlob g.DockerRegistryAuthEndpoint g.DockerRegistryAPIEndpoint
          u p g.inspectionData.DockerNetworkingPlugin).2 = none →
        ∃ g1, fetchMetadata w u p g = .ok () g1 ∧
          g1.inspectionData.DockerNetworkingPluginBaseLayerImageDigest = layer0)) ∧
    (main (sampleWorldLayers []) (sampleFlags "acme/netplug:1.0".toList)).exitStatus = some 2 ∧
    (main (sampleWorldLayers [])
      (sampleFlags "acme/netplug:1.0".toList)).globals.inspectionData.Messages = [] ∧
    (main (sampleWorldLayers [])
      (sampleFlags "acme/netplug:1.0".toList)).globals.trace.getLast?
      = some (Event.getManifest "u".toList "p".toList "acme/netplug:1.0".toList
          "plugin".toList) ∧
    (main (sampleWorldLayers ["sha256:a".toList, "sha256:b".toList])
      (sampleFlags "acme/netplug:1.0".toList)).globals.inspectionData.DockerNetworkingPluginBaseLayerImageDigest
      = "sha256:a".toList := by
  refine ⟨?_, by decide, by decide, by decide, by decide⟩
  intro w u p g hd hm
  constructor
  · intro hl
    unfold fetchMetadata
    simp only [run_bind, getGlobals, emit, modifyGlobals, modifyData, hd, hm, hl, run_pure,
      goPanic]
    exact ⟨_, rfl⟩
  · intro layer0 rest hl hb
    unfold fetchMetadata
    simp only [run_bind, getGlobals, emit, modifyGlobals, modifyData, hd, hm, hl, hb, run_pure,
      printSuccess, printStep]
    exact ⟨_, rfl, rfl⟩

/-! ## The outcome of the install command -/

/-- C14, as the claim states it, fails: on a host where the plugin is found installed, its
forced removal fails and the install command succeeds, `installDockerNetworkingPlugin`
returns true with the Success finding of the install as the last of three findings, but
it has recorded an Error as well: the second finding is the Error of the removal and the
error count is 1. -/
theorem successful_install_after_failed_removal_records_error :
    installDockerNetworkingPlugin (sampleWorldFailing "docker plugin remove".toList)
        "acme/netplug:1.0".toList sampleGlobals
      = .ok true (installDockerNetworkingPlugin (sampleWorldFailing "docker plugin remove".toList)
          "acme/netplug:1.0".toList sampleGlobals).globals ∧
    (∀ e ∈ (installDockerNetworkingPlugin (sampleWorldFailing "docker plugin remove".toList)
        "acme/netplug:1.0".toList sampleGlobals).globals.trace,
      e.isInstall = true → e.failed = false) ∧
    (installDockerNetworkingPlugin (sampleWorldFailing "docker plugin remove".toList)
      "acme/netplug:1.0".toList sampleGlobals).globals.inspectionData.Errors = 1 ∧
    (installDockerNetworkingPlugin (sampleWorldFailing "docker plugin remove".toList)
      "acme/netplug:1.0".toList sampleGlobals).globals.inspectionData.Messages.drop 1
      = [storedError (sampleWorldFailing "docker plugin remove".toList) sampleGlobals
          "Unable to remove the Docker networking plugin acme/netplug:1.0!, boom".toList,
        storedSuccess (sampleWorldFailing "docker plugin remove".toList) sampleGlobals
          "Docker networking plugin acme/netplug:1.0 has been installed successfully.".toList] := by
  decide

/-- C14, as the program has it. `installDockerNetworkingPlugin` runs `docker swarm init`,
the inspect probe, the forced removal `rm` exactly when the probe succeeded, and the
install command last.  When the install command fails with error text `e`, the function
returns false and its last finding is the Error `Unable to install the Docker Networking
Plugin!, ` followed by the trimmed output of the command when that is not empty and by
`e` otherwise.  When it succeeds, the function returns true and its last finding is the
Success `Docker networking plugin ... has been installed successfully.`; no Error is
recorded for the install command.  The findings before the last one are none when the
probe failed (`cleanFindings` of no removal), and the warning and the finding of the
removal when it succeeded; the error count goes up by one for a failed install command
and by one for a failed removal (`cleanErrors`).
So after a successful install command no Error has been recorded unless the removal of a
plugin found installed failed. -/
theorem install_outcome_and_removal_error (w : World) (p : Str) (g : Globals) :
    ∃ cmd args res swarm probe rm b g1, installDockerNetworkingPlugin w p g = .ok b g1 ∧
      (Event.exec cmd args res).isInstall = true ∧ probe.isInspect = true ∧
      g1.trace = g.trace ++ [swarm, probe] ++ rm.toList ++ [.exec cmd args res] ∧
      (probe.failed = true → rm = none) ∧
      (probe.failed = false → ∃ e, rm = some e ∧ e.isPluginRemove = true) ∧
      (∀ e, res.err = some e → b = false ∧
        g1.inspectionData.Messages = g.inspectionData.Messages ++
          cleanFindings w g p rm ++
          [storedError w g ("Unable to install the Docker Networking Plugin!, ".toList ++
            (if TrimSpace res.output ≠ [] then TrimSpace res.output else e))] ∧
        g1.inspectionData.Errors = g.inspectionData.Errors + cleanErrors rm + 1) ∧
      (res.err = none → b = true ∧
        g1.inspectionData.Messages = g.inspectionData.Messages ++
          cleanFindings w g p rm ++
          [storedSuccess w g ("Docker networking plugin ".toList ++
            g.inspectionData.DockerNetworkingPlugin ++
            " has been installed successfully.".toList)] ∧
        g1.inspectionData.Errors = g.inspectionData.Errors + cleanErrors rm ∧
        ((∀ r, rm = some r → r.failed = false) →
          g1.inspectionData.Errors = g.inspectionData.Errors ∧ g1.exitCode = g.exitCode)) := by
  obtain ⟨swarm, probe, rm, inst, g1, h1, -, hl1, hl2, hrm1, hrm2, t⟩ :=
    installDockerNetworkingPlugin_exact w p g
  have hcl := (install_class inst p hl2).1
  cases inst with
  | exec cmd args res =>
    refine ⟨cmd, args, res, swarm, probe, rm, _, g1, h1, hcl, (inspect_class probe p hl1).1,
      ?_, hrm1, ?_, ?_, ?_⟩
    · rw [t.trace]
      simp [List.append_assoc]
    · intro hf
      obtain ⟨e, he, hle⟩ := hrm2 hf
      exact ⟨e, he, (pluginRemove_class e p hle).1⟩
    · intro e he
      refine ⟨by simp [Event.failed, he], ?_, ?_⟩
      · rw [t.messages, ← List.append_assoc]
        simp [installFinding, commandFinding, Event.failed, Event.failureText, he]
      · rw [t.errors]
        simp [Event.errorCount, Event.failed, he, Nat.add_assoc]
    · intro he
      have hE : g1.inspectionData.Errors = g.inspectionData.Errors + cleanErrors rm := by
        rw [t.errors]
        simp [Event.errorCount, Event.failed, he]
      refine ⟨by simp [Event.failed, he], ?_, ?_, ?_⟩
      · rw [t.messages, ← List.append_assoc]
        simp [installFinding, commandFinding, Event.failed, he]
      · exact hE
      · intro hr
        have hz : cleanErrors rm = 0 := by
          cases rm with
          | none => rfl
          | some r => simp [cleanErrors, Event.errorCount, hr r rfl]
        refine ⟨by rw [hE, hz]; rfl, ?_⟩
        rw [t.exitCode]
        simp [hz, Event.errorCount, Event.failed, he]
  | _ => exact absurd hcl (by simp [Event.isInstall, Event.commandLine, HasPrefix])

/-! ## The clean run and the end of the process -/

/-- C17, as the claim states it, fails.  In the run for `acme/netplug:1.0` with `--html`
on a host without the plugin, every registry fetch and every command but the inspect
probe succeeds and the five Success findings are the only findings, with no Error and no
Warning, but the file of the report cannot be created and the exit status is 1, not 0.
And in JSON mode the reading of the credentials with no password given, where the first
read at the masked prompt fails, returns with the Error finding of the failed read
recorded and the exit code 1, before any fetch or command of the scenario is run. -/
theorem clean_run_can_end_with_status_one :
    (∀ e ∈ (main sampleWorldReportFails (sampleFlagsHtml "acme/netplug:1.0".toList)).globals.trace,
      e.fetchFailed sampleWorldReportFails (sampleFlagsHtml "acme/netplug:1.0".toList) = false) ∧
    ((main sampleWorldReportFails (sampleFlagsHtml "acme/netplug:1.0".toList)).globals.trace.filter
      Event.isFetch).length = 3 ∧
    (∀ e ∈ (main sampleWorldReportFails (sampleFlagsHtml "acme/netplug:1.0".toList)).globals.trace,
      e.failed = true → e.isInspect = true) ∧
    (∃ e ∈ (main sampleWorldReportFails (sampleFlagsHtml "acme/netplug:1.0".toList)).globals.trace,
      e.isInspect = true ∧ e.failed = true) ∧
    (∃ e ∈ (main sampleWorldReportFails (sampleFlagsHtml "acme/netplug:1.0".toList)).globals.trace,
      e.isInstall = true ∧ e.failed = false) ∧
    (∃ e ∈ (main sampleWorldReportFails (sampleFlagsHtml "acme/netplug:1.0".toList)).globals.trace,
      e.isPluginRemove = true ∧ e.failed = false) ∧
    (main sampleWorldReportFails
      (sampleFlagsHtml "acme/netplug:1.0".toList)).globals.inspectionData.Messages.length = 5 ∧
    (main sampleWorldReportFails
      (sampleFlagsHtml "acme/netplug:1.0".toList)).globals.inspectionData.Errors = 0 ∧
    (main sampleWorldReportFails
      (sampleFlagsHtml "acme/netplug:1.0".toList)).globals.inspectionData.Warnings = 0 ∧
    (main sampleWorldReportFails (sampleFlagsHtml "acme/netplug:1.0".toList)).exitStatus
      = some 1 ∧
    (readCredentials sampleWorldPasswordReadFails
      (sampleFlagsJsonNoPassword "acme/netplug:1.0".toList) jsonGlobals).returned = true ∧
    (readCredentials sampleWorldPasswordReadFails
      (sampleFlagsJsonNoPassword
        "acme/netplug:1.0".toList) jsonGlobals).globals.inspectionData.Errors = 1 ∧
    (readCredentials sampleWorldPasswordReadFails
      (sampleFlagsJsonNoPassword
        "acme/netplug:1.0".toList) jsonGlobals).globals.inspectionData.Messages
      = [storedError sampleWorldPasswordReadFails jsonGlobals "EOF".toList] ∧
    (readCredentials sampleWorldPasswordReadFails
      (sampleFlagsJsonNoPassword "acme/netplug:1.0".toList) jsonGlobals).globals.exitCode
      = 1 := by
  decide

end InspectPlugin
